import Mathlib

/-!
# Yarn: a shallow embedding of `src/yarn.c` and `src/yarn.h`

The virtual machine keeps its registers, its flag byte and its status byte in
the top of its own linear memory.  The embedding follows the C functions one
by one over an explicit state record.

Conventions of the embedding

* `yarn_uint` and `yarn_int` values are natural numbers below `2^32`
  (`4294967296`); the signed reading of a word is `toInt`.
* `size_t` is 64 bits wide (`2^64 = 18446744073709551616`).  Offsets derived
  from `memsize` by subtraction wrap as in C.  The sum `pos + bsize` of a
  32-bit offset and the size of a buffer that exists in the host, and the
  dispatch counter, stay below `2^64` and are kept as plain naturals.
* Words are stored little-endian, the byte order of the hosts the reference
  runs on.
* A buffer handed over as pointer and size is a list of bytes; an out
  parameter is passed in with the content it had before the call and handed
  back with the content it has after it.
* A local that C leaves uninitialised holds an indeterminate word, passed in
  as the argument `u`.
* A record that `malloc` hands out holds indeterminate content in the fields
  the code does not assign; `yarn_init` takes it as the argument `raw`.
* C leaves a shift of a 32-bit word by a count outside 0..31 undefined.  The
  shift instructions the code is compiled to on the hosts the reference runs
  on take the low five bits of the count, and so does the embedding.
* C leaves the signed quotient `INT_MIN / -1` undefined.  The division
  instruction the code is compiled to on the hosts the reference runs on
  traps, the signal ends the process and `yarn_execute` never returns: the
  embedding has no result there.
-/

namespace Yarn

/-- One `char` of the code buffer or of linear memory. -/
abbrev byte := Fin 256

/-- Conversion of an integer to `unsigned char`. -/
def toByte (n : Nat) : byte := ⟨n % 256, Nat.mod_lt _ (by decide)⟩

/-- Conversion of an integer to `yarn_uint`. -/
def toUint (x : Int) : Nat := (x % 4294967296).toNat

/-- The value of a 32-bit word read as `yarn_int` (two's complement). -/
def toInt (x : Nat) : Int :=
  if x % 4294967296 < 2147483648 then (x % 4294967296 : Nat)
  else (x % 4294967296 : Nat) - 4294967296

/-- The four bytes of a 32-bit word in memory order (little-endian); bits
above the 32nd are dropped. -/
def wordBytes (v : Nat) : List byte :=
  [toByte v, toByte (v / 256), toByte (v / 65536), toByte (v / 16777216)]

/-- The 32-bit word held by a four-byte buffer (little-endian). -/
def bytesWord (b : List byte) : Nat :=
  (b.getD 0 0).val + 256 * (b.getD 1 0).val + 65536 * (b.getD 2 0).val
    + 16777216 * (b.getD 3 0).val

/-! ## Constants of `yarn.h` -/

abbrev YARN_STATUS_OK : Nat := 0
abbrev YARN_STATUS_PAUSE : Nat := 1
abbrev YARN_STATUS_HALT : Nat := 2
abbrev YARN_STATUS_INVALIDMEMORY : Nat := 3
abbrev YARN_STATUS_INVALIDINSTRUCTION : Nat := 4
abbrev YARN_STATUS_DIVBYZERO : Nat := 5

abbrev YARN_FLAG_CONDITIONAL : Nat := 0

abbrev YARN_REG_INSTRUCTION : Nat := 0
abbrev YARN_REG_STACK : Nat := 1
abbrev YARN_REG_BASE : Nat := 2
abbrev YARN_REG_RETURN : Nat := 3
abbrev YARN_REG_C1 : Nat := 4
abbrev YARN_REG_C2 : Nat := 5
abbrev YARN_REG_NULL : Nat := 15
abbrev YARN_REG_NUM : Nat := 16

abbrev YARN_INST_HALT : Nat := 0x00
abbrev YARN_INST_PAUSE : Nat := 0x01
abbrev YARN_INST_NOP : Nat := 0x02
abbrev YARN_INST_ADD : Nat := 0x10
abbrev YARN_INST_SUB : Nat := 0x11
abbrev YARN_INST_MUL : Nat := 0x12
abbrev YARN_INST_DIV : Nat := 0x13
abbrev YARN_INST_DIVS : Nat := 0x14
abbrev YARN_INST_LSH : Nat := 0x15
abbrev YARN_INST_RSH : Nat := 0x16
abbrev YARN_INST_RSHS : Nat := 0x17
abbrev YARN_INST_AND : Nat := 0x18
abbrev YARN_INST_OR : Nat := 0x19
abbrev YARN_INST_XOR : Nat := 0x1A
abbrev YARN_INST_NOT : Nat := 0x1B
abbrev YARN_INST_IR : Nat := 0x20
abbrev YARN_INST_MR : Nat := 0x21
abbrev YARN_INST_RR : Nat := 0x22
abbrev YARN_INST_RM : Nat := 0x23
abbrev YARN_INST_PUSH : Nat := 0x30
abbrev YARN_INST_POP : Nat := 0x31
abbrev YARN_INST_CALL : Nat := 0x40
abbrev YARN_INST_RET : Nat := 0x41
abbrev YARN_INST_JUMP : Nat := 0x42
abbrev YARN_INST_CONDJUMP : Nat := 0x43
abbrev YARN_INST_SYSCALL : Nat := 0x44
abbrev YARN_INST_LT : Nat := 0x50
abbrev YARN_INST_LTS : Nat := 0x51
abbrev YARN_INST_LTE : Nat := 0x52
abbrev YARN_INST_LTES : Nat := 0x53
abbrev YARN_INST_EQ : Nat := 0x54
abbrev YARN_INST_NEQ : Nat := 0x55

/-- `YARN_MAP_COUNT`, the number of slots of the syscall table. -/
abbrev YARN_MAP_COUNT : Nat := 256

/-- `YARN_MAP_MASK`, `YARN_MAP_COUNT - 1`. -/
abbrev YARN_MAP_MASK : Nat := YARN_MAP_COUNT - 1

/-! ## The state -/

/-- A value of type `yarn_CFunc`: one of the three callbacks defined in
`yarn.c`, or a function of the host, known by an identifier.  The null pointer
is `none` of `Option yarn_CFunc`. -/
inductive yarn_CFunc where
  | yarn_sys_gettime
  | yarn_sys_getinstructioncount
  | yarn_sys_getvmmemory
  | host (id : Nat)
  deriving DecidableEq

/-- One slot `{ unsigned key; yarn_CFunc val; }` of the syscall table. -/
structure yarn_syscall where
  key : Nat
  val : Option yarn_CFunc
  deriving DecidableEq

/-- The record `struct yarn_state`.  `code` and `memory` are the two buffers,
read as maps from offsets to bytes; only offsets below `codesize` and
`memsize` belong to them. -/
structure yarn_state where
  code : Nat → byte
  codesize : Nat
  memory : Nat → byte
  memsize : Nat
  instructioncount : Nat
  syscalls : Nat → yarn_syscall

/-- What a run takes from outside the machine: the value `time(NULL)` returns,
the indeterminate word found in uninitialised locals (both may differ from one
dispatch to the next, so they are indexed by the dispatch counter), and the
functions of the host.  A host function is handed the `yarn_state *` and runs
code of its own: it may call any function of `yarn.h` on the machine (write
registers, memory, status and flags, load code, register syscalls, run
`yarn_execute`), and it may never return.  `call id Y` is the state in which
the function `id` leaves the machine `Y`, `none` when it does not return. -/
structure yarn_host where
  time : Nat → Nat
  uninit : Nat → Nat
  call : Nat → yarn_state → Option yarn_state

/-! ## Memory -/

/-- The copy `memcpy(mem + pos, val, bsize)` into a byte map. -/
def memcpy_to (mem : Nat → byte) (pos : Nat) (val : List byte) : Nat → byte :=
  fun i => if pos ≤ i ∧ i < pos + val.length then val.getD (i - pos) 0 else mem i

/-- The copy `memcpy(val, mem + pos, bsize)` out of a byte map: the `bsize`
bytes from `pos` on. -/
def memcpy_from (mem : Nat → byte) (pos : Nat) (bsize : Nat) : List byte :=
  (List.range bsize).map (fun k => mem (pos + k))

/-- The offset `Y->memsize - sizeof(yarn_int)` of the status byte, formed in
`size_t` and passed as a `yarn_uint`; `memsize` is `Y->memsize`. -/
def statusLocation (memsize : Nat) : Nat :=
  (memsize + 18446744073709551616 - 4) % 18446744073709551616 % 4294967296

/-- The offset `Y->memsize - 3` of the flag byte, formed in `size_t` and passed
as a `yarn_uint`. -/
def flagLocation (memsize : Nat) : Nat :=
  (memsize + 18446744073709551616 - 3) % 18446744073709551616 % 4294967296

/-- The macro `registerLocation(r)`:
`Y->memsize - (yarn_uint)(r+2) * sizeof(yarn_uint)`, formed in `size_t` and
passed as a `yarn_uint`; `r` is an `unsigned char`. -/
def registerLocation (memsize : Nat) (r : Nat) : Nat :=
  (memsize + 18446744073709551616 - (r + 2) * 4) % 18446744073709551616 % 4294967296

/-- The function `yarn_setMemory(Y, pos, val, bsize)`, the buffer `val` of
`bsize` bytes being the list `val`.  Out of bounds it calls
`yarn_setStatus(Y, YARN_STATUS_INVALIDMEMORY)`, which is `yarn_setMemory` of
one byte at the status offset; that inner call is written out here.  It is in
bounds whenever `memsize ≥ 4`; below that the C functions call each other
without end, so the embedding stands for the C code only from `memsize ≥ 4`
on. -/
def yarn_setMemory (Y : yarn_state) (pos : Nat) (val : List byte) : yarn_state :=
  if pos + val.length > Y.memsize then
    { Y with
      memory := memcpy_to Y.memory (statusLocation Y.memsize)
        [toByte YARN_STATUS_INVALIDMEMORY] }
  else
    { Y with memory := memcpy_to Y.memory pos val }

/-- The function `yarn_setStatus(Y, val)`. -/
def yarn_setStatus (Y : yarn_state) (val : Nat) : yarn_state :=
  yarn_setMemory Y (statusLocation Y.memsize) [toByte val]

/-- The function `yarn_getMemory(Y, pos, val, bsize)`: the state it leaves and
the content of the buffer `val` after the call. -/
def yarn_getMemory (Y : yarn_state) (pos : Nat) (val : List byte) : yarn_state × List byte :=
  if pos + val.length > Y.memsize then
    (yarn_setStatus Y YARN_STATUS_INVALIDMEMORY, val)
  else
    (Y, memcpy_from Y.memory pos val.length)

/-- The function `yarn_getStatus(Y)`.  Its one-byte read is in bounds whenever
`memsize ≥ 4`, so the value returned is the byte at the status offset. -/
def yarn_getStatus (Y : yarn_state) : Nat :=
  (Y.memory (statusLocation Y.memsize)).val

/-! ## Registers -/

/-- The function `yarn_getRegister(Y, reg, val)`: the state it leaves and the
word `*val` after the call, `val` being the word before the call. -/
def yarn_getRegister (Y : yarn_state) (reg : Nat) (val : Nat) : yarn_state × Nat :=
  let r := yarn_getMemory Y (registerLocation Y.memsize reg) (wordBytes val)
  (r.1, bytesWord r.2)

/-- The function `yarn_setRegister(Y, reg, val)`, `val` being the word `*val`. -/
def yarn_setRegister (Y : yarn_state) (reg : Nat) (val : Nat) : yarn_state :=
  yarn_setMemory Y (registerLocation Y.memsize reg) (wordBytes val)

/-- The function `yarn_incRegister(Y, reg, val)`; the local `rval` starts
as `u`. -/
def yarn_incRegister (Y : yarn_state) (reg : Nat) (val : Int) (u : Nat) : yarn_state :=
  let r := yarn_getRegister Y reg u
  yarn_setRegister r.1 reg (toUint ((r.2 : Int) + val))

/-! ## Stack -/

/-- The function `yarn_push(Y, val)`; the local `stk` starts as `u`. -/
def yarn_push (Y : yarn_state) (val : Nat) (u : Nat) : yarn_state :=
  let Y1 := yarn_incRegister Y YARN_REG_STACK (-4) u
  let r := yarn_getRegister Y1 YARN_REG_STACK u
  yarn_setMemory r.1 r.2 (wordBytes val)

/-- The function `yarn_pop(Y)`: the state it leaves and the word it returns;
the locals `stk` and `val` start as `u`. -/
def yarn_pop (Y : yarn_state) (u : Nat) : yarn_state × Nat :=
  let r := yarn_getRegister Y YARN_REG_STACK u
  let m := yarn_getMemory r.1 r.2 (wordBytes u)
  (yarn_incRegister m.1 YARN_REG_STACK 4 u, bytesWord m.2)

/-! ## Flags -/

/-- The function `yarn_getFlag(Y, flag)`.  Its one-byte read is in bounds
whenever `memsize ≥ 3`. -/
def yarn_getFlag (Y : yarn_state) (flag : Nat) : Nat :=
  ((Y.memory (flagLocation Y.memsize)).val >>> flag) &&& 1

/-- The function `yarn_setFlag(Y, flag)`. -/
def yarn_setFlag (Y : yarn_state) (flag : Nat) : yarn_state :=
  yarn_setMemory Y (flagLocation Y.memsize)
    [toByte ((Y.memory (flagLocation Y.memsize)).val ||| (1 <<< flag))]

/-- The function `yarn_clearFlag(Y, flag)`; `~(1 << flag)` is the 32-bit
complement. -/
def yarn_clearFlag (Y : yarn_state) (flag : Nat) : yarn_state :=
  yarn_setMemory Y (flagLocation Y.memsize)
    [toByte ((Y.memory (flagLocation Y.memsize)).val &&& (4294967295 - (1 <<< flag) % 4294967296))]

/-! ## The syscall table -/

/-- The function `hash_uint(n)`, the product reduced to `unsigned int`. -/
def hash_uint (n : Nat) : Nat := (n * 2654435761) % 4294967296

/-- The loop of `yarn_registerSysCall` from the probe value `n` on, run for
at most `fuel` probes; `none` when it is still running after them. -/
def yarn_registerSysCall_probe (Y : yarn_state) (key : Nat) (f : Option yarn_CFunc) :
    Nat → Nat → Option yarn_state
  | 0, _ => none
  | fuel + 1, n =>
    let idx := n &&& YARN_MAP_MASK
    if (Y.syscalls idx).key = key ∨ (Y.syscalls idx).val = none then
      some { Y with syscalls := fun i => if i = idx then ⟨key, f⟩ else Y.syscalls i }
    else
      yarn_registerSysCall_probe Y key f fuel ((n + 1) % 4294967296)

/-- The function `yarn_registerSysCall(Y, key, fun)`.  The slot index repeats
after `YARN_MAP_COUNT` probes and the loop does not change the table before it
leaves, so a loop that has not left after `YARN_MAP_COUNT` probes never does:
`none` stands for that. -/
def yarn_registerSysCall (Y : yarn_state) (key : Nat) (f : Option yarn_CFunc) :
    Option yarn_state :=
  yarn_registerSysCall_probe Y key f YARN_MAP_COUNT (hash_uint key)

/-- The loop of `yarn_getSysCall` from the probe value `n` on, run for at most
`fuel` probes; `none` when it is still running after them, `some none` when it
returns `NULL`. -/
def yarn_getSysCall_probe (Y : yarn_state) (key : Nat) :
    Nat → Nat → Option (Option yarn_CFunc)
  | 0, _ => none
  | fuel + 1, n =>
    let idx := n &&& YARN_MAP_MASK
    if (Y.syscalls idx).val = none then some none
    else if (Y.syscalls idx).key = key then some (Y.syscalls idx).val
    else yarn_getSysCall_probe Y key fuel ((n + 1) % 4294967296)

/-- The function `yarn_getSysCall(Y, key)`; `none` when the loop never leaves
(see `yarn_registerSysCall`). -/
def yarn_getSysCall (Y : yarn_state) (key : Nat) : Option (Option yarn_CFunc) :=
  yarn_getSysCall_probe Y key YARN_MAP_COUNT (hash_uint key)

/-- The call `(*fun)(Y)` of a callback during dispatch number
`Y.instructioncount`: the state it leaves, `none` when it does not return.
The three callbacks of `yarn.c` store the low four bytes of `time(NULL)`, of
`Y->instructioncount` and of `Y->memsize` in RETURN. -/
def yarn_callSysCall (host : yarn_host) (Y : yarn_state) : yarn_CFunc → Option yarn_state
  | .yarn_sys_gettime => some (yarn_setRegister Y YARN_REG_RETURN (host.time Y.instructioncount))
  | .yarn_sys_getinstructioncount => some (yarn_setRegister Y YARN_REG_RETURN Y.instructioncount)
  | .yarn_sys_getvmmemory => some (yarn_setRegister Y YARN_REG_RETURN Y.memsize)
  | .host id => host.call id Y

/-! ## The dispatcher -/

/-- The test of the macro `yarn_validInstruction(o)`, true when the macro lets
the instruction pass: `ip + o`, formed as a `yarn_uint`, is below `codesize`.
When it is false the macro sets the status to INVALIDINSTRUCTION and leaves
the enclosing `switch` (or, at the head of the loop body, the loop). -/
def yarn_validInstruction (Y : yarn_state) (ip o : Nat) : Bool :=
  decide ((ip + o) % 4294967296 < Y.codesize)

/-- The byte `Y->code[ip + k]`, the index formed as a `yarn_uint`. -/
def codeByte (Y : yarn_state) (ip k : Nat) : Nat :=
  (Y.code ((ip + k) % 4294967296)).val

/-- The word `*((yarn_uint *) &Y->code[ip + k])`. -/
def codeWord (Y : yarn_state) (ip k : Nat) : Nat :=
  bytesWord (memcpy_from Y.code ((ip + k) % 4294967296) 4)

/-- The locals of the loop body that the set-up macros fill: `rA`, `rB`, `d`
(also `d_s`), `valA` (also `valA_s`), `valB` (also `valB_s`).  The signed
locals hold the same 32 bits as the unsigned ones; the signed reading is taken
where an instruction uses it. -/
structure yarn_operands where
  rA : Nat
  rB : Nat
  d : Nat
  valA : Nat
  valB : Nat

/-- The macros `arithinst_setup()` and `arithinst_s_setup()`: `none` when
`yarn_validInstruction(5)` stops the instruction. -/
def arithinst_setup (Y : yarn_state) (ip u : Nat) : Option (yarn_state × yarn_operands) :=
  if yarn_validInstruction Y ip 5 then
    let rA := (codeByte Y ip 1 &&& 0xF0) >>> 4
    let rB := codeByte Y ip 1 &&& 0x0F
    let d := codeWord Y ip 2
    let b := yarn_getRegister Y rB u
    if rA = YARN_REG_NULL then
      some (b.1, ⟨rA, rB, d, d, b.2⟩)
    else
      let a := yarn_getRegister b.1 rA u
      some (a.1, ⟨rA, rB, d, a.2, b.2⟩)
  else none

/-- The macro `moveinst_setup()`. -/
def moveinst_setup (Y : yarn_state) (ip u : Nat) : Option (yarn_state × yarn_operands) :=
  if yarn_validInstruction Y ip 5 then
    let rA := (codeByte Y ip 1 &&& 0xF0) >>> 4
    let rB := codeByte Y ip 1 &&& 0x0F
    let d := codeWord Y ip 2
    if rA = YARN_REG_NULL then
      some (Y, ⟨rA, rB, d, 0, u⟩)
    else
      let a := yarn_getRegister Y rA u
      some (a.1, ⟨rA, rB, d, a.2, u⟩)
  else none

/-- The macro `stackinst_setup()`. -/
def stackinst_setup (Y : yarn_state) (ip u : Nat) : Option (yarn_state × yarn_operands) :=
  if yarn_validInstruction Y ip 1 then
    some (Y, ⟨(codeByte Y ip 1 &&& 0xF0) >>> 4, u, u, u, u⟩)
  else none

/-- The macro `branchinst_setup()`. -/
def branchinst_setup (Y : yarn_state) (ip u : Nat) : Option (yarn_state × yarn_operands) :=
  if yarn_validInstruction Y ip 4 then
    some (Y, ⟨u, u, codeWord Y ip 1, u, u⟩)
  else none

/-- The macros `conditionalinst_setup()` and `conditionalinst_s_setup()`. -/
def conditionalinst_setup (Y : yarn_state) (ip u : Nat) :
    Option (yarn_state × yarn_operands) :=
  if yarn_validInstruction Y ip 1 then
    let rA := (codeByte Y ip 1 &&& 0xF0) >>> 4
    let rB := codeByte Y ip 1 &&& 0x0F
    let a := yarn_getRegister Y rA u
    let b := yarn_getRegister a.1 rB u
    some (yarn_clearFlag b.1 YARN_FLAG_CONDITIONAL, ⟨rA, rB, u, a.2, b.2⟩)
  else none

/-- The set-up macro that opens the `case` of `instruction` in the `switch` of
`yarn_execute`; the control instructions and the `default` case have none. -/
def yarn_setup (Y : yarn_state) (ip u : Nat) (instruction : Nat) :
    Option (yarn_state × yarn_operands) :=
  if 0x10 ≤ instruction ∧ instruction ≤ 0x1B then arithinst_setup Y ip u
  else if 0x20 ≤ instruction ∧ instruction ≤ 0x23 then moveinst_setup Y ip u
  else if 0x30 ≤ instruction ∧ instruction ≤ 0x31 then stackinst_setup Y ip u
  else if 0x40 ≤ instruction ∧ instruction ≤ 0x44 then branchinst_setup Y ip u
  else if 0x50 ≤ instruction ∧ instruction ≤ 0x55 then conditionalinst_setup Y ip u
  else some (Y, ⟨u, u, u, u, u⟩)

/-- The tail `yarn_setRegister(Y, rB, &valB); yarn_incRegister(Y,
YARN_REG_INSTRUCTION, 6);` shared by the arithmetic and move cases, `v` being
the word stored. -/
def yarn_storeResult (Y : yarn_state) (o : yarn_operands) (u : Nat) (v : Nat) : yarn_state :=
  yarn_incRegister (yarn_setRegister Y o.rB v) YARN_REG_INSTRUCTION 6 u

/-- The loop `for (yarn_uint i = 0; i < d; i++) yarn_pop(Y);` of the RET
case. -/
def yarn_popMany (u : Nat) : Nat → yarn_state → yarn_state
  | 0, Y => Y
  | d + 1, Y => yarn_popMany u d (yarn_pop Y u).1

/-- The statements of the `case` of `instruction` that follow its set-up
macro, run on the state `Y` and the locals `o` the macro leaves; `ip` is the
instruction pointer read at the head of the loop body.  `none` when the case
never ends: SYSCALL on a table whose look-up loop never leaves, SYSCALL on a
callback that does not return, and DIVS of `INT_MIN` by `-1`, where the
division traps.

The shifts take the low five bits of the count.  RSHS of a negative word is
the arithmetic shift. -/
def yarn_exec (host : yarn_host) (Y : yarn_state) (ip u : Nat) (o : yarn_operands)
    (instruction : Nat) : Option yarn_state :=
  match instruction with
  | 0x00 => -- YARN_INST_HALT
    some (yarn_incRegister (yarn_setStatus Y YARN_STATUS_HALT) YARN_REG_INSTRUCTION 1 u)
  | 0x01 => -- YARN_INST_PAUSE
    some (yarn_incRegister (yarn_setStatus Y YARN_STATUS_PAUSE) YARN_REG_INSTRUCTION 1 u)
  | 0x02 => -- YARN_INST_NOP
    some (yarn_incRegister Y YARN_REG_INSTRUCTION 1 u)
  | 0x10 => -- YARN_INST_ADD
    some (yarn_storeResult Y o u ((o.valB + o.valA) % 4294967296))
  | 0x11 => -- YARN_INST_SUB
    some (yarn_storeResult Y o u (toUint ((o.valB : Int) - o.valA)))
  | 0x12 => -- YARN_INST_MUL
    some (yarn_storeResult Y o u ((o.valB * o.valA) % 4294967296))
  | 0x13 => -- YARN_INST_DIV
    if o.valA = 0 then
      some (yarn_incRegister (yarn_setStatus Y YARN_STATUS_DIVBYZERO) YARN_REG_INSTRUCTION 6 u)
    else
      some (yarn_storeResult Y o u (o.valB / o.valA))
  | 0x14 => -- YARN_INST_DIVS
    if toInt o.valA = 0 then
      some (yarn_incRegister (yarn_setStatus Y YARN_STATUS_DIVBYZERO) YARN_REG_INSTRUCTION 6 u)
    else if toInt o.valB = -2147483648 ∧ toInt o.valA = -1 then
      none
    else
      some (yarn_storeResult Y o u (toUint (Int.tdiv (toInt o.valB) (toInt o.valA))))
  | 0x15 => -- YARN_INST_LSH
    some (yarn_storeResult Y o u ((o.valB <<< (o.valA % 32)) % 4294967296))
  | 0x16 => -- YARN_INST_RSH
    some (yarn_storeResult Y o u (o.valB >>> (o.valA % 32)))
  | 0x17 => -- YARN_INST_RSHS
    some (yarn_storeResult Y o u (toUint (toInt o.valB >>> (o.valA % 32))))
  | 0x18 => -- YARN_INST_AND
    some (yarn_storeResult Y o u (o.valB &&& o.valA))
  | 0x19 => -- YARN_INST_OR
    some (yarn_storeResult Y o u (o.valB ||| o.valA))
  | 0x1A => -- YARN_INST_XOR
    some (yarn_storeResult Y o u (o.valB ^^^ o.valA))
  | 0x1B => -- YARN_INST_NOT
    some (yarn_storeResult Y o u (4294967295 - o.valA % 4294967296))
  | 0x20 => -- YARN_INST_IR
    some (yarn_storeResult Y o u ((o.valA + o.d) % 4294967296))
  | 0x21 => -- YARN_INST_MR, the local valM starts as u
    let m := yarn_getMemory Y ((o.d + o.valA) % 4294967296) (wordBytes u)
    some (yarn_storeResult m.1 o u (bytesWord m.2))
  | 0x22 => -- YARN_INST_RR
    some (yarn_storeResult Y o u o.valA)
  | 0x23 => -- YARN_INST_RM
    let b := yarn_getRegister Y o.rB o.valB
    some (yarn_incRegister
      (yarn_setMemory b.1 ((b.2 + o.d) % 4294967296) (wordBytes o.valA))
      YARN_REG_INSTRUCTION 6 u)
  | 0x30 => -- YARN_INST_PUSH
    let a := yarn_getRegister Y o.rA o.valA
    some (yarn_incRegister (yarn_push a.1 a.2 u) YARN_REG_INSTRUCTION 2 u)
  | 0x31 => -- YARN_INST_POP
    let p := yarn_pop Y u
    some (yarn_incRegister (yarn_setRegister p.1 o.rA p.2) YARN_REG_INSTRUCTION 2 u)
  | 0x40 => -- YARN_INST_CALL
    some (yarn_setRegister (yarn_push Y ((ip + 5) % 4294967296) u) YARN_REG_INSTRUCTION o.d)
  | 0x41 => -- YARN_INST_RET
    let p := yarn_pop (yarn_popMany u o.d Y) u
    some (yarn_setRegister p.1 YARN_REG_INSTRUCTION p.2)
  | 0x42 => -- YARN_INST_JUMP
    some (yarn_setRegister Y YARN_REG_INSTRUCTION o.d)
  | 0x43 => -- YARN_INST_CONDJUMP
    if yarn_getFlag Y YARN_FLAG_CONDITIONAL ≠ 0 then
      some (yarn_setRegister Y YARN_REG_INSTRUCTION o.d)
    else
      some (yarn_incRegister Y YARN_REG_INSTRUCTION 5 u)
  | 0x44 => -- YARN_INST_SYSCALL
    match yarn_getSysCall Y o.d with
    | none => none
    | some none =>
      some (yarn_incRegister (yarn_setStatus Y YARN_STATUS_INVALIDINSTRUCTION)
        YARN_REG_INSTRUCTION 5 u)
    | some (some f) =>
      match yarn_callSysCall host Y f with
      | none => none
      | some Y1 => some (yarn_incRegister Y1 YARN_REG_INSTRUCTION 5 u)
  | 0x50 => -- YARN_INST_LT
    some (yarn_incRegister
      (if o.valA < o.valB then yarn_setFlag Y YARN_FLAG_CONDITIONAL else Y)
      YARN_REG_INSTRUCTION 2 u)
  | 0x51 => -- YARN_INST_LTS
    some (yarn_incRegister
      (if toInt o.valA < toInt o.valB then yarn_setFlag Y YARN_FLAG_CONDITIONAL else Y)
      YARN_REG_INSTRUCTION 2 u)
  | 0x52 => -- YARN_INST_LTE
    some (yarn_incRegister
      (if o.valA ≤ o.valB then yarn_setFlag Y YARN_FLAG_CONDITIONAL else Y)
      YARN_REG_INSTRUCTION 2 u)
  | 0x53 => -- YARN_INST_LTES
    some (yarn_incRegister
      (if toInt o.valA ≤ toInt o.valB then yarn_setFlag Y YARN_FLAG_CONDITIONAL else Y)
      YARN_REG_INSTRUCTION 2 u)
  | 0x54 => -- YARN_INST_EQ
    some (yarn_incRegister
      (if o.valA = o.valB then yarn_setFlag Y YARN_FLAG_CONDITIONAL else Y)
      YARN_REG_INSTRUCTION 2 u)
  | 0x55 => -- YARN_INST_NEQ
    some (yarn_incRegister
      (if o.valA ≠ o.valB then yarn_setFlag Y YARN_FLAG_CONDITIONAL else Y)
      YARN_REG_INSTRUCTION 2 u)
  | _ => -- default
    some (yarn_setStatus Y YARN_STATUS_INVALIDINSTRUCTION)

/-- The `switch` statement of `yarn_execute` on the opcode `Y->code[ip]`: the
set-up macro of the case, which may stop the instruction with
INVALIDINSTRUCTION, then the statements of the case. -/
def yarn_dispatch (host : yarn_host) (Y : yarn_state) (ip : Nat) : Option yarn_state :=
  let u := host.uninit Y.instructioncount
  let instruction := (Y.code ip).val
  match yarn_setup Y ip u instruction with
  | none => some (yarn_setStatus Y YARN_STATUS_INVALIDINSTRUCTION)
  | some (Y1, o) => yarn_exec host Y1 ip u o instruction

/-- The test of the `while` loop of `yarn_execute`. -/
def yarn_running (Y : yarn_state) (icount : Int) : Prop :=
  yarn_getStatus Y = YARN_STATUS_OK ∧ (icount > 0 ∨ icount = -1)

instance (Y : yarn_state) (icount : Int) : Decidable (yarn_running Y icount) := by
  unfold yarn_running; infer_instance

/-- One pass through the body of the `while` loop of `yarn_execute`: the state
it leaves and whether the loop goes on (`false` after the `break` of
`yarn_validInstruction(0)`, which skips the counter update).  `none` when the
pass never ends. -/
def yarn_step (host : yarn_host) (Y : yarn_state) : Option (yarn_state × Bool) :=
  let r := yarn_getRegister Y YARN_REG_INSTRUCTION (host.uninit Y.instructioncount)
  if yarn_validInstruction r.1 r.2 0 then
    match yarn_dispatch host r.1 r.2 with
    | none => none
    | some Y2 => some ({ Y2 with instructioncount := Y2.instructioncount + 1 }, true)
  else
    some (yarn_setStatus r.1 YARN_STATUS_INVALIDINSTRUCTION, false)

/-- The `while` loop of `yarn_execute`, run for at most `fuel` passes: the
state when the loop is left, `none` when it is still running after `fuel`
passes or a pass never ends. -/
def yarn_loop (host : yarn_host) : Nat → yarn_state → Int → Option yarn_state
  | 0, Y, icount => if yarn_running Y icount then none else some Y
  | fuel + 1, Y, icount =>
    if yarn_running Y icount then
      match yarn_step host Y with
      | none => none
      | some (Y1, false) => some Y1
      | some (Y1, true) => yarn_loop host fuel Y1 (if icount ≠ -1 then icount - 1 else icount)
    else some Y

/-- The function `yarn_execute(Y, icount)` with at most `fuel` passes through
its loop: the status it returns and the state it leaves. -/
def yarn_execute (host : yarn_host) (fuel : Nat) (Y : yarn_state) (icount : Int) :
    Option (Nat × yarn_state) :=
  (yarn_loop host fuel Y icount).map (fun Y1 => (yarn_getStatus Y1, Y1))

/-! ## Creation and loading -/

/-- The function `yarn_init(memsize)` when both allocations succeed.  `malloc`
hands out the record uninitialised and `yarn_init` assigns only `code`,
`memsize` and `memory`: the fields `codesize` and `instructioncount` and the
slots of `syscalls` start with the indeterminate content they have in `raw`.
`calloc` zeroes linear memory.  `Y->code` is the null pointer, which no read
may follow; the embedding leaves the bytes of `raw` there.  `none` when the
registration of a built-in syscall never ends. -/
def yarn_init (memsize : Nat) (raw : yarn_state) : Option yarn_state :=
  let Y0 : yarn_state := { raw with memory := fun _ => 0, memsize := memsize }
  let Y1 := yarn_setRegister Y0 YARN_REG_INSTRUCTION 0
  let stackaddr :=
    (memsize + 18446744073709551616 - (YARN_REG_NUM + 2) * 4) % 18446744073709551616
      % 4294967296
  let Y2 := yarn_setRegister Y1 YARN_REG_STACK stackaddr
  let Y3 := yarn_setRegister Y2 YARN_REG_BASE stackaddr
  (yarn_registerSysCall Y3 0x00 (some .yarn_sys_getvmmemory)).bind fun Y4 =>
    (yarn_registerSysCall Y4 0x01 (some .yarn_sys_getinstructioncount)).bind fun Y5 =>
      yarn_registerSysCall Y5 0x02 (some .yarn_sys_gettime)

/-- The function `yarn_loadCode(Y, code, codesize)` when the allocation
succeeds, the buffer `code` of `codesize` bytes being the list `code`. -/
def yarn_loadCode (Y : yarn_state) (code : List byte) : yarn_state :=
  { Y with code := fun i => code.getD i 0, codesize := code.length }

/-- The function `yarn_getMemorySize(Y)`. -/
def yarn_getMemorySize (Y : yarn_state) : Nat := Y.memsize

/-- The function `yarn_getInstructionCount(Y)`. -/
def yarn_getInstructionCount (Y : yarn_state) : Nat := Y.instructioncount

/-! ## Notions used to state the properties -/

/-- The fields of the record other than linear memory. -/
def yarn_rest (Y : yarn_state) :
    (Nat → byte) × Nat × Nat × Nat × (Nat → yarn_syscall) :=
  (Y.code, Y.codesize, Y.memsize, Y.instructioncount, Y.syscalls)

/-- The word stored at offset `p` of a byte map. -/
def readWord (mem : Nat → byte) (p : Nat) : Nat :=
  (mem p).val + 256 * (mem (p + 1)).val + 65536 * (mem (p + 2)).val
    + 16777216 * (mem (p + 3)).val

/-- The table `syscalls[]` local to `yarn_init`: the callback it registers
under an id. -/
def yarn_builtin (id : Nat) : Option yarn_CFunc :=
  match id with
  | 0x00 => some .yarn_sys_getvmmemory
  | 0x01 => some .yarn_sys_getinstructioncount
  | 0x02 => some .yarn_sys_gettime
  | _ => none

/-- Only the built-in syscalls are registered: every slot of the table that is
not empty holds one of the three entries `yarn_init` registers, in the slot
its hash selects. -/
def yarn_onlyBuiltins (Y : yarn_state) : Prop :=
  ∀ idx, idx < YARN_MAP_COUNT → (Y.syscalls idx).val = none
    ∨ ((Y.syscalls idx).key ≤ 2 ∧ (Y.syscalls idx).val = yarn_builtin (Y.syscalls idx).key
        ∧ idx = hash_uint (Y.syscalls idx).key &&& YARN_MAP_MASK)

/-- The syscall table has an empty slot. -/
def yarn_hasEmptySlot (Y : yarn_state) : Prop :=
  ∃ idx, idx < YARN_MAP_COUNT ∧ (Y.syscalls idx).val = none

/-- The number of bytes the `case` of an opcode takes from the code buffer:
the opcode byte and the operand bytes its set-up macro decodes (one register
byte and a four-byte immediate for the arithmetic and move cases, one register
byte for the stack and compare cases, a four-byte immediate for the branch
cases).  `none` for a byte that is no opcode. -/
def yarn_instructionLength (instruction : Nat) : Option Nat :=
  if instruction ≤ 0x02 then some 1
  else if 0x10 ≤ instruction ∧ instruction ≤ 0x1B then some 6
  else if 0x20 ≤ instruction ∧ instruction ≤ 0x23 then some 6
  else if 0x30 ≤ instruction ∧ instruction ≤ 0x31 then some 2
  else if 0x40 ≤ instruction ∧ instruction ≤ 0x44 then some 5
  else if 0x50 ≤ instruction ∧ instruction ≤ 0x55 then some 2
  else none

/-- The pass the loop makes on `Y` is a DIVS that divides `INT_MIN` by `-1`:
`yarn_validInstruction(0)` lets the pass go on, the opcode at INSTRUCTION is
DIVS, and `arithinst_s_setup()` decodes the operands `valB_s = INT_MIN` and
`valA_s = -1`. -/
def yarn_divsOverflow (Y : yarn_state) : Prop :=
  yarn_validInstruction Y (yarn_getRegister Y YARN_REG_INSTRUCTION 0).2 0 = true
    ∧ (Y.code (yarn_getRegister Y YARN_REG_INSTRUCTION 0).2).val = YARN_INST_DIVS
    ∧ match arithinst_setup Y (yarn_getRegister Y YARN_REG_INSTRUCTION 0).2 0 with
      | none => False
      | some (_, o) => toInt o.valB = -2147483648 ∧ toInt o.valA = -1

instance (Y : yarn_state) : Decidable (yarn_divsOverflow Y) := by
  unfold yarn_divsOverflow
  cases arithinst_setup Y (yarn_getRegister Y YARN_REG_INSTRUCTION 0).2 0 <;> infer_instance

/-- The pass the loop makes on `Y` is a SYSCALL whose look-up ends as `r`:
`yarn_validInstruction(0)` lets the pass go on, the opcode at INSTRUCTION is
SYSCALL, `branchinst_setup()` lets the instruction pass and
`yarn_getSysCall(Y, d)` ends as `r` (`none` when it never returns, `some none`
when it returns `NULL`). -/
def yarn_syscallAt (Y : yarn_state) (r : Option (Option yarn_CFunc)) : Prop :=
  yarn_validInstruction Y (yarn_getRegister Y YARN_REG_INSTRUCTION 0).2 0 = true
    ∧ (Y.code (yarn_getRegister Y YARN_REG_INSTRUCTION 0).2).val = YARN_INST_SYSCALL
    ∧ yarn_validInstruction Y (yarn_getRegister Y YARN_REG_INSTRUCTION 0).2 4 = true
    ∧ yarn_getSysCall Y (codeWord Y (yarn_getRegister Y YARN_REG_INSTRUCTION 0).2 1) = r

instance (Y : yarn_state) (r : Option (Option yarn_CFunc)) : Decidable (yarn_syscallAt Y r) := by
  unfold yarn_syscallAt; infer_instance

/-! ## Machines used as concrete inputs -/

/-- A machine of 1024 bytes (the size the command line driver asks for) as
`yarn_init` leaves it after the three callbacks are registered in an empty
table, with C1 = 10, C2 = 3 and the code `SUB %C1,%C2,#0; HALT` loaded. -/
def exampleVM : yarn_state where
  code := fun i => toByte ([0x11, 0x45, 0, 0, 0, 0, 0].getD i 0)
  codesize := 7
  memory := fun i =>
    if i = 1008 ∨ i = 1012 then 0xB8 else if i = 1009 ∨ i = 1013 then 0x03
    else if i = 1000 then 10 else if i = 996 then 3 else 0
  memsize := 1024
  instructioncount := 0
  syscalls := fun i =>
    if i = 0 then ⟨0, some .yarn_sys_getvmmemory⟩
    else if i = 177 then ⟨1, some .yarn_sys_getinstructioncount⟩
    else if i = 98 then ⟨2, some .yarn_sys_gettime⟩
    else ⟨0, none⟩

/-- A host whose clock stands still, whose uninitialised locals hold
`0xDEADBEEF` and whose functions return at once, leaving the machine alone. -/
def exampleHost : yarn_host where
  time := fun _ => 1700000000
  uninit := fun _ => 0xDEADBEEF
  call := fun _ Y => some Y

/-- A machine whose syscall table is full: the table after the ids 0 to 255
have been registered (id `k` lands in slot `k * 177 mod 256`, so slot `i`
holds the id `i * 81 mod 256`), with the code `SYSCALL #256` loaded. -/
def fullTableVM : yarn_state where
  code := fun i => toByte ([0x44, 0, 1, 0, 0].getD i 0)
  codesize := 5
  memory := fun i =>
    if i = 1008 ∨ i = 1012 then 0xB8 else if i = 1009 ∨ i = 1013 then 0x03 else 0
  memsize := 1024
  instructioncount := 0
  syscalls := fun i => ⟨(i * 81) % 256, some (.host ((i * 81) % 256))⟩

/-- The machine `exampleVM` with only the six bytes of `SUB %C1,%C2,#0`
loaded: the instruction ends at the last byte of the code buffer. -/
def exactFitVM : yarn_state :=
  { exampleVM with codesize := 6 }

/-- The machine `exampleVM` with C1 = 0 and C2 = 7 and the code
`DIVS %C1,%C2,#0; HALT` loaded. -/
def divideVM : yarn_state :=
  { exampleVM with
    code := fun i => toByte ([0x14, 0x45, 0, 0, 0, 0, 0].getD i 0)
    memory := fun i =>
      if i = 1008 ∨ i = 1012 then 0xB8 else if i = 1009 ∨ i = 1013 then 0x03
      else if i = 996 then 7 else 0 }

/-! ## Sequences of registrations -/

/-- The calls `yarn_registerSysCall(Y, k, f)` for the pairs `(k, f)` of `regs`
taken in order, each with a callback that is not null; `none` when one of
them never returns. -/
def yarn_registerAll : yarn_state → List (Nat × yarn_CFunc) → Option yarn_state
  | Y, [] => some Y
  | Y, (k, f) :: rest =>
    (yarn_registerSysCall Y k (some f)).bind fun Y1 => yarn_registerAll Y1 rest

/-- The finite map of the specification, after the registrations `regs` made
in order from the empty map: `key` is bound to the callback of its last
registration, and a key never registered is bound to nothing. -/
def spec_lastRegistered : List (Nat × yarn_CFunc) → Nat → Option yarn_CFunc
  | [], _ => none
  | (k, f) :: rest, key =>
    match spec_lastRegistered rest key with
    | some g => some g
    | none => if k = key then some f else none

/-- Every entry of the table can be reached by the probe sequence of its key:
the slots from the one its hash selects up to its own are all occupied, by
other keys. -/
def yarn_tableChained (Y : yarn_state) : Prop :=
  ∀ s, s < 256 → (Y.syscalls s).val ≠ none →
    ∃ j, j < 256 ∧ (hash_uint (Y.syscalls s).key + j) % 256 = s
      ∧ ∀ i, i < j →
          (Y.syscalls ((hash_uint (Y.syscalls s).key + i) % 256)).val ≠ none
          ∧ (Y.syscalls ((hash_uint (Y.syscalls s).key + i) % 256)).key ≠ (Y.syscalls s).key

/-! ## More machines and programs -/

/-- A record as `malloc` may hand it out: every byte of it zero. -/
def zeroedRecord : yarn_state where
  code := fun _ => 0
  codesize := 0
  memory := fun _ => 0
  memsize := 0
  instructioncount := 0
  syscalls := fun _ => ⟨0, none⟩

/-- The machine `exampleVM` (C1 = 10, C2 = 3) with the flag byte `0xFF` and
the code `LTS %C1,%C2` loaded. -/
def compareVM : yarn_state :=
  { exampleVM with
    code := fun i => toByte ([0x51, 0x45].getD i 0)
    codesize := 2
    memory := fun i => if i = 1021 then 0xFF else exampleVM.memory i }

/-- The machine `exampleVM` (C1 = 10, C2 = 3) with the code `LSH %C1,%C2,#0`
loaded. -/
def shiftVM : yarn_state :=
  { exampleVM with
    code := fun i => toByte ([0x15, 0x45, 0, 0, 0, 0].getD i 0)
    codesize := 6 }

/-- The machine `shiftVM` with C1 = 32 and C2 = 1: a shift by the width of the
word. -/
def shiftWideVM : yarn_state :=
  { shiftVM with
    memory := fun i =>
      if i = 1008 ∨ i = 1012 then 0xB8 else if i = 1009 ∨ i = 1013 then 0x03
      else if i = 1000 then 32 else if i = 996 then 1 else 0 }

/-- A record as `malloc` may hand it out after the block was used before: the
bytes of the field `instructioncount` hold 5, the table is empty. -/
def staleRecord : yarn_state :=
  { zeroedRecord with instructioncount := 5 }

/-- The machine `exampleVM` (C1 = 10) with the code `MR %null,%C1,#0x800`
loaded: a read of four bytes at offset 2048 of a memory of 1024 bytes. -/
def loadVM : yarn_state :=
  { exampleVM with
    code := fun i => toByte ([0x21, 0xF4, 0x00, 0x08, 0, 0].getD i 0)
    codesize := 6 }

/-- The program of the call-and-return scenario for the argument `a`:

    0: IR %null,%C1,#a      20 F4 a0 a1 a2 a3
    6: PUSH %C1             30 40
    8: CALL #14             40 0E 00 00 00
   13: HALT                 00
   14: IR %null,%ret,#99    20 F3 63 00 00 00
   20: RET #1               41 01 00 00 00 -/
def callProgram (a : Nat) : List byte :=
  [0x20, 0xF4] ++ (wordBytes a
    ++ [0x30, 0x40, 0x40, 0x0E, 0, 0, 0, 0x00, 0x20, 0xF3, 0x63, 0, 0, 0, 0x41, 0x01, 0, 0, 0])

/-- The machine `exampleVM` (INSTRUCTION = 0, STACK = 952) with the code
`CALL #5; RET #0` loaded:

    0: CALL #5              40 05 00 00 00
    5: RET #0               41 00 00 00 00 -/
def callRetVM : yarn_state :=
  { exampleVM with
    code := fun i => toByte ([0x40, 5, 0, 0, 0, 0x41, 0, 0, 0, 0].getD i 0)
    codesize := 10 }

/-- The machine `exampleVM` with C1 = `0xFFFFFFFF` (-1), C2 = `0x80000000`
(`INT_MIN`) and the code `DIVS %C1,%C2,#0` loaded. -/
def overflowVM : yarn_state :=
  { exampleVM with
    code := fun i => toByte ([0x14, 0x45, 0, 0, 0, 0].getD i 0)
    codesize := 6
    memory := fun i =>
      if i = 1008 ∨ i = 1012 then 0xB8 else if i = 1009 ∨ i = 1013 then 0x03
      else if 1000 ≤ i ∧ i < 1004 then 0xFF else if i = 999 then 0x80 else 0 }

/-- The machine `exampleVM` after the host has registered one of its functions
under the id 9 (slot 57), with the code `SYSCALL #9; NOP` loaded. -/
def hostCallVM : yarn_state :=
  { exampleVM with
    code := fun i => toByte ([0x44, 9, 0, 0, 0, 0x02].getD i 0)
    codesize := 6
    syscalls := fun i => if i = 57 then ⟨9, some (.host 9)⟩ else exampleVM.syscalls i }

/-- A host like `exampleHost` whose functions set INSTRUCTION to 5 and call
`yarn_execute(Y, 1)` before they return. -/
def reentrantHost : yarn_host :=
  { exampleHost with
    call := fun _ Y => yarn_loop exampleHost 1 (yarn_setRegister Y YARN_REG_INSTRUCTION 5) 1 }

/-- A host like `exampleHost` whose functions never return. -/
def stuckHost : yarn_host :=
  { exampleHost with call := fun _ _ => none }

/-- A record as `malloc` may hand it out after the block held a machine on
which the host had registered a function under the id 9: slot 57 of the table
still holds that entry, every other byte is zero. -/
def staleTableRecord : yarn_state :=
  { zeroedRecord with
    syscalls := fun i => if i = 57 then ⟨9, some (.host 9)⟩ else ⟨0, none⟩ }

/-! # Properties -/

/-! ## Basic facts -/

@[simp] theorem memcpy_to_apply (mem : Nat → byte) (pos : Nat) (val : List byte) (i : Nat) :
    memcpy_to mem pos val i
      = if pos ≤ i ∧ i < pos + val.length then val.getD (i - pos) 0 else mem i := rfl

theorem memcpy_from_to (mem : Nat → byte) (pos : Nat) (val : List byte) :
    memcpy_from (memcpy_to mem pos val) pos val.length = val := by
  apply List.ext_getElem
  · simp [memcpy_from]
  · intro n h1 h2
    simp [memcpy_from] at h1 ⊢
    simp [h1, List.getD_eq_getElem]

theorem bytesWord_memcpy_from (mem : Nat → byte) (p : Nat) :
    bytesWord (memcpy_from mem p 4) = readWord mem p := rfl

theorem wordBytes_length (v : Nat) : (wordBytes v).length = 4 := rfl

theorem readWord_lt (mem : Nat → byte) (p : Nat) : readWord mem p < 4294967296 := by
  unfold readWord; omega

theorem readWord_memcpy_to_same (mem : Nat → byte) (p v : Nat) :
    readWord (memcpy_to mem p (wordBytes v)) p = v % 4294967296 := by
  simp [readWord, wordBytes, toByte]
  omega

theorem readWord_memcpy_to_other (mem : Nat → byte) (p q : Nat) (val : List byte)
    (h : q + 4 ≤ p ∨ p + val.length ≤ q) :
    readWord (memcpy_to mem p val) q = readWord mem q := by
  have h0 : ¬ (p ≤ q ∧ q < p + val.length) := by omega
  have h1 : ¬ (p ≤ q + 1 ∧ q + 1 < p + val.length) := by omega
  have h2 : ¬ (p ≤ q + 2 ∧ q + 2 < p + val.length) := by omega
  have h3 : ¬ (p ≤ q + 3 ∧ q + 3 < p + val.length) := by omega
  simp [readWord, h0, h1, h2, h3]

theorem memcpy_to_other (mem : Nat → byte) (p i : Nat) (val : List byte)
    (h : i < p ∨ p + val.length ≤ i) : memcpy_to mem p val i = mem i := by
  have h0 : ¬ (p ≤ i ∧ i < p + val.length) := by omega
  simp [h0]

theorem statusLocation_eq (M : Nat) (h1 : 4 ≤ M) (h2 : M < 4294967296) :
    statusLocation M = M - 4 := by
  unfold statusLocation; omega

theorem flagLocation_eq (M : Nat) (h1 : 4 ≤ M) (h2 : M < 4294967296) :
    flagLocation M = M - 3 := by
  unfold flagLocation; omega

theorem registerLocation_eq (M r : Nat) (h1 : (r + 2) * 4 ≤ M) (h2 : M < 4294967296) :
    registerLocation M r = M - (r + 2) * 4 := by
  unfold registerLocation; omega

theorem yarn_rest_memsize {Y Y1 : yarn_state} (h : yarn_rest Y1 = yarn_rest Y) :
    Y1.memsize = Y.memsize := congrArg (fun p => p.2.2.1) h

theorem yarn_rest_codesize {Y Y1 : yarn_state} (h : yarn_rest Y1 = yarn_rest Y) :
    Y1.codesize = Y.codesize := congrArg (fun p => p.2.1) h

theorem yarn_rest_code {Y Y1 : yarn_state} (h : yarn_rest Y1 = yarn_rest Y) :
    Y1.code = Y.code := congrArg (fun p => p.1) h

theorem yarn_rest_instructioncount {Y Y1 : yarn_state} (h : yarn_rest Y1 = yarn_rest Y) :
    Y1.instructioncount = Y.instructioncount := congrArg (fun p => p.2.2.2.1) h

theorem yarn_rest_syscalls {Y Y1 : yarn_state} (h : yarn_rest Y1 = yarn_rest Y) :
    Y1.syscalls = Y.syscalls := congrArg (fun p => p.2.2.2.2) h

@[simp] theorem yarn_rest_with_memory (Y : yarn_state) (m : Nat → byte) :
    yarn_rest { Y with memory := m } = yarn_rest Y := rfl

@[simp] theorem yarn_setMemory_rest (Y : yarn_state) (pos : Nat) (val : List byte) :
    yarn_rest (yarn_setMemory Y pos val) = yarn_rest Y := by
  unfold yarn_setMemory yarn_rest; split <;> rfl

@[simp] theorem yarn_setStatus_rest (Y : yarn_state) (s : Nat) :
    yarn_rest (yarn_setStatus Y s) = yarn_rest Y :=
  yarn_setMemory_rest _ _ _

@[simp] theorem yarn_getMemory_rest (Y : yarn_state) (pos : Nat) (val : List byte) :
    yarn_rest (yarn_getMemory Y pos val).1 = yarn_rest Y := by
  unfold yarn_getMemory; split
  · exact yarn_setStatus_rest _ _
  · rfl

@[simp] theorem yarn_getRegister_rest (Y : yarn_state) (r v : Nat) :
    yarn_rest (yarn_getRegister Y r v).1 = yarn_rest Y :=
  yarn_getMemory_rest _ _ _

@[simp] theorem yarn_setRegister_rest (Y : yarn_state) (r v : Nat) :
    yarn_rest (yarn_setRegister Y r v) = yarn_rest Y :=
  yarn_setMemory_rest _ _ _

@[simp] theorem yarn_incRegister_rest (Y : yarn_state) (r : Nat) (v : Int) (u : Nat) :
    yarn_rest (yarn_incRegister Y r v u) = yarn_rest Y := by
  simp [yarn_incRegister]

@[simp] theorem yarn_push_rest (Y : yarn_state) (v u : Nat) :
    yarn_rest (yarn_push Y v u) = yarn_rest Y := by
  simp [yarn_push]

@[simp] theorem yarn_pop_rest (Y : yarn_state) (u : Nat) :
    yarn_rest (yarn_pop Y u).1 = yarn_rest Y := by
  simp [yarn_pop]

@[simp] theorem yarn_setFlag_rest (Y : yarn_state) (f : Nat) :
    yarn_rest (yarn_setFlag Y f) = yarn_rest Y :=
  yarn_setMemory_rest _ _ _

@[simp] theorem yarn_clearFlag_rest (Y : yarn_state) (f : Nat) :
    yarn_rest (yarn_clearFlag Y f) = yarn_rest Y :=
  yarn_setMemory_rest _ _ _

theorem yarn_callSysCall_rest (host : yarn_host) (Y Y1 : yarn_state) (f : yarn_CFunc)
    (hf : ∀ id, f ≠ .host id) (h : yarn_callSysCall host Y f = some Y1) :
    yarn_rest Y1 = yarn_rest Y := by
  cases f with
  | host id => exact absurd rfl (hf id)
  | _ =>
    simp only [yarn_callSysCall, Option.some.injEq] at h
    subst h
    simp

@[simp] theorem yarn_popMany_rest (u d : Nat) (Y : yarn_state) :
    yarn_rest (yarn_popMany u d Y) = yarn_rest Y := by
  induction d generalizing Y with
  | zero => rfl
  | succ n ih => simp [yarn_popMany, ih]

@[simp] theorem yarn_storeResult_rest (Y : yarn_state) (o : yarn_operands) (u v : Nat) :
    yarn_rest (yarn_storeResult Y o u v) = yarn_rest Y := by
  simp [yarn_storeResult]

@[simp] theorem yarn_setMemory_memsize (Y : yarn_state) (pos : Nat) (val : List byte) :
    (yarn_setMemory Y pos val).memsize = Y.memsize := yarn_rest_memsize (by simp)

@[simp] theorem yarn_setStatus_memsize (Y : yarn_state) (s : Nat) :
    (yarn_setStatus Y s).memsize = Y.memsize := yarn_rest_memsize (by simp)

@[simp] theorem yarn_getMemory_memsize (Y : yarn_state) (pos : Nat) (val : List byte) :
    (yarn_getMemory Y pos val).1.memsize = Y.memsize := yarn_rest_memsize (by simp)

@[simp] theorem yarn_getRegister_memsize (Y : yarn_state) (r v : Nat) :
    (yarn_getRegister Y r v).1.memsize = Y.memsize := yarn_rest_memsize (by simp)

@[simp] theorem yarn_setRegister_memsize (Y : yarn_state) (r v : Nat) :
    (yarn_setRegister Y r v).memsize = Y.memsize := yarn_rest_memsize (by simp)

@[simp] theorem yarn_incRegister_memsize (Y : yarn_state) (r : Nat) (v : Int) (u : Nat) :
    (yarn_incRegister Y r v u).memsize = Y.memsize := yarn_rest_memsize (by simp)

@[simp] theorem yarn_push_memsize (Y : yarn_state) (v u : Nat) :
    (yarn_push Y v u).memsize = Y.memsize := yarn_rest_memsize (by simp)

@[simp] theorem yarn_pop_memsize (Y : yarn_state) (u : Nat) :
    (yarn_pop Y u).1.memsize = Y.memsize := yarn_rest_memsize (by simp)

/-! ### Accesses in bounds -/

theorem yarn_setMemory_inb (Y : yarn_state) (pos : Nat) (val : List byte)
    (h : pos + val.length ≤ Y.memsize) :
    yarn_setMemory Y pos val = { Y with memory := memcpy_to Y.memory pos val } := by
  unfold yarn_setMemory
  rw [if_neg (by omega)]

theorem yarn_getMemory_inb (Y : yarn_state) (pos : Nat) (val : List byte)
    (h : pos + val.length ≤ Y.memsize) :
    yarn_getMemory Y pos val = (Y, memcpy_from Y.memory pos val.length) := by
  unfold yarn_getMemory
  rw [if_neg (by omega)]

theorem yarn_setStatus_eq (Y : yarn_state) (s : Nat) (h1 : 4 ≤ Y.memsize)
    (h2 : Y.memsize < 4294967296) :
    yarn_setStatus Y s = { Y with memory := memcpy_to Y.memory (Y.memsize - 4) [toByte s] } := by
  unfold yarn_setStatus
  rw [yarn_setMemory_inb _ _ _ (by rw [statusLocation_eq _ h1 h2]; simp; omega),
    statusLocation_eq _ h1 h2]

theorem yarn_setMemory_oob (Y : yarn_state) (pos : Nat) (val : List byte)
    (h1 : 4 ≤ Y.memsize) (h2 : Y.memsize < 4294967296) (h : pos + val.length > Y.memsize) :
    yarn_setMemory Y pos val = yarn_setStatus Y YARN_STATUS_INVALIDMEMORY := by
  rw [yarn_setStatus_eq Y _ h1 h2]
  unfold yarn_setMemory
  rw [if_pos h, statusLocation_eq _ h1 h2]

theorem yarn_getStatus_eq (Y : yarn_state) (h1 : 4 ≤ Y.memsize) (h2 : Y.memsize < 4294967296) :
    yarn_getStatus Y = (Y.memory (Y.memsize - 4)).val := by
  unfold yarn_getStatus
  rw [statusLocation_eq _ h1 h2]

theorem yarn_getStatus_setStatus (Y : yarn_state) (s : Nat) (h1 : 4 ≤ Y.memsize)
    (h2 : Y.memsize < 4294967296) :
    yarn_getStatus (yarn_setStatus Y s) = s % 256 := by
  unfold yarn_getStatus
  rw [yarn_setStatus_eq Y s h1 h2, statusLocation_eq _ h1 h2]
  simp [toByte]

theorem yarn_getRegister_eq (Y : yarn_state) (r u : Nat) (h1 : (r + 2) * 4 ≤ Y.memsize)
    (h2 : Y.memsize < 4294967296) :
    yarn_getRegister Y r u = (Y, readWord Y.memory (Y.memsize - (r + 2) * 4)) := by
  unfold yarn_getRegister
  rw [yarn_getMemory_inb _ _ _ (by rw [registerLocation_eq _ _ h1 h2, wordBytes_length]; omega),
    registerLocation_eq _ _ h1 h2]
  rfl

theorem yarn_setRegister_eq (Y : yarn_state) (r v : Nat) (h1 : (r + 2) * 4 ≤ Y.memsize)
    (h2 : Y.memsize < 4294967296) :
    yarn_setRegister Y r v
      = { Y with memory := memcpy_to Y.memory (Y.memsize - (r + 2) * 4) (wordBytes v) } := by
  unfold yarn_setRegister
  rw [yarn_setMemory_inb _ _ _ (by rw [registerLocation_eq _ _ h1 h2, wordBytes_length]; omega),
    registerLocation_eq _ _ h1 h2]

theorem yarn_incRegister_eq (Y : yarn_state) (r : Nat) (d : Int) (u : Nat)
    (h1 : (r + 2) * 4 ≤ Y.memsize) (h2 : Y.memsize < 4294967296) :
    yarn_incRegister Y r d u
      = { Y with
          memory := memcpy_to Y.memory (Y.memsize - (r + 2) * 4)
            (wordBytes (toUint ((readWord Y.memory (Y.memsize - (r + 2) * 4) : Nat) + d))) } := by
  unfold yarn_incRegister
  rw [yarn_getRegister_eq Y r u h1 h2]
  exact yarn_setRegister_eq Y r _ h1 h2

theorem toUint_lt (x : Int) : toUint x < 4294967296 := by
  unfold toUint; omega

theorem toUint_mod (x : Int) : toUint x % 4294967296 = toUint x :=
  Nat.mod_eq_of_lt (toUint_lt x)

/-- The state `yarn_push` leaves, on a machine whose register file is in
bounds: STACK is lowered by four, then the word is stored at the new STACK. -/
theorem yarn_push_eq (Y : yarn_state) (v u : Nat) (hM1 : 72 ≤ Y.memsize)
    (hM2 : Y.memsize < 4294967296) :
    yarn_push Y v u
      = yarn_setMemory
          { Y with
            memory := memcpy_to Y.memory (Y.memsize - 12)
              (wordBytes (toUint ((readWord Y.memory (Y.memsize - 12) : Nat) - 4))) }
          (toUint ((readWord Y.memory (Y.memsize - 12) : Nat) - 4)) (wordBytes v) := by
  unfold yarn_push
  simp only [YARN_REG_STACK]
  rw [yarn_incRegister_eq Y 1 _ u (by omega) hM2,
    yarn_getRegister_eq _ 1 u (by simp only []; omega) (by simpa using hM2)]
  simp only []
  rw [readWord_memcpy_to_same, toUint_mod]
  rfl

/-- The state `yarn_pop` leaves and the word it returns, on a machine whose
register file is in bounds. -/
theorem yarn_pop_eq (Y : yarn_state) (u : Nat) (hM1 : 72 ≤ Y.memsize)
    (hM2 : Y.memsize < 4294967296) :
    yarn_pop Y u
      = (yarn_incRegister
            (yarn_getMemory Y (readWord Y.memory (Y.memsize - 12)) (wordBytes u)).1 1 4 u,
          bytesWord (yarn_getMemory Y (readWord Y.memory (Y.memsize - 12)) (wordBytes u)).2) := by
  unfold yarn_pop
  simp only [YARN_REG_STACK]
  rw [yarn_getRegister_eq _ 1 u (by omega) hM2]

/-! ### The dispatcher keeps everything but linear memory -/

theorem arithinst_setup_rest (Y : yarn_state) (ip u : Nat) (Y1 : yarn_state) (o : yarn_operands)
    (h : arithinst_setup Y ip u = some (Y1, o)) : yarn_rest Y1 = yarn_rest Y := by
  unfold arithinst_setup at h
  simp only [] at h
  split_ifs at h <;>
    (simp only [Option.some.injEq, Prod.mk.injEq] at h
     obtain ⟨h1, -⟩ := h
     subst h1
     simp)

theorem moveinst_setup_rest (Y : yarn_state) (ip u : Nat) (Y1 : yarn_state) (o : yarn_operands)
    (h : moveinst_setup Y ip u = some (Y1, o)) : yarn_rest Y1 = yarn_rest Y := by
  unfold moveinst_setup at h
  simp only [] at h
  split_ifs at h <;>
    (simp only [Option.some.injEq, Prod.mk.injEq] at h
     obtain ⟨h1, -⟩ := h
     subst h1
     simp)

theorem stackinst_setup_rest (Y : yarn_state) (ip u : Nat) (Y1 : yarn_state) (o : yarn_operands)
    (h : stackinst_setup Y ip u = some (Y1, o)) : yarn_rest Y1 = yarn_rest Y := by
  unfold stackinst_setup at h
  split_ifs at h
  simp only [Option.some.injEq, Prod.mk.injEq] at h
  obtain ⟨h1, -⟩ := h
  subst h1
  rfl

theorem branchinst_setup_rest (Y : yarn_state) (ip u : Nat) (Y1 : yarn_state)
    (o : yarn_operands) (h : branchinst_setup Y ip u = some (Y1, o)) :
    yarn_rest Y1 = yarn_rest Y := by
  unfold branchinst_setup at h
  split_ifs at h
  simp only [Option.some.injEq, Prod.mk.injEq] at h
  obtain ⟨h1, -⟩ := h
  subst h1
  rfl

theorem conditionalinst_setup_rest (Y : yarn_state) (ip u : Nat) (Y1 : yarn_state)
    (o : yarn_operands) (h : conditionalinst_setup Y ip u = some (Y1, o)) :
    yarn_rest Y1 = yarn_rest Y := by
  unfold conditionalinst_setup at h
  simp only [] at h
  split_ifs at h
  simp only [Option.some.injEq, Prod.mk.injEq] at h
  obtain ⟨h1, -⟩ := h
  subst h1
  simp

theorem yarn_setup_rest (Y : yarn_state) (ip u op : Nat) (Y1 : yarn_state) (o : yarn_operands)
    (h : yarn_setup Y ip u op = some (Y1, o)) : yarn_rest Y1 = yarn_rest Y := by
  unfold yarn_setup at h
  split_ifs at h
  · exact arithinst_setup_rest _ _ _ _ _ h
  · exact moveinst_setup_rest _ _ _ _ _ h
  · exact stackinst_setup_rest _ _ _ _ _ h
  · exact branchinst_setup_rest _ _ _ _ _ h
  · exact conditionalinst_setup_rest _ _ _ _ _ h
  · simp only [Option.some.injEq, Prod.mk.injEq] at h
    obtain ⟨h1, -⟩ := h
    subst h1; rfl

theorem yarn_exec_rest (host : yarn_host) (Y : yarn_state) (ip u : Nat) (o : yarn_operands)
    (op : Nat) (Y1 : yarn_state) (h : yarn_exec host Y ip u o op = some Y1)
    (hno : op = 0x44 → ∀ id, yarn_getSysCall Y o.d ≠ some (some (.host id))) :
    yarn_rest Y1 = yarn_rest Y := by
  unfold yarn_exec at h
  split at h
  case h_7 | h_25 =>
    split_ifs at h <;>
      (cases h
       simp)
  case h_8 =>
    split_ifs at h
    · cases h; simp
    · cases h; simp
  case h_26 =>
    have hno1 := hno rfl
    split at h
    · cases h
    · simp only [Option.some.injEq] at h; subst h; simp
    · rename_i f hf
      split at h
      · cases h
      · rename_i Y2 hc
        simp only [Option.some.injEq] at h
        subst h
        rw [yarn_incRegister_rest]
        exact yarn_callSysCall_rest host _ _ f (fun id hid => hno1 id (by rw [hf, hid])) hc
  all_goals
    simp only [Option.some.injEq] at h
    subst h
    simp [apply_ite yarn_rest]

/-- The set-up macro of SYSCALL leaves the state alone and decodes the id. -/
theorem yarn_setup_syscall (Y : yarn_state) (ip u : Nat) (Y1 : yarn_state) (o : yarn_operands)
    (h : yarn_setup Y ip u 0x44 = some (Y1, o)) :
    Y1 = Y ∧ o.d = codeWord Y ip 1 ∧ yarn_validInstruction Y ip 4 = true := by
  have e : yarn_setup Y ip u 0x44 = branchinst_setup Y ip u := by
    unfold yarn_setup
    rw [if_neg (by decide), if_neg (by decide), if_neg (by decide), if_pos (by decide)]
  rw [e] at h
  unfold branchinst_setup at h
  split_ifs at h with hv
  simp only [Option.some.injEq, Prod.mk.injEq] at h
  obtain ⟨h1, h2⟩ := h
  subst h1
  subst h2
  exact ⟨rfl, rfl, hv⟩

/-- The dispatcher changes nothing but linear memory, unless it calls a
function of the host. -/
theorem yarn_dispatch_rest (host : yarn_host) (Y : yarn_state) (ip : Nat) (Y1 : yarn_state)
    (h : yarn_dispatch host Y ip = some Y1)
    (hno : (Y.code ip).val = 0x44 →
      ∀ id, yarn_getSysCall Y (codeWord Y ip 1) ≠ some (some (.host id))) :
    yarn_rest Y1 = yarn_rest Y := by
  unfold yarn_dispatch at h
  simp only [] at h
  split at h
  · simp only [Option.some.injEq] at h; subst h; simp
  · rename_i Y2 o hs
    refine (yarn_exec_rest _ _ _ _ _ _ _ h ?_).trans (yarn_setup_rest _ _ _ _ _ _ hs)
    intro hop id
    rw [hop] at hs
    obtain ⟨h1, h2, -⟩ := yarn_setup_syscall Y ip _ Y2 o hs
    rw [h1, h2]
    exact hno hop id

/-- The dispatcher changes nothing but linear memory on an opcode other than
SYSCALL. -/
theorem yarn_dispatch_keeps (host : yarn_host) (Y : yarn_state) (ip : Nat) (Y1 : yarn_state)
    (hne : (Y.code ip).val ≠ 0x44) (h : yarn_dispatch host Y ip = some Y1) :
    yarn_rest Y1 = yarn_rest Y :=
  yarn_dispatch_rest host Y ip Y1 h (fun h0 => absurd h0 hne)

/-! ### The syscall table -/

theorem yarn_getSysCall_probe_none (Y : yarn_state) (key fuel : Nat) :
    ∀ n, yarn_getSysCall_probe Y key fuel n = none →
      ∀ k, k < fuel → (Y.syscalls ((n + k) % 256)).val ≠ none := by
  induction fuel with
  | zero => intro n _ k hk; omega
  | succ f ih =>
    intro n h k hk
    unfold yarn_getSysCall_probe at h
    simp only [YARN_MAP_MASK, YARN_MAP_COUNT] at h
    have hidx : n &&& (256 - 1) = n % 256 := Nat.and_pow_two_sub_one_eq_mod n 8
    rw [hidx] at h
    split_ifs at h with h1 h2
    cases k with
    | zero => simpa using h1
    | succ j =>
      have := ih _ h j (by omega)
      have e : ((n + 1) % 4294967296 + j) % 256 = (n + (j + 1)) % 256 := by omega
      rwa [e] at this

theorem yarn_getSysCall_probe_full (Y : yarn_state) (key : Nat)
    (h : ∀ idx, idx < 256 → (Y.syscalls idx).val ≠ none ∧ (Y.syscalls idx).key ≠ key)
    (fuel : Nat) : ∀ n, yarn_getSysCall_probe Y key fuel n = none := by
  induction fuel with
  | zero => intro n; rfl
  | succ f ih =>
    intro n
    unfold yarn_getSysCall_probe
    simp only [YARN_MAP_MASK, YARN_MAP_COUNT]
    have hidx : n &&& (256 - 1) = n % 256 := Nat.and_pow_two_sub_one_eq_mod n 8
    rw [hidx]
    obtain ⟨h1, h2⟩ := h (n % 256) (by omega)
    rw [if_neg h1, if_neg h2]
    exact ih _

theorem yarn_getSysCall_full (Y : yarn_state) (key : Nat)
    (h : ∀ idx, idx < 256 → (Y.syscalls idx).val ≠ none ∧ (Y.syscalls idx).key ≠ key) :
    yarn_getSysCall Y key = none :=
  yarn_getSysCall_probe_full Y key h _ _

theorem yarn_getSysCall_returns (Y : yarn_state) (key : Nat) (h : yarn_hasEmptySlot Y) :
    ∃ r, yarn_getSysCall Y key = some r := by
  obtain ⟨idx, hidx, hnone⟩ := h
  cases hr : yarn_getSysCall Y key with
  | some r => exact ⟨r, rfl⟩
  | none =>
    exfalso
    unfold yarn_getSysCall at hr
    simp only [YARN_MAP_COUNT] at hr hidx
    have := yarn_getSysCall_probe_none Y key 256 _ hr
      ((idx + 256 - hash_uint key % 256) % 256) (by omega)
    have e : (hash_uint key + (idx + 256 - hash_uint key % 256) % 256) % 256 = idx := by omega
    rw [e] at this
    exact this hnone

theorem yarn_onlyBuiltins_hasEmptySlot (Y : yarn_state) (h : yarn_onlyBuiltins Y) :
    yarn_hasEmptySlot Y := by
  refine ⟨1, by decide, ?_⟩
  rcases h 1 (by decide) with h1 | ⟨hk, -, h3⟩
  · exact h1
  · exfalso
    generalize (Y.syscalls 1).key = k at hk h3
    interval_cases k <;> revert h3 <;> decide

/-! ### One pass through the loop -/

theorem yarn_exec_syscall (host : yarn_host) (Y : yarn_state) (ip u : Nat) (o : yarn_operands) :
    yarn_exec host Y ip u o 0x44
      = match yarn_getSysCall Y o.d with
        | none => none
        | some none =>
          some (yarn_incRegister (yarn_setStatus Y YARN_STATUS_INVALIDINSTRUCTION)
            YARN_REG_INSTRUCTION 5 u)
        | some (some f) =>
          match yarn_callSysCall host Y f with
          | none => none
          | some Y1 => some (yarn_incRegister Y1 YARN_REG_INSTRUCTION 5 u) := rfl

theorem yarn_step_eq (host : yarn_host) (Y : yarn_state) (hM1 : 72 ≤ Y.memsize)
    (hM2 : Y.memsize < 4294967296) :
    yarn_step host Y
      = if yarn_validInstruction Y (readWord Y.memory (Y.memsize - 8)) 0 then
          match yarn_dispatch host Y (readWord Y.memory (Y.memsize - 8)) with
          | none => none
          | some Y2 => some ({ Y2 with instructioncount := Y2.instructioncount + 1 }, true)
        else some (yarn_setStatus Y YARN_STATUS_INVALIDINSTRUCTION, false) := by
  unfold yarn_step
  simp only [YARN_REG_INSTRUCTION]
  rw [yarn_getRegister_eq Y 0 _ (by omega) hM2]

theorem yarn_execute_not_running (host : yarn_host) (fuel : Nat) (Y : yarn_state)
    (icount : Int) (hrun : ¬ yarn_running Y icount) :
    yarn_execute host fuel Y icount = some (yarn_getStatus Y, Y) := by
  have hloop : yarn_loop host fuel Y icount = some Y := by
    cases fuel with
    | zero => simp [yarn_loop, hrun]
    | succ n => simp [yarn_loop, hrun]
  simp [yarn_execute, hloop]

theorem yarn_loop_zero (host : yarn_host) (fuel : Nat) (Y : yarn_state) :
    yarn_loop host fuel Y 0 = some Y := by
  have hrun : ¬ yarn_running Y 0 := by unfold yarn_running; omega
  cases fuel with
  | zero => simp [yarn_loop, hrun]
  | succ n => simp [yarn_loop, hrun]

/-- With status OK, `yarn_execute` with `icount` 1 is one pass through the
loop body. -/
theorem yarn_execute_one (host : yarn_host) (fuel : Nat) (Y : yarn_state)
    (hOK : yarn_getStatus Y = YARN_STATUS_OK) :
    yarn_execute host (fuel + 1) Y 1
      = (yarn_step host Y).map (fun r => (yarn_getStatus r.1, r.1)) := by
  have hrun : yarn_running Y 1 := ⟨hOK, Or.inl (by decide)⟩
  unfold yarn_execute yarn_loop
  rw [if_pos hrun]
  cases hstep : yarn_step host Y with
  | none => rfl
  | some r =>
    obtain ⟨Y1, b⟩ := r
    cases b with
    | false => rfl
    | true =>
      have h0 : (if (1 : Int) ≠ -1 then (1 : Int) - 1 else 1) = 0 := by decide
      simp only [h0, yarn_loop_zero]
      rfl

theorem yarn_getRegister_val (Y : yarn_state) (r u : Nat) (hM1 : 72 ≤ Y.memsize)
    (hM2 : Y.memsize < 4294967296) (hr : r ≤ 15) :
    (yarn_getRegister Y r u).2 = readWord Y.memory (Y.memsize - (r + 2) * 4) := by
  rw [yarn_getRegister_eq Y r u (by omega) hM2]

theorem yarn_setStatus_memory (Y : yarn_state) (s i : Nat) (hM1 : 72 ≤ Y.memsize)
    (hM2 : Y.memsize < 4294967296) (hi : i ≠ Y.memsize - 4) :
    (yarn_setStatus Y s).memory i = Y.memory i := by
  rw [yarn_setStatus_eq Y _ (by omega) hM2]
  exact memcpy_to_other _ _ _ _ (by simp; omega)

theorem yarn_setStatus_readWord (Y : yarn_state) (s p : Nat) (hM1 : 72 ≤ Y.memsize)
    (hM2 : Y.memsize < 4294967296) (hp : p + 4 ≤ Y.memsize - 4) :
    readWord (yarn_setStatus Y s).memory p = readWord Y.memory p := by
  rw [yarn_setStatus_eq Y _ (by omega) hM2]
  exact readWord_memcpy_to_other _ _ _ _ (by omega)

/-- The state in which a set-up macro leaves the step when it stops the
instruction: status INVALIDINSTRUCTION, registers and all other memory as
before. -/
theorem yarn_reject_spec (Y : yarn_state) (c : Nat) (hM1 : 72 ≤ Y.memsize)
    (hM2 : Y.memsize < 4294967296) :
    yarn_getStatus { yarn_setStatus Y 4 with instructioncount := c } = 4
    ∧ (∀ r u, r ≤ 15 →
        (yarn_getRegister { yarn_setStatus Y 4 with instructioncount := c } r u).2
          = (yarn_getRegister Y r u).2)
    ∧ (∀ i, i ≠ Y.memsize - 4 →
        ({ yarn_setStatus Y 4 with instructioncount := c } : yarn_state).memory i
          = Y.memory i) := by
  rw [yarn_setStatus_eq Y 4 (by omega) hM2]
  refine ⟨?_, ?_, ?_⟩
  · rw [yarn_getStatus_eq _ (by simp only []; omega) (by simpa using hM2)]
    simp [toByte]
    rfl
  · intro r u hr
    rw [yarn_getRegister_val _ r u (by simpa using hM1) (by simpa using hM2) hr,
      yarn_getRegister_val Y r u hM1 hM2 hr]
    exact readWord_memcpy_to_other _ _ _ _ (by simp only [List.length_singleton]; omega)
  · intro i hi
    exact memcpy_to_other _ _ _ _ (by simp only [List.length_singleton]; omega)

/-! ### Decoding -/

theorem yarn_nibbles (b : Nat) (h : b < 256) :
    (b &&& 0xF0) >>> 4 = b / 16 ∧ b &&& 0x0F = b % 16 := by
  constructor
  · rw [Nat.shiftRight_eq_div_pow]
    have h2 : (b &&& 0xF0) / 2 ^ 4 = (b &&& 0xF0) / 2 / 2 / 2 / 2 := by omega
    rw [h2, Nat.and_div_two, Nat.and_div_two, Nat.and_div_two, Nat.and_div_two]
    have h1 : (0xF0 : Nat) / 2 / 2 / 2 / 2 = 2 ^ 4 - 1 := by decide
    rw [h1, Nat.and_pow_two_sub_one_eq_mod]
    omega
  · exact Nat.and_pow_two_sub_one_eq_mod b 4

theorem yarn_validInstruction_iff (Y : yarn_state) (ip o : Nat) (h : ip + o < 4294967296) :
    yarn_validInstruction Y ip o = true ↔ ip + o < Y.codesize := by
  unfold yarn_validInstruction
  rw [decide_eq_true_eq, Nat.mod_eq_of_lt h]

theorem arithinst_setup_none (Y : yarn_state) (ip u : Nat) (h : ip + 5 < 4294967296) :
    arithinst_setup Y ip u = none ↔ Y.codesize < ip + 6 := by
  have hv := yarn_validInstruction_iff Y ip 5 h
  unfold arithinst_setup
  simp only []
  by_cases hc : yarn_validInstruction Y ip 5 = true
  · rw [if_pos hc]
    have := hv.mp hc
    constructor
    · intro h1; split_ifs at h1
    · intro h1; omega
  · rw [if_neg hc]
    have : ¬ ip + 5 < Y.codesize := fun h1 => hc (hv.mpr h1)
    constructor
    · intro _; omega
    · intro _; rfl

theorem moveinst_setup_none (Y : yarn_state) (ip u : Nat) (h : ip + 5 < 4294967296) :
    moveinst_setup Y ip u = none ↔ Y.codesize < ip + 6 := by
  have hv := yarn_validInstruction_iff Y ip 5 h
  unfold moveinst_setup
  simp only []
  by_cases hc : yarn_validInstruction Y ip 5 = true
  · rw [if_pos hc]
    have := hv.mp hc
    constructor
    · intro h1; split_ifs at h1
    · intro h1; omega
  · rw [if_neg hc]
    have : ¬ ip + 5 < Y.codesize := fun h1 => hc (hv.mpr h1)
    constructor
    · intro _; omega
    · intro _; rfl

theorem stackinst_setup_none (Y : yarn_state) (ip u : Nat) (h : ip + 1 < 4294967296) :
    stackinst_setup Y ip u = none ↔ Y.codesize < ip + 2 := by
  have hv := yarn_validInstruction_iff Y ip 1 h
  unfold stackinst_setup
  by_cases hc : yarn_validInstruction Y ip 1 = true
  · rw [if_pos hc]
    have := hv.mp hc
    constructor
    · intro h1; exact absurd h1 (by simp)
    · intro h1; omega
  · rw [if_neg hc]
    have : ¬ ip + 1 < Y.codesize := fun h1 => hc (hv.mpr h1)
    constructor
    · intro _; omega
    · intro _; rfl

theorem branchinst_setup_none (Y : yarn_state) (ip u : Nat) (h : ip + 4 < 4294967296) :
    branchinst_setup Y ip u = none ↔ Y.codesize < ip + 5 := by
  have hv := yarn_validInstruction_iff Y ip 4 h
  unfold branchinst_setup
  by_cases hc : yarn_validInstruction Y ip 4 = true
  · rw [if_pos hc]
    have := hv.mp hc
    constructor
    · intro h1; exact absurd h1 (by simp)
    · intro h1; omega
  · rw [if_neg hc]
    have : ¬ ip + 4 < Y.codesize := fun h1 => hc (hv.mpr h1)
    constructor
    · intro _; omega
    · intro _; rfl

theorem conditionalinst_setup_none (Y : yarn_state) (ip u : Nat) (h : ip + 1 < 4294967296) :
    conditionalinst_setup Y ip u = none ↔ Y.codesize < ip + 2 := by
  have hv := yarn_validInstruction_iff Y ip 1 h
  unfold conditionalinst_setup
  simp only []
  by_cases hc : yarn_validInstruction Y ip 1 = true
  · rw [if_pos hc]
    have := hv.mp hc
    constructor
    · intro h1; exact absurd h1 (by simp)
    · intro h1; omega
  · rw [if_neg hc]
    have : ¬ ip + 1 < Y.codesize := fun h1 => hc (hv.mpr h1)
    constructor
    · intro _; omega
    · intro _; rfl

/-- The set-up macro of a defined opcode stops the instruction exactly when
the instruction does not lie wholly inside the code buffer. -/
theorem yarn_setup_none (Y : yarn_state) (ip u op L : Nat) (hip : ip < Y.codesize)
    (hcs : Y.codesize + 6 < 4294967296) (hL : yarn_instructionLength op = some L) :
    yarn_setup Y ip u op = none ↔ Y.codesize < ip + L := by
  unfold yarn_instructionLength at hL
  unfold yarn_setup
  split_ifs at hL with h0 h1 h2 h3 h4 h5 <;> simp only [Option.some.injEq] at hL <;> subst hL
  · rw [if_neg (by omega), if_neg (by omega), if_neg (by omega), if_neg (by omega),
      if_neg (by omega)]
    constructor
    · intro h; exact absurd h (by simp)
    · intro h; omega
  · rw [if_pos h1]
    exact arithinst_setup_none Y ip u (by omega)
  · rw [if_neg h1, if_pos h2]
    exact moveinst_setup_none Y ip u (by omega)
  · rw [if_neg h1, if_neg h2, if_pos h3]
    exact stackinst_setup_none Y ip u (by omega)
  · rw [if_neg h1, if_neg h2, if_neg h3, if_pos h4]
    exact branchinst_setup_none Y ip u (by omega)
  · rw [if_neg h1, if_neg h2, if_neg h3, if_neg h4, if_pos h5]
    exact conditionalinst_setup_none Y ip u (by omega)

/-! ### Arithmetic instructions -/

theorem yarn_exec_add (host : yarn_host) (Y : yarn_state) (ip u : Nat) (o : yarn_operands) :
    yarn_exec host Y ip u o 0x10
      = some (yarn_storeResult Y o u ((o.valB + o.valA) % 4294967296)) := rfl

theorem yarn_exec_sub (host : yarn_host) (Y : yarn_state) (ip u : Nat) (o : yarn_operands) :
    yarn_exec host Y ip u o 0x11
      = some (yarn_storeResult Y o u (toUint ((o.valB : Int) - o.valA))) := rfl

theorem yarn_exec_mul (host : yarn_host) (Y : yarn_state) (ip u : Nat) (o : yarn_operands) :
    yarn_exec host Y ip u o 0x12
      = some (yarn_storeResult Y o u ((o.valB * o.valA) % 4294967296)) := rfl

theorem yarn_exec_div (host : yarn_host) (Y : yarn_state) (ip u : Nat) (o : yarn_operands) :
    yarn_exec host Y ip u o 0x13
      = if o.valA = 0 then
          some (yarn_incRegister (yarn_setStatus Y YARN_STATUS_DIVBYZERO) YARN_REG_INSTRUCTION 6 u)
        else some (yarn_storeResult Y o u (o.valB / o.valA)) := rfl

theorem yarn_exec_divs (host : yarn_host) (Y : yarn_state) (ip u : Nat) (o : yarn_operands) :
    yarn_exec host Y ip u o 0x14
      = if toInt o.valA = 0 then
          some (yarn_incRegister (yarn_setStatus Y YARN_STATUS_DIVBYZERO) YARN_REG_INSTRUCTION 6 u)
        else if toInt o.valB = -2147483648 ∧ toInt o.valA = -1 then
          none
        else
          some (yarn_storeResult Y o u (toUint (Int.tdiv (toInt o.valB) (toInt o.valA)))) := rfl

/-- The operands `arithinst_setup` decodes from an instruction that lies
wholly inside the code buffer. -/
theorem arithinst_setup_some (Y : yarn_state) (ip u rA rB : Nat) (hM1 : 72 ≤ Y.memsize)
    (hM2 : Y.memsize < 4294967296) (hfit : ip + 6 ≤ Y.codesize)
    (hcs : Y.codesize < 4294967296) (hregs : (Y.code (ip + 1)).val = 16 * rA + rB)
    (hrA : rA ≤ 15) (hrB : rB ≤ 15) :
    arithinst_setup Y ip u
      = some (Y, ⟨rA, rB, readWord Y.code (ip + 2),
          if rA = 15 then readWord Y.code (ip + 2)
          else readWord Y.memory (Y.memsize - (rA + 2) * 4),
          readWord Y.memory (Y.memsize - (rB + 2) * 4)⟩) := by
  have hv : yarn_validInstruction Y ip 5 = true := by
    rw [yarn_validInstruction_iff Y ip 5 (by omega)]; omega
  have hb : codeByte Y ip 1 = 16 * rA + rB := by
    unfold codeByte
    rw [Nat.mod_eq_of_lt (by omega), hregs]
  have hw : codeWord Y ip 2 = readWord Y.code (ip + 2) := by
    unfold codeWord
    rw [Nat.mod_eq_of_lt (by omega), bytesWord_memcpy_from]
  obtain ⟨hn1, hn2⟩ := yarn_nibbles (16 * rA + rB) (by omega)
  have hA : (16 * rA + rB) / 16 = rA := by omega
  have hB : (16 * rA + rB) % 16 = rB := by omega
  unfold arithinst_setup
  simp only [hv, if_true, hb, hw, hn1, hn2, hA, hB, YARN_REG_NULL]
  rw [yarn_getRegister_eq Y rB u (by omega) hM2]
  by_cases h15 : rA = 15
  · simp only [h15, if_true]
  · simp only [h15, if_false]
    rw [yarn_getRegister_eq Y rA u (by omega) hM2]

/-- The registers and the status after the tail shared by the arithmetic
cases, for a destination other than INSTRUCTION. -/
theorem yarn_storeResult_spec (Y : yarn_state) (o : yarn_operands) (u v c : Nat)
    (hM1 : 72 ≤ Y.memsize) (hM2 : Y.memsize < 4294967296) (hrB0 : 1 ≤ o.rB)
    (hrB : o.rB ≤ 15) :
    yarn_getStatus { yarn_storeResult Y o u v with instructioncount := c } = yarn_getStatus Y
    ∧ (yarn_getRegister { yarn_storeResult Y o u v with instructioncount := c } o.rB 0).2
        = v % 4294967296
    ∧ (yarn_getRegister { yarn_storeResult Y o u v with instructioncount := c } 0 0).2
        = (readWord Y.memory (Y.memsize - 8) + 6) % 4294967296 := by
  unfold yarn_storeResult
  simp only [YARN_REG_INSTRUCTION]
  rw [yarn_incRegister_eq _ 0 6 u (by simp; omega) (by simpa using hM2)]
  simp only [yarn_setRegister_memsize]
  rw [yarn_setRegister_eq Y o.rB v (by omega) hM2]
  simp only []
  have h0 : readWord (memcpy_to Y.memory (Y.memsize - (o.rB + 2) * 4) (wordBytes v))
      (Y.memsize - (0 + 2) * 4) = readWord Y.memory (Y.memsize - 8) :=
    readWord_memcpy_to_other _ _ _ _ (by rw [wordBytes_length]; omega)
  rw [h0]
  refine ⟨?_, ?_, ?_⟩
  · rw [yarn_getStatus_eq _ (by simp only []; omega) (by simpa using hM2),
      yarn_getStatus_eq Y (by omega) hM2]
    simp only []
    rw [memcpy_to_other _ _ _ _ (by rw [wordBytes_length]; omega),
      memcpy_to_other _ _ _ _ (by rw [wordBytes_length]; omega)]
  · rw [yarn_getRegister_val _ _ 0 (by simpa using hM1) (by simpa using hM2) hrB]
    simp only []
    rw [readWord_memcpy_to_other _ _ _ _ (by rw [wordBytes_length]; omega),
      readWord_memcpy_to_same]
  · rw [yarn_getRegister_val _ _ 0 (by simpa using hM1) (by simpa using hM2) (by omega)]
    simp only []
    rw [readWord_memcpy_to_same]
    have := readWord_lt Y.memory (Y.memsize - 8)
    unfold toUint
    omega

/-- The state after the statements DIV and DIVS run on a zero divisor: status
DIVBYZERO, INSTRUCTION six further, everything else as before. -/
theorem yarn_divzero_spec (Y : yarn_state) (u c : Nat) (hM1 : 72 ≤ Y.memsize)
    (hM2 : Y.memsize < 4294967296) :
    yarn_getStatus { yarn_incRegister (yarn_setStatus Y 5) 0 6 u with instructioncount := c } = 5
    ∧ (∀ r, 1 ≤ r → r ≤ 15 →
        (yarn_getRegister
            { yarn_incRegister (yarn_setStatus Y 5) 0 6 u with instructioncount := c } r 0).2
          = (yarn_getRegister Y r 0).2)
    ∧ (∀ i, i < Y.memsize - 8 ∨ Y.memsize - 4 < i →
        ({ yarn_incRegister (yarn_setStatus Y 5) 0 6 u with instructioncount := c }
          : yarn_state).memory i = Y.memory i)
    ∧ (yarn_getRegister
          { yarn_incRegister (yarn_setStatus Y 5) 0 6 u with instructioncount := c } 0 0).2
        = (readWord Y.memory (Y.memsize - 8) + 6) % 4294967296 := by
  rw [yarn_incRegister_eq _ 0 6 _ (by simp; omega) (by simpa using hM2)]
  simp only [yarn_setStatus_memsize]
  rw [yarn_setStatus_eq Y 5 (by omega) hM2]
  have h0 : readWord (memcpy_to Y.memory (Y.memsize - 4) [toByte 5]) (Y.memsize - (0 + 2) * 4)
      = readWord Y.memory (Y.memsize - 8) :=
    readWord_memcpy_to_other _ _ _ _ (by simp only [List.length_singleton]; omega)
  simp only []
  rw [h0]
  have hlt := readWord_lt Y.memory (Y.memsize - 8)
  refine ⟨?_, ?_, ?_, ?_⟩
  · rw [yarn_getStatus_eq _ (by simp only []; omega) (by simpa using hM2)]
    simp only []
    rw [memcpy_to_other _ _ _ _ (by rw [wordBytes_length]; omega)]
    simp [toByte]
    rfl
  · intro r hr1 hr15
    rw [yarn_getRegister_val _ r 0 (by simpa using hM1) (by simpa using hM2) hr15,
      yarn_getRegister_val Y r 0 hM1 hM2 hr15]
    simp only []
    rw [readWord_memcpy_to_other _ _ _ _ (by rw [wordBytes_length]; omega),
      readWord_memcpy_to_other _ _ _ _ (by simp only [List.length_singleton]; omega)]
  · intro i hi
    rw [memcpy_to_other _ _ _ _ (by rw [wordBytes_length]; omega),
      memcpy_to_other _ _ _ _ (by simp only [List.length_singleton]; omega)]
  · rw [yarn_getRegister_val _ 0 0 (by simpa using hM1) (by simpa using hM2) (by omega)]
    simp only []
    rw [readWord_memcpy_to_same]
    unfold toUint
    omega

/-- One step from status OK on an arithmetic opcode that lies wholly inside
the code buffer: the statements of its case run on the operands decoded, and
one dispatch is counted. -/
theorem yarn_execute_arith (host : yarn_host) (fuel : Nat) (Y : yarn_state)
    (ip op rA rB : Nat) (hM1 : 72 ≤ Y.memsize) (hM2 : Y.memsize < 4294967296)
    (hOK : yarn_getStatus Y = YARN_STATUS_OK)
    (hip : (yarn_getRegister Y YARN_REG_INSTRUCTION 0).2 = ip)
    (hfit : ip + 6 ≤ Y.codesize) (hcs : Y.codesize < 4294967296)
    (hop : (Y.code ip).val = op) (hops : 0x10 ≤ op ∧ op ≤ 0x1B)
    (hregs : (Y.code (ip + 1)).val = 16 * rA + rB) (hrA : rA ≤ 15) (hrB : rB ≤ 15) :
    readWord Y.memory (Y.memsize - 8) = ip
    ∧ yarn_execute host (fuel + 1) Y 1
      = (yarn_exec host Y ip (host.uninit Y.instructioncount)
          ⟨rA, rB, readWord Y.code (ip + 2),
            if rA = 15 then readWord Y.code (ip + 2)
            else readWord Y.memory (Y.memsize - (rA + 2) * 4),
            readWord Y.memory (Y.memsize - (rB + 2) * 4)⟩ op).map
          (fun Y2 => (yarn_getStatus { Y2 with instructioncount := Y2.instructioncount + 1 },
            { Y2 with instructioncount := Y2.instructioncount + 1 })) := by
  simp only [YARN_REG_INSTRUCTION] at hip
  rw [yarn_getRegister_val Y 0 0 hM1 hM2 (by omega)] at hip
  have hip8 : readWord Y.memory (Y.memsize - 8) = ip := hip
  refine ⟨hip8, ?_⟩
  have hv : yarn_validInstruction Y ip 0 = true := by
    rw [yarn_validInstruction_iff Y ip 0 (by omega)]; omega
  have hsetup := arithinst_setup_some Y ip (host.uninit Y.instructioncount) rA rB hM1 hM2 hfit
    hcs hregs hrA hrB
  have hdis : yarn_dispatch host Y ip
      = yarn_exec host Y ip (host.uninit Y.instructioncount)
          ⟨rA, rB, readWord Y.code (ip + 2),
            if rA = 15 then readWord Y.code (ip + 2)
            else readWord Y.memory (Y.memsize - (rA + 2) * 4),
            readWord Y.memory (Y.memsize - (rB + 2) * 4)⟩ op := by
    unfold yarn_dispatch yarn_setup
    simp only [hop, hops, and_self, if_true, hsetup]
  rw [yarn_execute_one host fuel Y hOK, yarn_step_eq host Y hM1 hM2, hip8, if_pos hv, hdis]
  cases yarn_exec host Y ip (host.uninit Y.instructioncount) _ op <;> rfl

/-! ### The concrete machines -/

theorem exampleVM_onlyBuiltins : yarn_onlyBuiltins exampleVM := by
  intro idx _
  by_cases h0 : idx = 0
  · subst h0; right; decide
  · by_cases h1 : idx = 177
    · subst h1; right; decide
    · by_cases h2 : idx = 98
      · subst h2; right; decide
      · left; simp [exampleVM, h0, h1, h2]

theorem fullTableVM_getSysCall : yarn_getSysCall fullTableVM 256 = none := by
  apply yarn_getSysCall_full
  intro idx _
  simp only [fullTableVM]
  refine ⟨by simp, ?_⟩
  omega

/-! ## Memory and register interface -/

/-- C1: on a machine of size M with 72 ≤ M < 2^32, writing the byte sequence
`b` at `pos` with `pos + |b| ≤ M` and reading `|b|` bytes back from `pos`
yields `b`; the read leaves the state as the write left it, and the status is
the one before the write unless the written range covers the status byte at
`M - 4`. -/
theorem yarn_setMemory_getMemory (Y : yarn_state) (pos : Nat) (b out : List byte)
    (hM1 : 72 ≤ Y.memsize) (hM2 : Y.memsize < 4294967296)
    (hb : pos + b.length ≤ Y.memsize) (hout : out.length = b.length) :
    (yarn_getMemory (yarn_setMemory Y pos b) pos out).2 = b
    ∧ (yarn_getMemory (yarn_setMemory Y pos b) pos out).1 = yarn_setMemory Y pos b
    ∧ (¬ (pos ≤ Y.memsize - 4 ∧ Y.memsize - 4 < pos + b.length) →
        yarn_getStatus (yarn_setMemory Y pos b) = yarn_getStatus Y
        ∧ yarn_getStatus (yarn_getMemory (yarn_setMemory Y pos b) pos out).1
            = yarn_getStatus Y) := by
  have hget : yarn_getMemory (yarn_setMemory Y pos b) pos out
      = (yarn_setMemory Y pos b, memcpy_from (yarn_setMemory Y pos b).memory pos out.length) :=
    yarn_getMemory_inb _ _ _ (by simp; omega)
  rw [hget]
  refine ⟨?_, rfl, ?_⟩
  · rw [yarn_setMemory_inb Y pos b hb, hout]
    exact memcpy_from_to _ _ _
  · intro hcov
    have hs : yarn_getStatus (yarn_setMemory Y pos b) = yarn_getStatus Y := by
      unfold yarn_getStatus
      rw [yarn_setMemory_inb Y pos b hb, statusLocation_eq _ (by omega) hM2]
      simp [hcov]
    exact ⟨hs, hs⟩

/-- C1 at a concrete input: three bytes written at offset 100 of `exampleVM`
are read back, and the status is the one before. -/
theorem yarn_setMemory_getMemory_witness :
    (yarn_getMemory (yarn_setMemory exampleVM 100 [1, 2, 3]) 100 [0, 0, 0]).2 = [1, 2, 3]
    ∧ yarn_getStatus (yarn_setMemory exampleVM 100 [1, 2, 3]) = yarn_getStatus exampleVM := by
  have h := yarn_setMemory_getMemory exampleVM 100 [1, 2, 3] [0, 0, 0]
    (by decide) (by decide) (by decide) (by decide)
  exact ⟨h.1, (h.2.2 (by decide)).1⟩

/-- C3: on a machine of size M with 72 ≤ M < 2^32, for every register index
`r` in 0..14 and 32-bit word `v`, `yarn_getRegister(r)` right after
`yarn_setRegister(r, v)` hands back `v`, and the status is the same before and
after both calls. -/
theorem yarn_setRegister_getRegister (Y : yarn_state) (r v u : Nat)
    (hM1 : 72 ≤ Y.memsize) (hM2 : Y.memsize < 4294967296)
    (hr : r ≤ 14) (hv : v < 4294967296) :
    (yarn_getRegister (yarn_setRegister Y r v) r u).2 = v
    ∧ yarn_getStatus (yarn_setRegister Y r v) = yarn_getStatus Y
    ∧ yarn_getStatus (yarn_getRegister (yarn_setRegister Y r v) r u).1 = yarn_getStatus Y := by
  have hloc : (r + 2) * 4 ≤ Y.memsize := by omega
  have hget := yarn_getRegister_eq (yarn_setRegister Y r v) r u (by simp; omega)
    (by simpa using hM2)
  have hs : yarn_getStatus (yarn_setRegister Y r v) = yarn_getStatus Y := by
    unfold yarn_getStatus
    rw [yarn_setRegister_eq Y r v hloc hM2, statusLocation_eq _ (by omega) hM2]
    exact congrArg Fin.val (memcpy_to_other _ _ _ _ (by rw [wordBytes_length]; omega))
  rw [hget]
  refine ⟨?_, hs, hs⟩
  rw [yarn_setRegister_eq Y r v hloc hM2]
  show readWord (memcpy_to _ _ _) _ = v
  rw [readWord_memcpy_to_same]
  omega

/-- C3 at a concrete input: register S5 (14) of `exampleVM` and the word
`0xFFFFFFF9`. -/
theorem yarn_setRegister_getRegister_witness :
    (yarn_getRegister (yarn_setRegister exampleVM 14 4294967289) 14 0).2 = 4294967289
    ∧ yarn_getStatus (yarn_setRegister exampleVM 14 4294967289) = yarn_getStatus exampleVM := by
  have h := yarn_setRegister_getRegister exampleVM 14 4294967289 0
    (by decide) (by decide) (by decide) (by decide)
  exact ⟨h.1, h.2.1⟩

/-- C4: on a machine of size M with 72 ≤ M < 2^32 and status OK whose STACK
register holds `s` with 4 ≤ s ≤ M - 72, for every 32-bit word `v`,
`yarn_push(v)` followed by `yarn_pop()` returns `v`, leaves STACK equal to
`s` and leaves the status OK. -/
theorem yarn_push_pop (Y : yarn_state) (s v u u1 u2 : Nat)
    (hM1 : 72 ≤ Y.memsize) (hM2 : Y.memsize < 4294967296)
    (hOK : yarn_getStatus Y = YARN_STATUS_OK)
    (hs : (yarn_getRegister Y YARN_REG_STACK u).2 = s)
    (hs1 : 4 ≤ s) (hs2 : s ≤ Y.memsize - 72) (hv : v < 4294967296) :
    (yarn_pop (yarn_push Y v u1) u2).2 = v
    ∧ (yarn_getRegister (yarn_pop (yarn_push Y v u1) u2).1 YARN_REG_STACK u).2 = s
    ∧ yarn_getStatus (yarn_pop (yarn_push Y v u1) u2).1 = YARN_STATUS_OK := by
  simp only [YARN_REG_STACK, YARN_STATUS_OK] at *
  rw [yarn_getRegister_eq Y 1 u (by omega) hM2] at hs
  simp only [] at hs
  rw [yarn_getStatus_eq Y (by omega) hM2] at hOK
  have h1 : toUint ((readWord Y.memory (Y.memsize - 12) : Nat) - 4) = s - 4 := by
    have : readWord Y.memory (Y.memsize - 12) = s := hs
    rw [this]; unfold toUint; omega
  -- the push
  have hpush : yarn_push Y v u1 = { Y with
      memory := memcpy_to (memcpy_to Y.memory (Y.memsize - 12) (wordBytes (s - 4))) (s - 4)
        (wordBytes v) } := by
    rw [yarn_push_eq Y v u1 hM1 hM2, h1,
      yarn_setMemory_inb _ _ _ (by rw [wordBytes_length]; simp only []; omega)]
  -- STACK after the push
  have h3 : readWord (memcpy_to (memcpy_to Y.memory (Y.memsize - 12) (wordBytes (s - 4))) (s - 4)
      (wordBytes v)) (Y.memsize - 12) = s - 4 := by
    rw [readWord_memcpy_to_other _ _ _ _ (by rw [wordBytes_length]; omega),
      readWord_memcpy_to_same]
    omega
  -- the pop
  rw [hpush, yarn_pop_eq _ u2 (by simpa using hM1) (by simpa using hM2)]
  simp only []
  rw [h3, yarn_getMemory_inb _ _ _ (by rw [wordBytes_length]; simp only []; omega)]
  simp only []
  rw [yarn_incRegister_eq _ 1 _ u2 (by simp only []; omega) (by simpa using hM2)]
  simp only []
  rw [h3, wordBytes_length, bytesWord_memcpy_from, readWord_memcpy_to_same,
    yarn_getRegister_eq _ 1 u (by simp only []; omega) (by simpa using hM2)]
  simp only []
  rw [readWord_memcpy_to_same, yarn_getStatus_eq _ (by simp only []; omega) (by simpa using hM2)]
  simp only []
  refine ⟨by omega, by unfold toUint; omega, ?_⟩
  rw [memcpy_to_other _ _ _ _ (by rw [wordBytes_length]; omega),
    memcpy_to_other _ _ _ _ (by rw [wordBytes_length]; omega),
    memcpy_to_other _ _ _ _ (by rw [wordBytes_length]; omega)]
  exact hOK

/-- C4 at a concrete input: `exampleVM`, whose STACK holds 952 = 1024 - 72,
and the word `0xFFFFFFFF`. -/
theorem yarn_push_pop_witness :
    (yarn_pop (yarn_push exampleVM 4294967295 0) 0).2 = 4294967295
    ∧ (yarn_getRegister (yarn_pop (yarn_push exampleVM 4294967295 0) 0).1 YARN_REG_STACK 0).2
        = 952
    ∧ yarn_getStatus (yarn_pop (yarn_push exampleVM 4294967295 0) 0).1 = YARN_STATUS_OK :=
  yarn_push_pop exampleVM 952 4294967295 0 0 0 (by decide) (by decide) (by decide) (by decide)
    (by decide) (by decide) (by decide)

/-! ## The run loop -/

/-- C5: `yarn_execute` makes no pass through its loop when `icount` is 0 or
the status on entry is not OK (whatever `icount` is): it returns the status it
found and leaves the whole state, so every byte of memory, every register and
the instruction counter, as it was.  With `icount` 0 and status OK the status
returned is OK. -/
theorem yarn_execute_no_dispatch (host : yarn_host) (fuel : Nat) (Y : yarn_state)
    (icount : Int) (h : icount = 0 ∨ yarn_getStatus Y ≠ YARN_STATUS_OK) :
    yarn_execute host fuel Y icount = some (yarn_getStatus Y, Y)
    ∧ (icount = 0 → yarn_getStatus Y = YARN_STATUS_OK →
        yarn_execute host fuel Y icount = some (YARN_STATUS_OK, Y)) := by
  have hrun : ¬ yarn_running Y icount := by
    unfold yarn_running
    omega
  have hex := yarn_execute_not_running host fuel Y icount hrun
  refine ⟨hex, ?_⟩
  intro _ hOK
  rw [hex, hOK]

/-- C5 at a concrete input: `exampleVM`, status OK, with `icount` 0. -/
theorem yarn_execute_no_dispatch_witness :
    yarn_execute exampleHost 0 exampleVM 0 = some (YARN_STATUS_OK, exampleVM) :=
  (yarn_execute_no_dispatch exampleHost 0 exampleVM 0 (Or.inl rfl)).2 rfl (by decide)

/-- C8: on a machine of size M with 72 ≤ M < 2^32 and status OK, with a code
buffer of `codesize < 2^32 - 6` and INSTRUCTION = `ip`.  If `ip ≥ codesize`
the step ends with status INVALIDINSTRUCTION.  Otherwise, for a defined opcode
at `ip` of encoded length `L` (1 for HALT, PAUSE, NOP; 6 for the arithmetic
and move opcodes; 2 for PUSH, POP and the compares; 5 for CALL, RET, JUMP,
CONDJUMP, SYSCALL), the set-up macro of its case stops the instruction if and
only if `ip + L > codesize`; when it does, the step ends with status
INVALIDINSTRUCTION, every register (INSTRUCTION included), the flag byte and
every other byte of memory but the status byte unchanged; when it does not
(also when the instruction ends exactly at the last byte of the buffer) the
statements of the case run on the operands decoded. -/
theorem yarn_decode_within_code (host : yarn_host) (fuel : Nat) (Y : yarn_state) (ip L : Nat)
    (hM1 : 72 ≤ Y.memsize) (hM2 : Y.memsize < 4294967296)
    (hOK : yarn_getStatus Y = YARN_STATUS_OK) (hcs : Y.codesize + 6 < 4294967296)
    (hip : (yarn_getRegister Y YARN_REG_INSTRUCTION 0).2 = ip) :
    (Y.codesize ≤ ip →
      yarn_execute host (fuel + 1) Y 1
        = some (YARN_STATUS_INVALIDINSTRUCTION, yarn_setStatus Y YARN_STATUS_INVALIDINSTRUCTION))
    ∧ (ip < Y.codesize → yarn_instructionLength (Y.code ip).val = some L →
        (yarn_setup Y ip (host.uninit Y.instructioncount) (Y.code ip).val = none
            ↔ Y.codesize < ip + L)
        ∧ (Y.codesize < ip + L →
            ∃ Y1, yarn_execute host (fuel + 1) Y 1 = some (YARN_STATUS_INVALIDINSTRUCTION, Y1)
              ∧ (∀ r u, r ≤ 15 → (yarn_getRegister Y1 r u).2 = (yarn_getRegister Y r u).2)
              ∧ Y1.memory (Y.memsize - 3) = Y.memory (Y.memsize - 3)
              ∧ (∀ i, i ≠ Y.memsize - 4 → Y1.memory i = Y.memory i))
        ∧ (ip + L ≤ Y.codesize →
            ∃ Y1 o, yarn_setup Y ip (host.uninit Y.instructioncount) (Y.code ip).val
                = some (Y1, o)
              ∧ yarn_dispatch host Y ip
                = yarn_exec host Y1 ip (host.uninit Y.instructioncount) o (Y.code ip).val)) := by
  simp only [YARN_REG_INSTRUCTION, YARN_STATUS_OK, YARN_STATUS_INVALIDINSTRUCTION] at *
  rw [yarn_getRegister_val Y 0 0 hM1 hM2 (by omega)] at hip
  have hip8 : readWord Y.memory (Y.memsize - 8) = ip := hip
  have hlt32 := readWord_lt Y.memory (Y.memsize - 8)
  have hst : yarn_getStatus (yarn_setStatus Y 4) = 4 :=
    yarn_getStatus_setStatus Y 4 (by omega) hM2
  rw [yarn_execute_one host fuel Y hOK, yarn_step_eq host Y hM1 hM2, hip8]
  constructor
  · intro hge
    have hv : ¬ yarn_validInstruction Y ip 0 = true := by
      rw [yarn_validInstruction_iff Y ip 0 (by omega)]; omega
    rw [if_neg hv]
    simp only [Option.map_some', hst, YARN_STATUS_INVALIDINSTRUCTION]
  · intro hlt hL
    have hv : yarn_validInstruction Y ip 0 = true := by
      rw [yarn_validInstruction_iff Y ip 0 (by omega)]; omega
    have hiff := yarn_setup_none Y ip (host.uninit Y.instructioncount) _ L hlt hcs hL
    refine ⟨hiff, ?_, ?_⟩
    · intro hbad
      have hnone := hiff.mpr hbad
      have hdis : yarn_dispatch host Y ip = some (yarn_setStatus Y 4) := by
        unfold yarn_dispatch
        simp only [hnone, YARN_STATUS_INVALIDINSTRUCTION]
      rw [if_pos hv, hdis]
      obtain ⟨h1, h2, h3⟩ := yarn_reject_spec Y (Y.instructioncount + 1) hM1 hM2
      have hc : (yarn_setStatus Y 4).instructioncount = Y.instructioncount :=
        yarn_rest_instructioncount (by simp)
      refine ⟨_, ?_, h2, h3 _ (by omega), h3⟩
      simp only [Option.map_some', hc, h1]
    · intro hfit
      cases hs : yarn_setup Y ip (host.uninit Y.instructioncount) (Y.code ip).val with
      | none => have := hiff.mp hs; omega
      | some r =>
        obtain ⟨Y1, o⟩ := r
        refine ⟨Y1, o, rfl, ?_⟩
        unfold yarn_dispatch
        simp only [hs]

/-- C8 at a concrete input: on `exactFitVM` the six bytes of the SUB
instruction end at the last byte of the code buffer and the set-up macro lets
the instruction pass. -/
theorem yarn_decode_within_code_witness :
    ¬ (yarn_setup exactFitVM 0 (exampleHost.uninit exactFitVM.instructioncount)
        (exactFitVM.code 0).val = none) := by
  have h := (yarn_decode_within_code exampleHost 0 exactFitVM 0 6 (by decide) (by decide)
    (by decide) (by decide) (by decide)).2 (by decide) (by decide)
  intro hn
  exact absurd (h.1.mp hn) (by decide)

/-! ## Arithmetic -/

/-- C9: on a machine of size M with 72 ≤ M < 2^32 and status OK whose
INSTRUCTION register points at an ADD, SUB or MUL instruction lying wholly
inside the code buffer, with register operands `rA` in 0..15 and `rB` in
1..15 and immediate `d`: one step stores in register `rB` the value `B + A`,
`B - A` or `B * A` reduced modulo 2^32, where `B` is the prior content of
`rB` and `A` is `d` when `rA` is 15 (NULL) and the prior content of `rA`
otherwise; INSTRUCTION advances by 6 and the status stays OK. -/
theorem yarn_add_sub_mul (host : yarn_host) (fuel : Nat) (Y : yarn_state)
    (ip op rA rB d A B : Nat) (hM1 : 72 ≤ Y.memsize) (hM2 : Y.memsize < 4294967296)
    (hOK : yarn_getStatus Y = YARN_STATUS_OK)
    (hip : (yarn_getRegister Y YARN_REG_INSTRUCTION 0).2 = ip)
    (hfit : ip + 6 ≤ Y.codesize) (hcs : Y.codesize < 4294967296)
    (hop : (Y.code ip).val = op)
    (hops : op = YARN_INST_ADD ∨ op = YARN_INST_SUB ∨ op = YARN_INST_MUL)
    (hregs : (Y.code (ip + 1)).val = 16 * rA + rB) (hrA : rA ≤ 15)
    (hrB0 : 1 ≤ rB) (hrB : rB ≤ 15) (hd : readWord Y.code (ip + 2) = d)
    (hA : A = if rA = YARN_REG_NULL then d else (yarn_getRegister Y rA 0).2)
    (hB : B = (yarn_getRegister Y rB 0).2) :
    ∃ Y1, yarn_execute host (fuel + 1) Y 1 = some (YARN_STATUS_OK, Y1)
      ∧ (op = YARN_INST_ADD → (yarn_getRegister Y1 rB 0).2 = (B + A) % 4294967296)
      ∧ (op = YARN_INST_SUB →
          ((yarn_getRegister Y1 rB 0).2 : Int) = ((B : Int) - (A : Int)) % 4294967296)
      ∧ (op = YARN_INST_MUL → (yarn_getRegister Y1 rB 0).2 = (B * A) % 4294967296)
      ∧ (yarn_getRegister Y1 YARN_REG_INSTRUCTION 0).2 = ip + 6 := by
  simp only [YARN_INST_ADD, YARN_INST_SUB, YARN_INST_MUL, YARN_REG_NULL, YARN_STATUS_OK,
    YARN_REG_INSTRUCTION] at *
  obtain ⟨hip8, hex⟩ := yarn_execute_arith host fuel Y ip op rA rB hM1 hM2 hOK hip hfit hcs hop
    (by omega) hregs hrA hrB
  rw [hex]
  have hA2 : (if rA = 15 then readWord Y.code (ip + 2)
      else readWord Y.memory (Y.memsize - (rA + 2) * 4)) = A := by
    rw [hA, hd]
    by_cases h15 : rA = 15
    · simp only [h15, if_true]
    · simp only [h15, if_false]
      rw [yarn_getRegister_val Y rA 0 hM1 hM2 hrA]
  have hB2 : readWord Y.memory (Y.memsize - (rB + 2) * 4) = B := by
    rw [hB, yarn_getRegister_val Y rB 0 hM1 hM2 hrB]
  rw [hA2, hB2]
  have hAlt : A < 4294967296 := by
    rw [← hA2]
    split_ifs
    · exact readWord_lt _ _
    · exact readWord_lt _ _
  have hBlt : B < 4294967296 := by rw [← hB2]; exact readWord_lt _ _
  have key : ∀ v c, ∃ Y1,
      some (yarn_getStatus
          { yarn_storeResult Y ⟨rA, rB, readWord Y.code (ip + 2), A, B⟩
              (host.uninit Y.instructioncount) v with instructioncount := c },
        ({ yarn_storeResult Y ⟨rA, rB, readWord Y.code (ip + 2), A, B⟩
              (host.uninit Y.instructioncount) v with instructioncount := c } : yarn_state))
        = some (0, Y1)
      ∧ (yarn_getRegister Y1 rB 0).2 = v % 4294967296
      ∧ (yarn_getRegister Y1 0 0).2 = ip + 6 := by
    intro v c
    obtain ⟨h1, h2, h3⟩ := yarn_storeResult_spec Y ⟨rA, rB, readWord Y.code (ip + 2), A, B⟩
      (host.uninit Y.instructioncount) v c hM1 hM2 hrB0 hrB
    refine ⟨_, by rw [h1, hOK], h2, ?_⟩
    rw [h3, hip8]
    omega
  rcases hops with h | h | h
  · subst h
    rw [yarn_exec_add]
    obtain ⟨Y1, e1, e2, e3⟩ := key ((B + A) % 4294967296) _
    refine ⟨Y1, e1, ?_, ?_, ?_, e3⟩
    · intro _; rw [e2]; omega
    · intro h; exact absurd h (by decide)
    · intro h; exact absurd h (by decide)
  · subst h
    rw [yarn_exec_sub]
    obtain ⟨Y1, e1, e2, e3⟩ := key (toUint ((B : Int) - A)) _
    refine ⟨Y1, e1, ?_, ?_, ?_, e3⟩
    · intro h; exact absurd h (by decide)
    · intro _; rw [e2]; unfold toUint; omega
    · intro h; exact absurd h (by decide)
  · subst h
    rw [yarn_exec_mul]
    obtain ⟨Y1, e1, e2, e3⟩ := key ((B * A) % 4294967296) _
    refine ⟨Y1, e1, ?_, ?_, ?_, e3⟩
    · intro h; exact absurd h (by decide)
    · intro h; exact absurd h (by decide)
    · intro _; rw [e2]; exact Nat.mod_mod _ _

/-- C9 at a concrete input: with C1 = 10 and C2 = 3 the code
`11 45 00 00 00 00` leaves C2 = `0xFFFFFFF9` and INSTRUCTION = 6. -/
theorem yarn_add_sub_mul_witness :
    ∃ Y1, yarn_execute exampleHost 1 exampleVM 1 = some (YARN_STATUS_OK, Y1)
      ∧ ((yarn_getRegister Y1 YARN_REG_C2 0).2 : Int) = 0xFFFFFFF9
      ∧ (yarn_getRegister Y1 YARN_REG_INSTRUCTION 0).2 = 6 := by
  obtain ⟨Y1, h1, -, h3, -, h5⟩ := yarn_add_sub_mul exampleHost 0 exampleVM 0 0x11 4 5 0 10 3
    (by decide) (by decide) (by decide) (by decide) (by decide) (by decide) (by decide)
    (by decide) (by decide) (by decide) (by decide) (by decide) (by decide) (by decide)
    (by decide)
  exact ⟨Y1, h1, by rw [h3 rfl]; decide, h5⟩

/-- C10: on a machine of size M with 72 ≤ M < 2^32 and status OK whose
INSTRUCTION register points at a DIV or DIVS instruction lying wholly inside
the code buffer, with register operands `rA`, `rB` in 0..15 and immediate
`d`, such that the source value `A` (`d` when `rA` is NULL, the content of
`rA` otherwise) is 0: one step ends with status DIVBYZERO, writes no register
but INSTRUCTION (so `rB` keeps its content when it is not INSTRUCTION) and no
other byte of memory but the status byte, and INSTRUCTION advances by 6. -/
theorem yarn_div_by_zero (host : yarn_host) (fuel : Nat) (Y : yarn_state)
    (ip op rA rB d : Nat) (hM1 : 72 ≤ Y.memsize) (hM2 : Y.memsize < 4294967296)
    (hOK : yarn_getStatus Y = YARN_STATUS_OK)
    (hip : (yarn_getRegister Y YARN_REG_INSTRUCTION 0).2 = ip)
    (hfit : ip + 6 ≤ Y.codesize) (hcs : Y.codesize < 4294967296)
    (hop : (Y.code ip).val = op) (hops : op = YARN_INST_DIV ∨ op = YARN_INST_DIVS)
    (hregs : (Y.code (ip + 1)).val = 16 * rA + rB) (hrA : rA ≤ 15) (hrB : rB ≤ 15)
    (hd : readWord Y.code (ip + 2) = d)
    (hA : (if rA = YARN_REG_NULL then d else (yarn_getRegister Y rA 0).2) = 0) :
    ∃ Y1, yarn_execute host (fuel + 1) Y 1 = some (YARN_STATUS_DIVBYZERO, Y1)
      ∧ (∀ r, 1 ≤ r → r ≤ 15 → (yarn_getRegister Y1 r 0).2 = (yarn_getRegister Y r 0).2)
      ∧ (∀ i, i < Y.memsize - 8 ∨ Y.memsize - 4 < i → Y1.memory i = Y.memory i)
      ∧ (yarn_getRegister Y1 YARN_REG_INSTRUCTION 0).2 = ip + 6 := by
  simp only [YARN_INST_DIV, YARN_INST_DIVS, YARN_REG_NULL, YARN_STATUS_OK,
    YARN_STATUS_DIVBYZERO, YARN_REG_INSTRUCTION] at *
  obtain ⟨hip8, hex⟩ := yarn_execute_arith host fuel Y ip op rA rB hM1 hM2 hOK hip hfit hcs hop
    (by omega) hregs hrA hrB
  rw [hex]
  have hA2 : (if rA = 15 then readWord Y.code (ip + 2)
      else readWord Y.memory (Y.memsize - (rA + 2) * 4)) = 0 := by
    rw [← hA, hd]
    by_cases h15 : rA = 15
    · simp only [h15, if_true]
    · simp only [h15, if_false]
      rw [yarn_getRegister_val Y rA 0 hM1 hM2 hrA]
  rw [hA2]
  have hexec : yarn_exec host Y ip (host.uninit Y.instructioncount)
      ⟨rA, rB, readWord Y.code (ip + 2), 0, readWord Y.memory (Y.memsize - (rB + 2) * 4)⟩ op
      = some (yarn_incRegister (yarn_setStatus Y 5) 0 6 (host.uninit Y.instructioncount)) := by
    rcases hops with h | h
    · subst h
      rw [yarn_exec_div, if_pos rfl]
    · subst h
      have hz : toInt 0 = 0 := by decide
      rw [yarn_exec_divs]
      simp only [hz, if_true]
  rw [hexec]
  simp only [Option.map_some']
  obtain ⟨h1, h2, h3, h4⟩ := yarn_divzero_spec Y (host.uninit Y.instructioncount)
    ((yarn_incRegister (yarn_setStatus Y 5) 0 6 (host.uninit Y.instructioncount)).instructioncount
      + 1) hM1 hM2
  have hlt := readWord_lt Y.memory (Y.memsize - 8)
  refine ⟨_, by rw [h1], h2, h3, ?_⟩
  rw [h4, hip8]
  omega

/-- C10 at a concrete input: with C1 = 0 and C2 = 7 the code
`14 45 00 00 00 00` ends with status DIVBYZERO, C2 = 7 and INSTRUCTION = 6. -/
theorem yarn_div_by_zero_witness :
    ∃ Y1, yarn_execute exampleHost 1 divideVM 1 = some (YARN_STATUS_DIVBYZERO, Y1)
      ∧ (yarn_getRegister Y1 YARN_REG_C2 0).2 = 7
      ∧ (yarn_getRegister Y1 YARN_REG_INSTRUCTION 0).2 = 6 := by
  obtain ⟨Y1, h1, h2, -, h4⟩ := yarn_div_by_zero exampleHost 0 divideVM 0 0x14 4 5 0
    (by decide) (by decide) (by decide) (by decide) (by decide) (by decide) (by decide)
    (by decide) (by decide) (by decide) (by decide) (by decide) (by decide)
  exact ⟨Y1, h1, by rw [h2 5 (by decide) (by decide)]; decide, h4⟩

/-! ## More about the interpreter -/

/-! ### Reading after writing -/

theorem yarn_getStatus_setRegister (Y : yarn_state) (r v : Nat) (hM1 : 72 ≤ Y.memsize)
    (hM2 : Y.memsize < 4294967296) (hr : r ≤ 15) :
    yarn_getStatus (yarn_setRegister Y r v) = yarn_getStatus Y := by
  rw [yarn_getStatus_eq _ (by simp; omega) (by simpa using hM2), yarn_getStatus_eq Y (by omega) hM2,
    yarn_setRegister_memsize, yarn_setRegister_eq Y r v (by omega) hM2]
  exact congrArg Fin.val (memcpy_to_other _ _ _ _ (by rw [wordBytes_length]; omega))

theorem yarn_getStatus_incRegister (Y : yarn_state) (r : Nat) (d : Int) (u : Nat)
    (hM1 : 72 ≤ Y.memsize) (hM2 : Y.memsize < 4294967296) (hr : r ≤ 15) :
    yarn_getStatus (yarn_incRegister Y r d u) = yarn_getStatus Y := by
  rw [yarn_getStatus_eq _ (by simp; omega) (by simpa using hM2), yarn_getStatus_eq Y (by omega) hM2,
    yarn_incRegister_memsize, yarn_incRegister_eq Y r d u (by omega) hM2]
  exact congrArg Fin.val (memcpy_to_other _ _ _ _ (by rw [wordBytes_length]; omega))

theorem yarn_getStatus_count (Y : yarn_state) (c : Nat) :
    yarn_getStatus { Y with instructioncount := c } = yarn_getStatus Y := rfl

theorem readReg_setRegister (Y : yarn_state) (r q v : Nat) (hM1 : 72 ≤ Y.memsize)
    (hM2 : Y.memsize < 4294967296) (hr : r ≤ 15) (hq : q ≤ 15) :
    readWord (yarn_setRegister Y r v).memory (Y.memsize - (q + 2) * 4)
      = if q = r then v % 4294967296 else readWord Y.memory (Y.memsize - (q + 2) * 4) := by
  rw [yarn_setRegister_eq Y r v (by omega) hM2]
  split_ifs with h
  · subst h
    exact readWord_memcpy_to_same _ _ _
  · exact readWord_memcpy_to_other _ _ _ _ (by rw [wordBytes_length]; omega)

theorem readReg_incRegister (Y : yarn_state) (r q : Nat) (d : Int) (u : Nat)
    (hM1 : 72 ≤ Y.memsize) (hM2 : Y.memsize < 4294967296) (hr : r ≤ 15) (hq : q ≤ 15) :
    readWord (yarn_incRegister Y r d u).memory (Y.memsize - (q + 2) * 4)
      = if q = r then toUint ((readWord Y.memory (Y.memsize - (r + 2) * 4) : Nat) + d)
        else readWord Y.memory (Y.memsize - (q + 2) * 4) := by
  rw [yarn_incRegister_eq Y r d u (by omega) hM2]
  split_ifs with h
  · subst h
    simp only []
    rw [readWord_memcpy_to_same, toUint_mod]
  · exact readWord_memcpy_to_other _ _ _ _ (by rw [wordBytes_length]; omega)

theorem readWord_incInstruction (Y : yarn_state) (d : Int) (u : Nat) (hM1 : 72 ≤ Y.memsize)
    (hM2 : Y.memsize < 4294967296) :
    readWord (yarn_incRegister Y 0 d u).memory (Y.memsize - 8)
      = toUint ((readWord Y.memory (Y.memsize - 8) : Nat) + d) := by
  have := readReg_incRegister Y 0 0 d u hM1 hM2 (by omega) (by omega)
  rw [if_pos rfl] at this
  exact this

theorem readReg_incInstruction (Y : yarn_state) (d : Int) (u r : Nat) (hM1 : 72 ≤ Y.memsize)
    (hM2 : Y.memsize < 4294967296) (hr1 : 1 ≤ r) (hr : r ≤ 15) :
    readWord (yarn_incRegister Y 0 d u).memory (Y.memsize - (r + 2) * 4)
      = readWord Y.memory (Y.memsize - (r + 2) * 4) := by
  rw [readReg_incRegister Y 0 r d u hM1 hM2 (by omega) hr, if_neg (by omega)]

theorem readReg_setStatus (Y : yarn_state) (s q : Nat) (hM1 : 72 ≤ Y.memsize)
    (hM2 : Y.memsize < 4294967296) (hq : q ≤ 15) :
    readWord (yarn_setStatus Y s).memory (Y.memsize - (q + 2) * 4)
      = readWord Y.memory (Y.memsize - (q + 2) * 4) :=
  yarn_setStatus_readWord Y s _ hM1 hM2 (by omega)

theorem yarn_setRegister_memory (Y : yarn_state) (r v i : Nat) (hM1 : 72 ≤ Y.memsize)
    (hM2 : Y.memsize < 4294967296) (hr : r ≤ 15)
    (hi : i < Y.memsize - (r + 2) * 4 ∨ Y.memsize - (r + 2) * 4 + 4 ≤ i) :
    (yarn_setRegister Y r v).memory i = Y.memory i := by
  rw [yarn_setRegister_eq Y r v (by omega) hM2]
  exact memcpy_to_other _ _ _ _ (by rw [wordBytes_length]; omega)

theorem yarn_incRegister_memory (Y : yarn_state) (r : Nat) (d : Int) (u i : Nat)
    (hM1 : 72 ≤ Y.memsize) (hM2 : Y.memsize < 4294967296) (hr : r ≤ 15)
    (hi : i < Y.memsize - (r + 2) * 4 ∨ Y.memsize - (r + 2) * 4 + 4 ≤ i) :
    (yarn_incRegister Y r d u).memory i = Y.memory i := by
  rw [yarn_incRegister_eq Y r d u (by omega) hM2]
  exact memcpy_to_other _ _ _ _ (by rw [wordBytes_length]; omega)

/-! ### Unrolling the run loop -/

theorem yarn_loop_stop (host : yarn_host) (fuel : Nat) (Y : yarn_state) (icount : Int)
    (h : yarn_getStatus Y ≠ YARN_STATUS_OK) : yarn_loop host fuel Y icount = some Y := by
  have hrun : ¬ yarn_running Y icount := fun hr => h hr.1
  cases fuel with
  | zero => simp [yarn_loop, hrun]
  | succ n => simp [yarn_loop, hrun]

theorem yarn_loop_unbounded (host : yarn_host) (fuel : Nat) (Y Y1 : yarn_state)
    (hOK : yarn_getStatus Y = YARN_STATUS_OK) (hstep : yarn_step host Y = some (Y1, true)) :
    yarn_loop host (fuel + 1) Y (-1) = yarn_loop host fuel Y1 (-1) := by
  have hrun : yarn_running Y (-1) := ⟨hOK, Or.inr rfl⟩
  conv_lhs => rw [yarn_loop]
  rw [if_pos hrun, hstep]
  rfl

theorem yarn_loop_counted (host : yarn_host) (fuel : Nat) (Y Y1 : yarn_state) (n : Nat)
    (hOK : yarn_getStatus Y = YARN_STATUS_OK) (hstep : yarn_step host Y = some (Y1, true)) :
    yarn_loop host (fuel + 1) Y ((n : Int) + 1) = yarn_loop host fuel Y1 n := by
  have hrun : yarn_running Y ((n : Int) + 1) := ⟨hOK, Or.inl (by omega)⟩
  conv_lhs => rw [yarn_loop]
  rw [if_pos hrun, hstep]
  have h0 : (if (n : Int) + 1 ≠ -1 then (n : Int) + 1 - 1 else (n : Int) + 1) = n := by
    rw [if_pos (by omega)]; omega
  simp only [h0]

/-- One pass through the loop body on a machine whose INSTRUCTION register
holds an offset inside the code buffer. -/
theorem yarn_step_inside (host : yarn_host) (Y : yarn_state) (ip : Nat) (hM1 : 72 ≤ Y.memsize)
    (hM2 : Y.memsize < 4294967296) (hip : readWord Y.memory (Y.memsize - 8) = ip)
    (hfit : ip < Y.codesize) :
    yarn_step host Y
      = (yarn_dispatch host Y ip).map
          (fun Y2 => ({ Y2 with instructioncount := Y2.instructioncount + 1 }, true)) := by
  have hlt := readWord_lt Y.memory (Y.memsize - 8)
  have hv : yarn_validInstruction Y ip 0 = true := by
    unfold yarn_validInstruction
    rw [decide_eq_true_eq, Nat.mod_eq_of_lt (by omega)]
    omega
  rw [yarn_step_eq host Y hM1 hM2, hip, if_pos hv]
  cases yarn_dispatch host Y ip <;> rfl

/-! ### Probing the syscall table -/

theorem yarn_probe_index (n j : Nat) :
    ((n + 1) % 4294967296 + j) % 256 = (n + (j + 1)) % 256 := by omega

/-- The look-up loop returns at the first slot of its probe sequence that is
empty or holds the key. -/
theorem yarn_getSysCall_probe_at (Y : yarn_state) (key : Nat) :
    ∀ (j fuel n : Nat), j < fuel →
      (∀ i, i < j → (Y.syscalls ((n + i) % 256)).val ≠ none
        ∧ (Y.syscalls ((n + i) % 256)).key ≠ key) →
      ((Y.syscalls ((n + j) % 256)).val = none ∨ (Y.syscalls ((n + j) % 256)).key = key) →
      yarn_getSysCall_probe Y key fuel n = some (Y.syscalls ((n + j) % 256)).val := by
  intro j
  induction j with
  | zero =>
    intro fuel n hf _ hstop
    obtain ⟨f, rfl⟩ : ∃ f, fuel = f + 1 := ⟨fuel - 1, by omega⟩
    unfold yarn_getSysCall_probe
    simp only [YARN_MAP_MASK, YARN_MAP_COUNT]
    have hidx : n &&& (256 - 1) = n % 256 := Nat.and_pow_two_sub_one_eq_mod n 8
    rw [hidx]
    simp only [Nat.add_zero] at hstop ⊢
    by_cases h1 : (Y.syscalls (n % 256)).val = none
    · rw [if_pos h1, h1]
    · rw [if_neg h1, if_pos (hstop.resolve_left h1)]
  | succ j ih =>
    intro fuel n hf hbefore hstop
    obtain ⟨f, rfl⟩ : ∃ f, fuel = f + 1 := ⟨fuel - 1, by omega⟩
    unfold yarn_getSysCall_probe
    simp only [YARN_MAP_MASK, YARN_MAP_COUNT]
    have hidx : n &&& (256 - 1) = n % 256 := Nat.and_pow_two_sub_one_eq_mod n 8
    rw [hidx]
    have h0 := hbefore 0 (by omega)
    simp only [Nat.add_zero] at h0
    rw [if_neg h0.1, if_neg h0.2]
    have := ih f ((n + 1) % 4294967296) (by omega)
      (fun i hi => by rw [yarn_probe_index]; exact hbefore (i + 1) (by omega))
      (by rw [yarn_probe_index]; exact hstop)
    rw [this, yarn_probe_index]

/-- The registration loop stores the entry in the first slot of its probe
sequence that is empty or holds the key, and changes nothing else. -/
theorem yarn_registerSysCall_probe_at (Y : yarn_state) (key : Nat) (g : Option yarn_CFunc) :
    ∀ (j fuel n : Nat), j < fuel →
      (∀ i, i < j → (Y.syscalls ((n + i) % 256)).val ≠ none
        ∧ (Y.syscalls ((n + i) % 256)).key ≠ key) →
      ((Y.syscalls ((n + j) % 256)).val = none ∨ (Y.syscalls ((n + j) % 256)).key = key) →
      yarn_registerSysCall_probe Y key g fuel n
        = some { Y with
            syscalls := fun i => if i = (n + j) % 256 then ⟨key, g⟩ else Y.syscalls i } := by
  intro j
  induction j with
  | zero =>
    intro fuel n hf _ hstop
    obtain ⟨f, rfl⟩ : ∃ f, fuel = f + 1 := ⟨fuel - 1, by omega⟩
    unfold yarn_registerSysCall_probe
    simp only [YARN_MAP_MASK, YARN_MAP_COUNT]
    have hidx : n &&& (256 - 1) = n % 256 := Nat.and_pow_two_sub_one_eq_mod n 8
    rw [hidx]
    simp only [Nat.add_zero] at hstop ⊢
    rw [if_pos hstop.symm]
  | succ j ih =>
    intro fuel n hf hbefore hstop
    obtain ⟨f, rfl⟩ : ∃ f, fuel = f + 1 := ⟨fuel - 1, by omega⟩
    unfold yarn_registerSysCall_probe
    simp only [YARN_MAP_MASK, YARN_MAP_COUNT]
    have hidx : n &&& (256 - 1) = n % 256 := Nat.and_pow_two_sub_one_eq_mod n 8
    rw [hidx]
    have h0 := hbefore 0 (by omega)
    simp only [Nat.add_zero] at h0
    rw [if_neg (by push_neg; exact ⟨h0.2, h0.1⟩)]
    have := ih f ((n + 1) % 4294967296) (by omega)
      (fun i hi => by rw [yarn_probe_index]; exact hbefore (i + 1) (by omega))
      (by rw [yarn_probe_index]; exact hstop)
    rw [this, yarn_probe_index]

/-- The first offset in the probe sequence from `n` at which a slot is empty
or holds the key, when the table has such a slot. -/
theorem yarn_probe_first (Y : yarn_state) (key n : Nat)
    (h : ∃ idx, idx < 256 ∧ ((Y.syscalls idx).val = none ∨ (Y.syscalls idx).key = key)) :
    ∃ j, j < 256
      ∧ (∀ i, i < j → (Y.syscalls ((n + i) % 256)).val ≠ none
          ∧ (Y.syscalls ((n + i) % 256)).key ≠ key)
      ∧ ((Y.syscalls ((n + j) % 256)).val = none ∨ (Y.syscalls ((n + j) % 256)).key = key) := by
  classical
  obtain ⟨idx, hidx, hstop⟩ := h
  have hex : ∃ j, (Y.syscalls ((n + j) % 256)).val = none
      ∨ (Y.syscalls ((n + j) % 256)).key = key := by
    refine ⟨(idx + 256 - n % 256) % 256, ?_⟩
    have e : (n + (idx + 256 - n % 256) % 256) % 256 = idx := by omega
    rw [e]
    exact hstop
  refine ⟨Nat.find hex, ?_, ?_, Nat.find_spec hex⟩
  · have : Nat.find hex ≤ (idx + 256 - n % 256) % 256 := by
      apply Nat.find_min'
      have e : (n + (idx + 256 - n % 256) % 256) % 256 = idx := by omega
      rw [e]
      exact hstop
    omega
  · intro i hi
    have := Nat.find_min hex hi
    push_neg at this
    exact this

theorem yarn_registerSysCall_probe_frame (Y : yarn_state) (key : Nat) (g : Option yarn_CFunc)
    (fuel : Nat) : ∀ (n : Nat) (Y1 : yarn_state),
      yarn_registerSysCall_probe Y key g fuel n = some Y1 →
      ∃ idx, idx < 256
        ∧ Y1 = { Y with syscalls := fun i => if i = idx then ⟨key, g⟩ else Y.syscalls i } := by
  induction fuel with
  | zero => intro n Y1 h; exact absurd h (by simp [yarn_registerSysCall_probe])
  | succ f ih =>
    intro n Y1 h
    unfold yarn_registerSysCall_probe at h
    simp only [YARN_MAP_MASK, YARN_MAP_COUNT] at h
    have hidx : n &&& (256 - 1) = n % 256 := Nat.and_pow_two_sub_one_eq_mod n 8
    rw [hidx] at h
    split_ifs at h
    · exact ⟨n % 256, by omega, by simpa using h.symm⟩
    · exact ih _ _ h

/-- A registration that returns has changed one slot of the table and nothing
else. -/
theorem yarn_registerSysCall_frame (Y Y1 : yarn_state) (key : Nat) (g : Option yarn_CFunc)
    (h : yarn_registerSysCall Y key g = some Y1) :
    ∃ idx, idx < 256
      ∧ Y1 = { Y with syscalls := fun i => if i = idx then ⟨key, g⟩ else Y.syscalls i } :=
  yarn_registerSysCall_probe_frame Y key g _ _ _ h

/-- A registration returns when the table has a slot that is empty or holds
the key: the entry goes to the first such slot of the probe sequence. -/
theorem yarn_registerSysCall_spec (Y : yarn_state) (key : Nat) (g : Option yarn_CFunc)
    (h : ∃ idx, idx < 256 ∧ ((Y.syscalls idx).val = none ∨ (Y.syscalls idx).key = key)) :
    ∃ j, j < 256
      ∧ (∀ i, i < j → (Y.syscalls ((hash_uint key + i) % 256)).val ≠ none
          ∧ (Y.syscalls ((hash_uint key + i) % 256)).key ≠ key)
      ∧ ((Y.syscalls ((hash_uint key + j) % 256)).val = none
          ∨ (Y.syscalls ((hash_uint key + j) % 256)).key = key)
      ∧ yarn_registerSysCall Y key g
        = some { Y with
            syscalls := fun i =>
              if i = (hash_uint key + j) % 256 then ⟨key, g⟩ else Y.syscalls i } := by
  obtain ⟨j, hj, hbefore, hstop⟩ := yarn_probe_first Y key (hash_uint key) h
  exact ⟨j, hj, hbefore, hstop,
    yarn_registerSysCall_probe_at Y key g j 256 (hash_uint key) hj hbefore hstop⟩

theorem yarn_registerSysCall_fields (Y Y1 : yarn_state) (key : Nat) (g : Option yarn_CFunc)
    (h : yarn_registerSysCall Y key g = some Y1) :
    Y1.memory = Y.memory ∧ Y1.memsize = Y.memsize
      ∧ Y1.instructioncount = Y.instructioncount ∧ Y1.codesize = Y.codesize
      ∧ Y1.code = Y.code := by
  obtain ⟨idx, -, e⟩ := yarn_registerSysCall_frame Y Y1 key g h
  subst e
  exact ⟨rfl, rfl, rfl, rfl, rfl⟩

/-- The steps of `yarn_init` when it returns. -/
theorem yarn_init_some (M : Nat) (raw Y : yarn_state) (h : yarn_init M raw = some Y) :
    ∃ Y4 Y5,
      yarn_registerSysCall (yarn_setRegister (yarn_setRegister (yarn_setRegister
          { raw with memory := fun _ => 0, memsize := M } 0 0) 1
          ((M + 18446744073709551616 - 72) % 18446744073709551616 % 4294967296)) 2
          ((M + 18446744073709551616 - 72) % 18446744073709551616 % 4294967296)) 0
          (some .yarn_sys_getvmmemory) = some Y4
      ∧ yarn_registerSysCall Y4 1 (some .yarn_sys_getinstructioncount) = some Y5
      ∧ yarn_registerSysCall Y5 2 (some .yarn_sys_gettime) = some Y := by
  unfold yarn_init at h
  simp only [Option.bind_eq_some] at h
  obtain ⟨Y4, h4, Y5, h5, h6⟩ := h
  exact ⟨Y4, Y5, h4, h5, h6⟩

/-- The memory `yarn_init` leaves: the zeroed block with the three registers
stored; the other fields are those of the record `malloc` handed out. -/
theorem yarn_init_frame (M : Nat) (raw Y : yarn_state) (h : yarn_init M raw = some Y) :
    Y.memory
        = (yarn_setRegister (yarn_setRegister (yarn_setRegister
            { raw with memory := fun _ => 0, memsize := M } 0 0) 1
            ((M + 18446744073709551616 - 72) % 18446744073709551616 % 4294967296)) 2
            ((M + 18446744073709551616 - 72) % 18446744073709551616 % 4294967296)).memory
      ∧ Y.memsize = M ∧ Y.instructioncount = raw.instructioncount
      ∧ Y.codesize = raw.codesize ∧ Y.code = raw.code := by
  obtain ⟨Y4, Y5, h4, h5, h6⟩ := yarn_init_some M raw Y h
  obtain ⟨a1, a2, a3, a4, a5⟩ := yarn_registerSysCall_fields _ _ _ _ h4
  obtain ⟨b1, b2, b3, b4, b5⟩ := yarn_registerSysCall_fields _ _ _ _ h5
  obtain ⟨c1, c2, c3, c4, c5⟩ := yarn_registerSysCall_fields _ _ _ _ h6
  have e : yarn_rest (yarn_setRegister (yarn_setRegister (yarn_setRegister
      { raw with memory := fun _ => 0, memsize := M } 0 0) 1
      ((M + 18446744073709551616 - 72) % 18446744073709551616 % 4294967296)) 2
      ((M + 18446744073709551616 - 72) % 18446744073709551616 % 4294967296))
      = yarn_rest { raw with memory := fun _ => 0, memsize := M } := by simp
  refine ⟨by rw [c1, b1, a1], ?_, ?_, ?_, ?_⟩
  · rw [c2, b2, a2]; exact yarn_rest_memsize e
  · rw [c3, b3, a3]; have := yarn_rest_instructioncount e; exact this
  · rw [c4, b4, a4]; have := yarn_rest_codesize e; exact this
  · rw [c5, b5, a5]; have := yarn_rest_code e; exact this

theorem wordBytes_zero_getD (k : Nat) : (wordBytes 0).getD k 0 = 0 := by
  rcases k with _ | _ | _ | _ | k <;> rfl

/-- The state `yarn_init` returns on a size M with 72 ≤ M < 2^32: the words of
INSTRUCTION, STACK and BASE, and zero everywhere else. -/
theorem yarn_init_memory (M : Nat) (raw Y : yarn_state) (hM1 : 72 ≤ M) (hM2 : M < 4294967296)
    (h : yarn_init M raw = some Y) :
    Y.memsize = M
      ∧ readWord Y.memory (M - 12) = M - 72 ∧ readWord Y.memory (M - 16) = M - 72
      ∧ (∀ i, i < M - 16 ∨ M - 8 ≤ i → Y.memory i = 0) := by
  obtain ⟨hmem, hsize, -, -, -⟩ := yarn_init_frame M raw Y h
  have hs : (M + 18446744073709551616 - 72) % 18446744073709551616 % 4294967296 = M - 72 := by
    omega
  rw [hs] at hmem
  rw [yarn_setRegister_eq _ 2 _ (by simp; omega) (by simpa using hM2)] at hmem
  simp only [yarn_setRegister_memsize] at hmem
  rw [yarn_setRegister_eq _ 1 _ (by simp; omega) (by simpa using hM2)] at hmem
  simp only [yarn_setRegister_memsize] at hmem
  rw [yarn_setRegister_eq _ 0 _ (by simp only []; omega) (by simpa using hM2)] at hmem
  simp only [] at hmem
  rw [hmem]
  refine ⟨hsize, ?_, ?_, ?_⟩
  · rw [readWord_memcpy_to_other _ _ _ _ (by rw [wordBytes_length]; omega),
      readWord_memcpy_to_same]
    omega
  · rw [readWord_memcpy_to_same]
    omega
  · intro i hi
    rw [memcpy_to_other _ _ _ _ (by rw [wordBytes_length]; omega),
      memcpy_to_other _ _ _ _ (by rw [wordBytes_length]; omega), memcpy_to_apply]
    split_ifs
    · exact wordBytes_zero_getD _
    · rfl

theorem readWord_zero (mem : Nat → byte) (p : Nat)
    (h : ∀ i, p ≤ i → i < p + 4 → mem i = 0) : readWord mem p = 0 := by
  unfold readWord
  rw [h p (by omega) (by omega), h (p + 1) (by omega) (by omega),
    h (p + 2) (by omega) (by omega), h (p + 3) (by omega) (by omega)]
  rfl

theorem yarn_fresh_index (l : List Nat) (hl : l.length < 256) :
    ∃ idx, idx < 256 ∧ idx ∉ l := by
  by_contra hno
  push_neg at hno
  have hsub : Finset.range 256 ⊆ l.toFinset := fun e he =>
    List.mem_toFinset.mpr (hno e (Finset.mem_range.mp he))
  have h1 := Finset.card_le_card hsub
  have h2 := List.toFinset_card_le l
  rw [Finset.card_range] at h1
  omega

/-- A registration in a table whose slots outside the list `l` are empty
returns, and the slots outside `l` and the slot it used are still empty. -/
theorem yarn_registerSysCall_room (Y : yarn_state) (key : Nat) (g : Option yarn_CFunc)
    (l : List Nat) (hl : l.length < 256)
    (hY : ∀ idx, idx < 256 → idx ∉ l → (Y.syscalls idx).val = none) :
    ∃ Y1 i, yarn_registerSysCall Y key g = some Y1
      ∧ ∀ idx, idx < 256 → idx ∉ i :: l → (Y1.syscalls idx).val = none := by
  obtain ⟨idx, hidx, hnot⟩ := yarn_fresh_index l hl
  obtain ⟨j, -, -, -, h⟩ := yarn_registerSysCall_spec Y key g
    ⟨idx, hidx, Or.inl (hY idx hidx hnot)⟩
  refine ⟨_, (hash_uint key + j) % 256, h, ?_⟩
  intro k hk hkl
  simp only [List.mem_cons, not_or] at hkl
  simp only [if_neg hkl.1]
  exact hY k hk hkl.2

/-- `yarn_init` returns when the table of the record it is given is empty. -/
theorem yarn_init_returns (M : Nat) (raw : yarn_state)
    (hraw : ∀ idx, idx < 256 → (raw.syscalls idx).val = none) :
    ∃ Y, yarn_init M raw = some Y := by
  have e : yarn_rest (yarn_setRegister (yarn_setRegister (yarn_setRegister
      { raw with memory := fun _ => 0, memsize := M } YARN_REG_INSTRUCTION 0) YARN_REG_STACK
      ((M + 18446744073709551616 - (YARN_REG_NUM + 2) * 4) % 18446744073709551616
        % 4294967296)) YARN_REG_BASE
      ((M + 18446744073709551616 - (YARN_REG_NUM + 2) * 4) % 18446744073709551616
        % 4294967296))
      = yarn_rest { raw with memory := fun _ => 0, memsize := M } := by simp
  have e3 := yarn_rest_syscalls e
  obtain ⟨Y4, i4, h4, r4⟩ := yarn_registerSysCall_room _ 0 (some .yarn_sys_getvmmemory) []
    (by decide) (fun idx hidx _ => by rw [e3]; exact hraw idx hidx)
  obtain ⟨Y5, i5, h5, r5⟩ := yarn_registerSysCall_room Y4 1
    (some .yarn_sys_getinstructioncount) [i4] (by simp) r4
  obtain ⟨Y6, i6, h6, -⟩ := yarn_registerSysCall_room Y5 2 (some .yarn_sys_gettime) [i5, i4]
    (by simp) r5
  refine ⟨Y6, ?_⟩
  unfold yarn_init
  simp only []
  rw [h4, Option.some_bind, h5, Option.some_bind, h6]

/-! ### Branch instructions -/

/-- The operands `branchinst_setup` decodes from an instruction that lies
wholly inside the code buffer. -/
theorem branchinst_setup_some (Y : yarn_state) (ip u : Nat) (hfit : ip + 5 ≤ Y.codesize)
    (hcs : Y.codesize < 4294967296) :
    branchinst_setup Y ip u = some (Y, ⟨u, u, readWord Y.code (ip + 1), u, u⟩) := by
  have hv : yarn_validInstruction Y ip 4 = true := by
    rw [yarn_validInstruction_iff Y ip 4 (by omega)]; omega
  have hw : codeWord Y ip 1 = readWord Y.code (ip + 1) := by
    unfold codeWord
    rw [Nat.mod_eq_of_lt (by omega), bytesWord_memcpy_from]
  unfold branchinst_setup
  rw [if_pos hv, hw]

/-- The `switch` on a branch opcode that lies wholly inside the code buffer
runs the statements of its case on the immediate decoded. -/
theorem yarn_dispatch_branch (host : yarn_host) (Y : yarn_state) (ip op : Nat)
    (hfit : ip + 5 ≤ Y.codesize) (hcs : Y.codesize < 4294967296)
    (hop : (Y.code ip).val = op) (hops : 0x40 ≤ op ∧ op ≤ 0x44) :
    yarn_dispatch host Y ip
      = yarn_exec host Y ip (host.uninit Y.instructioncount)
          ⟨host.uninit Y.instructioncount, host.uninit Y.instructioncount,
            readWord Y.code (ip + 1), host.uninit Y.instructioncount,
            host.uninit Y.instructioncount⟩ op := by
  have h1 : ¬ (0x10 ≤ op ∧ op ≤ 0x1B) := by omega
  have h2 : ¬ (0x20 ≤ op ∧ op ≤ 0x23) := by omega
  have h3 : ¬ (0x30 ≤ op ∧ op ≤ 0x31) := by omega
  unfold yarn_dispatch yarn_setup
  simp only [hop, h1, h2, h3, hops, and_self, if_true, if_false,
    branchinst_setup_some Y ip _ hfit hcs]

/-- The state after the statements SYSCALL runs when the look-up returns the
null pointer: status INVALIDINSTRUCTION, INSTRUCTION five further, everything
else as before. -/
theorem yarn_syscall_miss_spec (Y : yarn_state) (u c : Nat) (hM1 : 72 ≤ Y.memsize)
    (hM2 : Y.memsize < 4294967296) :
    yarn_getStatus { yarn_incRegister (yarn_setStatus Y 4) 0 5 u with instructioncount := c } = 4
    ∧ (∀ r, 1 ≤ r → r ≤ 15 →
        (yarn_getRegister
            { yarn_incRegister (yarn_setStatus Y 4) 0 5 u with instructioncount := c } r 0).2
          = (yarn_getRegister Y r 0).2)
    ∧ (∀ i, i < Y.memsize - 8 ∨ Y.memsize - 4 < i →
        ({ yarn_incRegister (yarn_setStatus Y 4) 0 5 u with instructioncount := c }
          : yarn_state).memory i = Y.memory i)
    ∧ (yarn_getRegister
          { yarn_incRegister (yarn_setStatus Y 4) 0 5 u with instructioncount := c } 0 0).2
        = (readWord Y.memory (Y.memsize - 8) + 5) % 4294967296 := by
  have hS1 : 72 ≤ (yarn_setStatus Y 4).memsize := by simpa using hM1
  have hS2 : (yarn_setStatus Y 4).memsize < 4294967296 := by simpa using hM2
  refine ⟨?_, ?_, ?_, ?_⟩
  · rw [yarn_getStatus_count, yarn_getStatus_incRegister _ _ _ _ hS1 hS2 (by omega),
      yarn_getStatus_setStatus Y 4 (by omega) hM2]
  · intro r hr1 hr15
    rw [yarn_getRegister_val _ r 0 (by simpa using hM1) (by simpa using hM2) hr15,
      yarn_getRegister_val Y r 0 hM1 hM2 hr15]
    simp only [yarn_incRegister_memsize, yarn_setStatus_memsize]
    have := readReg_incRegister (yarn_setStatus Y 4) 0 r 5 u hS1 hS2 (by omega) hr15
    simp only [yarn_setStatus_memsize] at this
    rw [this, if_neg (by omega), readReg_setStatus Y 4 r hM1 hM2 hr15]
  · intro i hi
    have := yarn_incRegister_memory (yarn_setStatus Y 4) 0 5 u i hS1 hS2 (by omega)
      (by simp only [yarn_setStatus_memsize]; omega)
    simp only [] at this ⊢
    rw [this, yarn_setStatus_memory Y 4 i hM1 hM2 (by omega)]
  · rw [yarn_getRegister_val _ 0 0 (by simpa using hM1) (by simpa using hM2) (by omega)]
    simp only [yarn_incRegister_memsize, yarn_setStatus_memsize]
    have := readReg_incRegister (yarn_setStatus Y 4) 0 0 5 u hS1 hS2 (by omega) (by omega)
    simp only [yarn_setStatus_memsize] at this
    rw [this, if_pos trivial, readReg_setStatus Y 4 0 hM1 hM2 (by omega)]
    clear this
    have e8 : Y.memsize - (0 + 2) * 4 = Y.memsize - 8 := rfl
    rw [e8]
    have hlt := readWord_lt Y.memory (Y.memsize - 8)
    unfold toUint
    omega

/-- With only the built-in callbacks registered, the look-up of an id other
than 0, 1 and 2 returns the null pointer. -/
theorem yarn_getSysCall_builtins (Y : yarn_state) (h : yarn_onlyBuiltins Y) (d : Nat)
    (hd : 3 ≤ d) : yarn_getSysCall Y d = some none := by
  have home : ∀ idx, idx < 256 → (Y.syscalls idx).val ≠ none →
      (Y.syscalls idx).key ≠ d ∧ (idx = 0 ∨ idx = 177 ∨ idx = 98) := by
    intro idx hidx hocc
    rcases h idx hidx with h1 | ⟨hk, -, h3⟩
    · exact absurd h1 hocc
    · refine ⟨by omega, ?_⟩
      generalize (Y.syscalls idx).key = k at hk h3
      interval_cases k
      · left; rw [h3]; decide
      · right; left; rw [h3]; decide
      · right; right; rw [h3]; decide
  unfold yarn_getSysCall
  by_cases h0 : (Y.syscalls ((hash_uint d + 0) % 256)).val = none
  · rw [yarn_getSysCall_probe_at Y d 0 256 (hash_uint d) (by decide)
      (fun i hi => absurd hi (by omega)) (Or.inl h0), h0]
  · obtain ⟨hk0, hs0⟩ := home _ (by omega) h0
    have h1 : (Y.syscalls ((hash_uint d + 1) % 256)).val = none := by
      by_contra hocc
      obtain ⟨-, hs1⟩ := home _ (by omega) hocc
      omega
    rw [yarn_getSysCall_probe_at Y d 1 256 (hash_uint d) (by decide)
      (fun i hi => by
        have : i = 0 := by omega
        subst this
        exact ⟨h0, hk0⟩) (Or.inl h1), h1]

/-! ### Compare instructions -/

set_option maxRecDepth 1000000 in
theorem yarn_flag_bits (f : Nat) (hf : f < 256) :
    (f &&& (4294967295 - (1 <<< 0) % 4294967296)) % 256 = f - f % 2
      ∧ (f ||| (1 <<< 0)) % 256 = f - f % 2 + 1 := by
  interval_cases f <;> decide

@[simp] theorem yarn_setFlag_memsize (Y : yarn_state) (f : Nat) :
    (yarn_setFlag Y f).memsize = Y.memsize := yarn_rest_memsize (by simp)

@[simp] theorem yarn_clearFlag_memsize (Y : yarn_state) (f : Nat) :
    (yarn_clearFlag Y f).memsize = Y.memsize := yarn_rest_memsize (by simp)

theorem yarn_getFlag_eq (Y : yarn_state) (hM1 : 72 ≤ Y.memsize) (hM2 : Y.memsize < 4294967296) :
    yarn_getFlag Y 0 = (Y.memory (Y.memsize - 3)).val % 2 := by
  unfold yarn_getFlag
  rw [flagLocation_eq _ (by omega) hM2, Nat.shiftRight_zero, Nat.and_one_is_mod]

theorem yarn_clearFlag_eq (Y : yarn_state) (hM1 : 72 ≤ Y.memsize)
    (hM2 : Y.memsize < 4294967296) :
    yarn_clearFlag Y 0
      = { Y with
          memory := memcpy_to Y.memory (Y.memsize - 3)
            [toByte ((Y.memory (Y.memsize - 3)).val - (Y.memory (Y.memsize - 3)).val % 2)] } := by
  unfold yarn_clearFlag
  rw [yarn_setMemory_inb _ _ _ (by rw [flagLocation_eq _ (by omega) hM2]; simp; omega),
    flagLocation_eq _ (by omega) hM2]
  have hb := (yarn_flag_bits (Y.memory (Y.memsize - 3)).val (Y.memory (Y.memsize - 3)).isLt).1
  have e : toByte ((Y.memory (Y.memsize - 3)).val &&& (4294967295 - (1 <<< 0) % 4294967296))
      = toByte ((Y.memory (Y.memsize - 3)).val - (Y.memory (Y.memsize - 3)).val % 2) := by
    apply Fin.ext
    simp only [toByte]
    omega
  rw [e]

theorem yarn_setFlag_eq (Y : yarn_state) (hM1 : 72 ≤ Y.memsize)
    (hM2 : Y.memsize < 4294967296) (h0 : (Y.memory (Y.memsize - 3)).val % 2 = 0) :
    yarn_setFlag Y 0
      = { Y with
          memory := memcpy_to Y.memory (Y.memsize - 3)
            [toByte ((Y.memory (Y.memsize - 3)).val + 1)] } := by
  unfold yarn_setFlag
  rw [yarn_setMemory_inb _ _ _ (by rw [flagLocation_eq _ (by omega) hM2]; simp; omega),
    flagLocation_eq _ (by omega) hM2]
  have hb := (yarn_flag_bits (Y.memory (Y.memsize - 3)).val (Y.memory (Y.memsize - 3)).isLt).2
  have e : toByte ((Y.memory (Y.memsize - 3)).val ||| (1 <<< 0))
      = toByte ((Y.memory (Y.memsize - 3)).val + 1) := by
    apply Fin.ext
    simp only [toByte]
    have := (Y.memory (Y.memsize - 3)).isLt
    omega
  rw [e]

theorem memcpy_to_twice (mem : Nat → byte) (p : Nat) (a b : byte) :
    memcpy_to (memcpy_to mem p [a]) p [b] = memcpy_to mem p [b] := by
  funext i
  simp only [memcpy_to_apply, List.length_singleton]
  split_ifs <;> rfl

/-- The state the compare cases leave before INSTRUCTION is advanced: the
flag byte with bit 0 replaced by the outcome of the comparison. -/
theorem yarn_flagState_eq (Y : yarn_state) (c : Prop) [Decidable c] (hM1 : 72 ≤ Y.memsize)
    (hM2 : Y.memsize < 4294967296) :
    (if c then yarn_setFlag (yarn_clearFlag Y 0) 0 else yarn_clearFlag Y 0)
      = { Y with
          memory := memcpy_to Y.memory (Y.memsize - 3)
            [toByte ((Y.memory (Y.memsize - 3)).val - (Y.memory (Y.memsize - 3)).val % 2
              + if c then 1 else 0)] } := by
  have hf := (Y.memory (Y.memsize - 3)).isLt
  by_cases hc : c
  · rw [if_pos hc, if_pos hc]
    rw [yarn_setFlag_eq _ (by simpa using hM1) (by simpa using hM2)]
    · rw [yarn_clearFlag_eq Y hM1 hM2]
      simp only [memcpy_to_twice]
      have e : (memcpy_to Y.memory (Y.memsize - 3)
          [toByte ((Y.memory (Y.memsize - 3)).val - (Y.memory (Y.memsize - 3)).val % 2)]
          (Y.memsize - 3)).val
          = (Y.memory (Y.memsize - 3)).val - (Y.memory (Y.memsize - 3)).val % 2 := by
        simp [toByte]
        omega
      rw [e]
    · rw [yarn_clearFlag_eq Y hM1 hM2]
      simp [toByte]
      omega
  · rw [if_neg hc, if_neg hc, yarn_clearFlag_eq Y hM1 hM2]
    rfl

/-- The state and operands `conditionalinst_setup` leaves for an instruction
that lies wholly inside the code buffer. -/
theorem conditionalinst_setup_some (Y : yarn_state) (ip u rA rB : Nat) (hM1 : 72 ≤ Y.memsize)
    (hM2 : Y.memsize < 4294967296) (hfit : ip + 2 ≤ Y.codesize)
    (hcs : Y.codesize < 4294967296) (hregs : (Y.code (ip + 1)).val = 16 * rA + rB)
    (hrA : rA ≤ 15) (hrB : rB ≤ 15) :
    conditionalinst_setup Y ip u
      = some (yarn_clearFlag Y 0, ⟨rA, rB, u, readWord Y.memory (Y.memsize - (rA + 2) * 4),
          readWord Y.memory (Y.memsize - (rB + 2) * 4)⟩) := by
  have hv : yarn_validInstruction Y ip 1 = true := by
    rw [yarn_validInstruction_iff Y ip 1 (by omega)]; omega
  have hb : codeByte Y ip 1 = 16 * rA + rB := by
    unfold codeByte
    rw [Nat.mod_eq_of_lt (by omega), hregs]
  obtain ⟨hn1, hn2⟩ := yarn_nibbles (16 * rA + rB) (by omega)
  have hA : (16 * rA + rB) / 16 = rA := by omega
  have hB : (16 * rA + rB) % 16 = rB := by omega
  unfold conditionalinst_setup
  simp only [hv, if_true, hb, hn1, hn2, hA, hB, YARN_FLAG_CONDITIONAL]
  rw [yarn_getRegister_eq Y rA u (by omega) hM2]
  simp only []
  rw [yarn_getRegister_eq Y rB u (by omega) hM2]

/-- The `switch` on a compare opcode that lies wholly inside the code buffer
clears the flag and runs the statements of its case on the register contents
read. -/
theorem yarn_dispatch_compare (host : yarn_host) (Y : yarn_state) (ip op rA rB : Nat)
    (hM1 : 72 ≤ Y.memsize) (hM2 : Y.memsize < 4294967296) (hfit : ip + 2 ≤ Y.codesize)
    (hcs : Y.codesize < 4294967296) (hop : (Y.code ip).val = op)
    (hops : 0x50 ≤ op ∧ op ≤ 0x55) (hregs : (Y.code (ip + 1)).val = 16 * rA + rB)
    (hrA : rA ≤ 15) (hrB : rB ≤ 15) :
    yarn_dispatch host Y ip
      = yarn_exec host (yarn_clearFlag Y 0) ip (host.uninit Y.instructioncount)
          ⟨rA, rB, host.uninit Y.instructioncount,
            readWord Y.memory (Y.memsize - (rA + 2) * 4),
            readWord Y.memory (Y.memsize - (rB + 2) * 4)⟩ op := by
  have h1 : ¬ (0x10 ≤ op ∧ op ≤ 0x1B) := by omega
  have h2 : ¬ (0x20 ≤ op ∧ op ≤ 0x23) := by omega
  have h3 : ¬ (0x30 ≤ op ∧ op ≤ 0x31) := by omega
  have h4 : ¬ (0x40 ≤ op ∧ op ≤ 0x44) := by omega
  unfold yarn_dispatch yarn_setup
  simp only [hop, h1, h2, h3, h4, hops, and_self, if_true, if_false,
    conditionalinst_setup_some Y ip _ rA rB hM1 hM2 hfit hcs hregs hrA hrB]

/-- The statements of the six compare cases: the flag is set when the
comparison holds, then INSTRUCTION advances by 2. -/
theorem yarn_exec_compare (host : yarn_host) (Y : yarn_state) (ip u : Nat) (o : yarn_operands)
    (op : Nat) (hops : 0x50 ≤ op ∧ op ≤ 0x55) :
    yarn_exec host Y ip u o op
      = some (yarn_incRegister
          (if (op = 0x50 ∧ o.valA < o.valB) ∨ (op = 0x51 ∧ toInt o.valA < toInt o.valB)
              ∨ (op = 0x52 ∧ o.valA ≤ o.valB) ∨ (op = 0x53 ∧ toInt o.valA ≤ toInt o.valB)
              ∨ (op = 0x54 ∧ o.valA = o.valB) ∨ (op = 0x55 ∧ o.valA ≠ o.valB)
            then yarn_setFlag Y 0 else Y) 0 2 u) := by
  obtain ⟨h1, h2⟩ := hops
  interval_cases op
  all_goals
    simp only [yarn_exec, YARN_FLAG_CONDITIONAL, YARN_REG_INSTRUCTION]
    simp

/-- The state after the statements of a compare case whose comparison has the
outcome `c`: bit 0 of the flag byte is the outcome, INSTRUCTION is two further,
everything else is as before. -/
theorem yarn_compare_spec (Y : yarn_state) (c : Prop) [Decidable c] (u n : Nat)
    (hM1 : 72 ≤ Y.memsize) (hM2 : Y.memsize < 4294967296) :
    yarn_getStatus
        { yarn_incRegister (if c then yarn_setFlag (yarn_clearFlag Y 0) 0 else yarn_clearFlag Y 0)
            0 2 u with instructioncount := n } = yarn_getStatus Y
    ∧ (({ yarn_incRegister
            (if c then yarn_setFlag (yarn_clearFlag Y 0) 0 else yarn_clearFlag Y 0)
            0 2 u with instructioncount := n } : yarn_state).memory (Y.memsize - 3)).val / 2
        = (Y.memory (Y.memsize - 3)).val / 2
    ∧ (yarn_getFlag { yarn_incRegister
            (if c then yarn_setFlag (yarn_clearFlag Y 0) 0 else yarn_clearFlag Y 0)
            0 2 u with instructioncount := n } 0 = 1 ↔ c)
    ∧ (∀ r, 1 ≤ r → r ≤ 15 →
        (yarn_getRegister { yarn_incRegister
            (if c then yarn_setFlag (yarn_clearFlag Y 0) 0 else yarn_clearFlag Y 0)
            0 2 u with instructioncount := n } r 0).2 = (yarn_getRegister Y r 0).2)
    ∧ (yarn_getRegister { yarn_incRegister
            (if c then yarn_setFlag (yarn_clearFlag Y 0) 0 else yarn_clearFlag Y 0)
            0 2 u with instructioncount := n } 0 0).2
        = (readWord Y.memory (Y.memsize - 8) + 2) % 4294967296 := by
  rw [yarn_flagState_eq Y c hM1 hM2]
  have hf := (Y.memory (Y.memsize - 3)).isLt
  have hg2 : ((Y.memory (Y.memsize - 3)).val - (Y.memory (Y.memsize - 3)).val % 2
      + (if c then 1 else 0)) / 2 = (Y.memory (Y.memsize - 3)).val / 2 := by
    split_ifs <;> omega
  have hgc : ((Y.memory (Y.memsize - 3)).val - (Y.memory (Y.memsize - 3)).val % 2
      + (if c then 1 else 0)) % 2 = 1 ↔ c := by
    split_ifs with hcc
    · simp only [hcc, iff_true]; omega
    · simp only [hcc, iff_false]; omega
  generalize hg : (Y.memory (Y.memsize - 3)).val - (Y.memory (Y.memsize - 3)).val % 2
    + (if c then 1 else 0) = g at hg2 hgc
  have hg256 : g < 256 := by
    rw [← hg]
    split_ifs <;> omega
  generalize hYf : ({ Y with memory := memcpy_to Y.memory (Y.memsize - 3) [toByte g] }
    : yarn_state) = Yf
  have hsz : Yf.memsize = Y.memsize := by rw [← hYf]
  have hmem : Yf.memory = memcpy_to Y.memory (Y.memsize - 3) [toByte g] := by rw [← hYf]
  have hF1 : 72 ≤ Yf.memsize := by omega
  have hF2 : Yf.memsize < 4294967296 := by omega
  have hbyte : (({ yarn_incRegister Yf 0 2 u with instructioncount := n }
      : yarn_state).memory (Y.memsize - 3)).val = g := by
    have := yarn_incRegister_memory Yf 0 2 u (Y.memsize - 3) hF1 hF2 (by omega) (by omega)
    simp only [] at this ⊢
    rw [this, hmem]
    simp [toByte]
    omega
  have hN1 : 72 ≤ ({ yarn_incRegister Yf 0 2 u with instructioncount := n }
      : yarn_state).memsize := by simpa using hF1
  have hN2 : ({ yarn_incRegister Yf 0 2 u with instructioncount := n }
      : yarn_state).memsize < 4294967296 := by simpa using hF2
  have hNs : ({ yarn_incRegister Yf 0 2 u with instructioncount := n }
      : yarn_state).memsize = Y.memsize := by simpa using hsz
  refine ⟨?_, ?_, ?_, ?_, ?_⟩
  · rw [yarn_getStatus_count, yarn_getStatus_incRegister _ _ _ _ hF1 hF2 (by omega),
      yarn_getStatus_eq _ (by omega) hF2, yarn_getStatus_eq Y (by omega) hM2, hsz, hmem,
      memcpy_to_other _ _ _ _ (by simp only [List.length_singleton]; omega)]
  · rw [hbyte, hg2]
  · rw [yarn_getFlag_eq _ hN1 hN2, hNs, hbyte, hgc]
  · intro r hr1 hr15
    rw [yarn_getRegister_val _ r 0 hN1 hN2 hr15, yarn_getRegister_val Y r 0 hM1 hM2 hr15, hNs]
    have := readReg_incInstruction Yf 2 u r hF1 hF2 hr1 hr15
    rw [hsz] at this
    simp only [] at this ⊢
    rw [this, hmem,
      readWord_memcpy_to_other _ _ _ _ (by simp only [List.length_singleton]; omega)]
  · rw [yarn_getRegister_val _ 0 0 hN1 hN2 (by omega), hNs]
    have := readWord_incInstruction Yf 2 u hF1 hF2
    rw [hsz] at this
    have e8 : Y.memsize - (0 + 2) * 4 = Y.memsize - 8 := rfl
    rw [e8]
    simp only [] at this ⊢
    rw [this, hmem,
      readWord_memcpy_to_other _ _ _ _ (by simp only [List.length_singleton]; omega)]
    have hlt := readWord_lt Y.memory (Y.memsize - 8)
    unfold toUint
    omega

/-! ### More passes than needed -/

/-- A loop that has returned within `fuel` passes returns the same state when
it is allowed more. -/
theorem yarn_loop_mono (host : yarn_host) (fuel : Nat) :
    ∀ (Y : yarn_state) (icount : Int) (Y1 : yarn_state),
      yarn_loop host fuel Y icount = some Y1 →
      ∀ k, yarn_loop host (fuel + k) Y icount = some Y1 := by
  induction fuel with
  | zero =>
    intro Y icount Y1 h k
    unfold yarn_loop at h
    split_ifs at h with hrun
    cases k with
    | zero => simp [yarn_loop, hrun, h]
    | succ k =>
      rw [Nat.zero_add]
      unfold yarn_loop
      rw [if_neg hrun]
      exact h
  | succ f ih =>
    intro Y icount Y1 h k
    have e : f + 1 + k = (f + k) + 1 := by omega
    rw [e]
    unfold yarn_loop at h ⊢
    by_cases hrun : yarn_running Y icount
    · rw [if_pos hrun] at h ⊢
      cases hstep : yarn_step host Y with
      | none => rw [hstep] at h; exact absurd h (by simp)
      | some r =>
        obtain ⟨Y2, b⟩ := r
        rw [hstep] at h
        cases b with
        | false => exact h
        | true => exact ih _ _ _ h k
    · rw [if_neg hrun] at h ⊢
      exact h

/-- The result of `yarn_execute` does not depend on the number of passes it
is allowed, once that suffices. -/
theorem yarn_execute_fuel (host : yarn_host) (f1 f2 : Nat) (Y : yarn_state) (icount : Int)
    (r1 r2 : Nat × yarn_state) (h1 : yarn_execute host f1 Y icount = some r1)
    (h2 : yarn_execute host f2 Y icount = some r2) : r1 = r2 := by
  unfold yarn_execute at h1 h2
  cases hl1 : yarn_loop host f1 Y icount with
  | none => rw [hl1] at h1; exact absurd h1 (by simp)
  | some Y1 =>
    cases hl2 : yarn_loop host f2 Y icount with
    | none => rw [hl2] at h2; exact absurd h2 (by simp)
    | some Y2 =>
      rw [hl1] at h1
      rw [hl2] at h2
      have m1 := yarn_loop_mono host f1 Y icount Y1 hl1 f2
      have m2 := yarn_loop_mono host f2 Y icount Y2 hl2 f1
      rw [Nat.add_comm] at m2
      rw [m1] at m2
      simp only [Option.map_some', Option.some.injEq] at h1 h2 m2
      rw [← h1, ← h2, m2]

theorem yarn_loop_positive (host : yarn_host) (fuel : Nat) (Y Y1 : yarn_state) (icount : Int)
    (hpos : 0 < icount) (hOK : yarn_getStatus Y = YARN_STATUS_OK)
    (hstep : yarn_step host Y = some (Y1, true)) :
    yarn_loop host (fuel + 1) Y icount = yarn_loop host fuel Y1 (icount - 1) := by
  have hrun : yarn_running Y icount := ⟨hOK, Or.inl hpos⟩
  conv_lhs => rw [yarn_loop]
  rw [if_pos hrun, hstep]
  have h0 : (if icount ≠ -1 then icount - 1 else icount) = icount - 1 := by
    rw [if_pos (by omega)]
  simp only [h0]

/-! ### Registers, status and memory after a write -/

theorem yarn_getRegister_count (Y : yarn_state) (c q u : Nat) :
    (yarn_getRegister { Y with instructioncount := c } q u).2 = (yarn_getRegister Y q u).2 := by
  unfold yarn_getRegister yarn_getMemory
  simp only []
  split_ifs <;> rfl

theorem yarn_getRegister_setRegister (Y : yarn_state) (r q v : Nat) (hM1 : 72 ≤ Y.memsize)
    (hM2 : Y.memsize < 4294967296) (hr : r ≤ 15) (hq : q ≤ 15) :
    (yarn_getRegister (yarn_setRegister Y r v) q 0).2
      = if q = r then v % 4294967296 else (yarn_getRegister Y q 0).2 := by
  rw [yarn_getRegister_val _ q 0 (by simpa using hM1) (by simpa using hM2) hq,
    yarn_getRegister_val Y q 0 hM1 hM2 hq, yarn_setRegister_memsize]
  exact readReg_setRegister Y r q v hM1 hM2 hr hq

theorem yarn_getRegister_incRegister (Y : yarn_state) (r q : Nat) (d : Int) (u : Nat)
    (hM1 : 72 ≤ Y.memsize) (hM2 : Y.memsize < 4294967296) (hr : r ≤ 15) (hq : q ≤ 15) :
    (yarn_getRegister (yarn_incRegister Y r d u) q 0).2
      = if q = r then toUint (((yarn_getRegister Y r 0).2 : Nat) + d)
        else (yarn_getRegister Y q 0).2 := by
  rw [yarn_getRegister_val _ q 0 (by simpa using hM1) (by simpa using hM2) hq,
    yarn_getRegister_val Y q 0 hM1 hM2 hq, yarn_getRegister_val Y r 0 hM1 hM2 hr,
    yarn_incRegister_memsize]
  exact readReg_incRegister Y r q d u hM1 hM2 hr hq

theorem yarn_getRegister_setStatus (Y : yarn_state) (s q : Nat) (hM1 : 72 ≤ Y.memsize)
    (hM2 : Y.memsize < 4294967296) (hq : q ≤ 15) :
    (yarn_getRegister (yarn_setStatus Y s) q 0).2 = (yarn_getRegister Y q 0).2 := by
  rw [yarn_getRegister_val _ q 0 (by simpa using hM1) (by simpa using hM2) hq,
    yarn_getRegister_val Y q 0 hM1 hM2 hq, yarn_setStatus_memsize]
  exact readReg_setStatus Y s q hM1 hM2 hq

/-- A write that lies in bounds and below the register file leaves the
registers alone. -/
theorem yarn_getRegister_setMemory (Y : yarn_state) (p : Nat) (val : List byte) (q : Nat)
    (hM1 : 72 ≤ Y.memsize) (hM2 : Y.memsize < 4294967296) (hq : q ≤ 15)
    (hp : p + val.length ≤ Y.memsize - 68) :
    (yarn_getRegister (yarn_setMemory Y p val) q 0).2 = (yarn_getRegister Y q 0).2 := by
  rw [yarn_getRegister_val _ q 0 (by simpa using hM1) (by simpa using hM2) hq,
    yarn_getRegister_val Y q 0 hM1 hM2 hq, yarn_setMemory_memsize,
    yarn_setMemory_inb Y p val (by omega)]
  exact readWord_memcpy_to_other _ _ _ _ (by omega)

theorem yarn_getStatus_setMemory (Y : yarn_state) (p : Nat) (val : List byte)
    (hM1 : 72 ≤ Y.memsize) (hM2 : Y.memsize < 4294967296)
    (hp : p + val.length ≤ Y.memsize - 4) :
    yarn_getStatus (yarn_setMemory Y p val) = yarn_getStatus Y := by
  rw [yarn_getStatus_eq _ (by simp; omega) (by simpa using hM2), yarn_getStatus_eq Y (by omega) hM2,
    yarn_setMemory_memsize, yarn_setMemory_inb Y p val (by omega)]
  exact congrArg Fin.val (memcpy_to_other _ _ _ _ (by omega))

theorem yarn_setMemory_memory (Y : yarn_state) (p : Nat) (val : List byte) (i : Nat)
    (hp : p + val.length ≤ Y.memsize) (hi : i < p ∨ p + val.length ≤ i) :
    (yarn_setMemory Y p val).memory i = Y.memory i := by
  rw [yarn_setMemory_inb Y p val hp]
  exact memcpy_to_other _ _ _ _ hi

theorem yarn_setMemory_readWord (Y : yarn_state) (p v : Nat) (hp : p + 4 ≤ Y.memsize) :
    readWord (yarn_setMemory Y p (wordBytes v)).memory p = v % 4294967296 := by
  rw [yarn_setMemory_inb Y p _ (by rw [wordBytes_length]; exact hp)]
  exact readWord_memcpy_to_same _ _ _

theorem readWord_congr (m1 m2 : Nat → byte) (p : Nat)
    (h : ∀ i, p ≤ i → i < p + 4 → m1 i = m2 i) : readWord m1 p = readWord m2 p := by
  unfold readWord
  rw [h p (by omega) (by omega), h (p + 1) (by omega) (by omega),
    h (p + 2) (by omega) (by omega), h (p + 3) (by omega) (by omega)]

theorem yarn_getStatus_byte (Y : yarn_state) (m : Nat → byte) (hM1 : 72 ≤ Y.memsize)
    (hM2 : Y.memsize < 4294967296) (h : m (Y.memsize - 4) = Y.memory (Y.memsize - 4)) :
    yarn_getStatus { Y with memory := m } = yarn_getStatus Y := by
  rw [yarn_getStatus_eq _ (by simp only []; omega) (by simpa using hM2),
    yarn_getStatus_eq Y (by omega) hM2]
  exact congrArg Fin.val h

/-! ### Decoding the other instruction groups -/

/-- The `switch` on HALT, PAUSE or NOP runs the statements of the case; these
cases have no set-up macro. -/
theorem yarn_dispatch_control (host : yarn_host) (Y : yarn_state) (ip op : Nat)
    (hop : (Y.code ip).val = op) (hops : op ≤ 0x02) :
    yarn_dispatch host Y ip
      = yarn_exec host Y ip (host.uninit Y.instructioncount)
          ⟨host.uninit Y.instructioncount, host.uninit Y.instructioncount,
            host.uninit Y.instructioncount, host.uninit Y.instructioncount,
            host.uninit Y.instructioncount⟩ op := by
  have h1 : ¬ (0x10 ≤ op ∧ op ≤ 0x1B) := by omega
  have h2 : ¬ (0x20 ≤ op ∧ op ≤ 0x23) := by omega
  have h3 : ¬ (0x30 ≤ op ∧ op ≤ 0x31) := by omega
  have h4 : ¬ (0x40 ≤ op ∧ op ≤ 0x44) := by omega
  have h5 : ¬ (0x50 ≤ op ∧ op ≤ 0x55) := by omega
  unfold yarn_dispatch yarn_setup
  simp only [hop, h1, h2, h3, h4, h5, if_false]

/-- The operands `moveinst_setup` decodes from an instruction that lies wholly
inside the code buffer. -/
theorem moveinst_setup_some (Y : yarn_state) (ip u rA rB : Nat) (hM1 : 72 ≤ Y.memsize)
    (hM2 : Y.memsize < 4294967296) (hfit : ip + 6 ≤ Y.codesize)
    (hcs : Y.codesize < 4294967296) (hregs : (Y.code (ip + 1)).val = 16 * rA + rB)
    (hrA : rA ≤ 15) (hrB : rB ≤ 15) :
    moveinst_setup Y ip u
      = some (Y, ⟨rA, rB, readWord Y.code (ip + 2),
          if rA = 15 then 0 else (yarn_getRegister Y rA 0).2, u⟩) := by
  have hv : yarn_validInstruction Y ip 5 = true := by
    rw [yarn_validInstruction_iff Y ip 5 (by omega)]; omega
  have hb : codeByte Y ip 1 = 16 * rA + rB := by
    unfold codeByte
    rw [Nat.mod_eq_of_lt (by omega), hregs]
  have hw : codeWord Y ip 2 = readWord Y.code (ip + 2) := by
    unfold codeWord
    rw [Nat.mod_eq_of_lt (by omega), bytesWord_memcpy_from]
  obtain ⟨hn1, hn2⟩ := yarn_nibbles (16 * rA + rB) (by omega)
  have hA : (16 * rA + rB) / 16 = rA := by omega
  have hB : (16 * rA + rB) % 16 = rB := by omega
  unfold moveinst_setup
  simp only [hv, if_true, hb, hw, hn1, hn2, hA, hB, YARN_REG_NULL]
  by_cases h15 : rA = 15
  · simp only [h15, if_true]
  · simp only [h15, if_false]
    rw [yarn_getRegister_eq Y rA u (by omega) hM2, yarn_getRegister_val Y rA 0 hM1 hM2 hrA]

/-- The `switch` on a move opcode that lies wholly inside the code buffer runs
the statements of its case on the operands decoded. -/
theorem yarn_dispatch_move (host : yarn_host) (Y : yarn_state) (ip op rA rB : Nat)
    (hM1 : 72 ≤ Y.memsize) (hM2 : Y.memsize < 4294967296) (hfit : ip + 6 ≤ Y.codesize)
    (hcs : Y.codesize < 4294967296) (hop : (Y.code ip).val = op)
    (hops : 0x20 ≤ op ∧ op ≤ 0x23) (hregs : (Y.code (ip + 1)).val = 16 * rA + rB)
    (hrA : rA ≤ 15) (hrB : rB ≤ 15) :
    yarn_dispatch host Y ip
      = yarn_exec host Y ip (host.uninit Y.instructioncount)
          ⟨rA, rB, readWord Y.code (ip + 2),
            if rA = 15 then 0 else (yarn_getRegister Y rA 0).2,
            host.uninit Y.instructioncount⟩ op := by
  have h1 : ¬ (0x10 ≤ op ∧ op ≤ 0x1B) := by omega
  unfold yarn_dispatch yarn_setup
  simp only [hop, h1, hops, and_self, if_true, if_false,
    moveinst_setup_some Y ip _ rA rB hM1 hM2 hfit hcs hregs hrA hrB]

/-- The `switch` on PUSH or POP lying wholly inside the code buffer runs the
statements of the case on the register decoded. -/
theorem yarn_dispatch_stack (host : yarn_host) (Y : yarn_state) (ip op rA low : Nat)
    (hfit : ip + 2 ≤ Y.codesize) (hcs : Y.codesize < 4294967296)
    (hop : (Y.code ip).val = op) (hops : 0x30 ≤ op ∧ op ≤ 0x31)
    (hregs : (Y.code (ip + 1)).val = 16 * rA + low) (hlow : low ≤ 15) :
    yarn_dispatch host Y ip
      = yarn_exec host Y ip (host.uninit Y.instructioncount)
          ⟨rA, host.uninit Y.instructioncount, host.uninit Y.instructioncount,
            host.uninit Y.instructioncount, host.uninit Y.instructioncount⟩ op := by
  have hv : yarn_validInstruction Y ip 1 = true := by
    rw [yarn_validInstruction_iff Y ip 1 (by omega)]; omega
  have hb : codeByte Y ip 1 = 16 * rA + low := by
    unfold codeByte
    rw [Nat.mod_eq_of_lt (by omega), hregs]
  obtain ⟨hn1, -⟩ := yarn_nibbles (16 * rA + low) (by omega)
  have hA : (16 * rA + low) / 16 = rA := by omega
  have h1 : ¬ (0x10 ≤ op ∧ op ≤ 0x1B) := by omega
  have h2 : ¬ (0x20 ≤ op ∧ op ≤ 0x23) := by omega
  unfold yarn_dispatch yarn_setup stackinst_setup
  simp only [hop, h1, h2, hops, and_self, if_true, if_false, hv, hb, hn1, hA]

/-- The `switch` on an arithmetic opcode that lies wholly inside the code
buffer runs the statements of its case on the operands decoded. -/
theorem yarn_dispatch_arith (host : yarn_host) (Y : yarn_state) (ip op rA rB : Nat)
    (hM1 : 72 ≤ Y.memsize) (hM2 : Y.memsize < 4294967296) (hfit : ip + 6 ≤ Y.codesize)
    (hcs : Y.codesize < 4294967296) (hop : (Y.code ip).val = op)
    (hops : 0x10 ≤ op ∧ op ≤ 0x1B) (hregs : (Y.code (ip + 1)).val = 16 * rA + rB)
    (hrA : rA ≤ 15) (hrB : rB ≤ 15) :
    yarn_dispatch host Y ip
      = yarn_exec host Y ip (host.uninit Y.instructioncount)
          ⟨rA, rB, readWord Y.code (ip + 2),
            if rA = 15 then readWord Y.code (ip + 2)
            else readWord Y.memory (Y.memsize - (rA + 2) * 4),
            readWord Y.memory (Y.memsize - (rB + 2) * 4)⟩ op := by
  unfold yarn_dispatch yarn_setup
  simp only [hop, hops, and_self, if_true,
    arithinst_setup_some Y ip _ rA rB hM1 hM2 hfit hcs hregs hrA hrB]

theorem yarn_rest_counted (Y Y2 : yarn_state) (c : Nat) (h : yarn_rest Y2 = yarn_rest Y) :
    yarn_rest { Y2 with instructioncount := c } = yarn_rest { Y with instructioncount := c } := by
  unfold yarn_rest at h ⊢
  simp only [Prod.mk.injEq] at h ⊢
  exact ⟨h.1, h.2.1, h.2.2.1, trivial, h.2.2.2.2⟩

/-- One pass through the loop body whose `switch` returns: the dispatch is
counted and the loop goes on. -/
theorem yarn_step_through (host : yarn_host) (Y Y2 : yarn_state) (ip : Nat)
    (hM1 : 72 ≤ Y.memsize) (hM2 : Y.memsize < 4294967296)
    (hip : (yarn_getRegister Y 0 0).2 = ip) (hfit : ip < Y.codesize)
    (hne : (Y.code ip).val ≠ 0x44) (hdis : yarn_dispatch host Y ip = some Y2) :
    yarn_step host Y = some ({ Y2 with instructioncount := Y.instructioncount + 1 }, true) := by
  rw [yarn_getRegister_val Y 0 0 hM1 hM2 (by omega)] at hip
  rw [yarn_step_inside host Y ip hM1 hM2 hip hfit, hdis]
  have := yarn_rest_instructioncount (yarn_dispatch_keeps _ _ _ _ hne hdis)
  simp only [Option.map_some', this]

/-! ### One pass on NOP, HALT and IR -/

theorem yarn_exec_nop (host : yarn_host) (Y : yarn_state) (ip u : Nat) (o : yarn_operands) :
    yarn_exec host Y ip u o 0x02 = some (yarn_incRegister Y 0 1 u) := rfl

theorem yarn_exec_halt (host : yarn_host) (Y : yarn_state) (ip u : Nat) (o : yarn_operands) :
    yarn_exec host Y ip u o 0x00 = some (yarn_incRegister (yarn_setStatus Y 2) 0 1 u) := rfl

theorem yarn_exec_ir (host : yarn_host) (Y : yarn_state) (ip u : Nat) (o : yarn_operands) :
    yarn_exec host Y ip u o 0x20
      = some (yarn_storeResult Y o u ((o.valA + o.d) % 4294967296)) := rfl

/-- One pass on NOP: INSTRUCTION advances by 1 and nothing else changes. -/
theorem yarn_step_nop (host : yarn_host) (Y : yarn_state) (ip : Nat) (hM1 : 72 ≤ Y.memsize)
    (hM2 : Y.memsize < 4294967296) (hip : (yarn_getRegister Y 0 0).2 = ip)
    (hfit : ip < Y.codesize) (hcs : Y.codesize < 4294967296) (hop : (Y.code ip).val = 0x02) :
    ∃ Y1, yarn_step host Y = some (Y1, true)
      ∧ yarn_rest Y1 = yarn_rest { Y with instructioncount := Y.instructioncount + 1 }
      ∧ yarn_getStatus Y1 = yarn_getStatus Y
      ∧ (yarn_getRegister Y1 0 0).2 = ip + 1
      ∧ (∀ r, 1 ≤ r → r ≤ 15 → (yarn_getRegister Y1 r 0).2 = (yarn_getRegister Y r 0).2)
      ∧ (∀ i, i < Y.memsize - 8 ∨ Y.memsize - 4 ≤ i → Y1.memory i = Y.memory i) := by
  have hne : (Y.code ip).val ≠ 0x44 := by rw [hop]; decide
  have hdis := yarn_dispatch_control host Y ip 0x02 hop (by decide)
  rw [yarn_exec_nop] at hdis
  refine ⟨_, yarn_step_through host Y _ ip hM1 hM2 hip hfit hne hdis,
    yarn_rest_counted _ _ _ (yarn_dispatch_keeps _ _ _ _ hne hdis), ?_, ?_,
    ?_, ?_⟩
  · rw [yarn_getStatus_count, yarn_getStatus_incRegister Y 0 1 _ hM1 hM2 (by omega)]
  · rw [yarn_getRegister_count, yarn_getRegister_incRegister Y 0 0 1 _ hM1 hM2 (by omega)
      (by omega), if_pos rfl, hip]
    unfold toUint
    omega
  · intro r hr1 hr15
    rw [yarn_getRegister_count, yarn_getRegister_incRegister Y 0 r 1 _ hM1 hM2 (by omega) hr15,
      if_neg (by omega)]
  · intro i hi
    simp only []
    exact yarn_incRegister_memory Y 0 1 _ i hM1 hM2 (by omega) (by omega)

/-- One pass on HALT: the status becomes HALT, INSTRUCTION advances by 1 and
nothing else changes. -/
theorem yarn_step_halt (host : yarn_host) (Y : yarn_state) (ip : Nat) (hM1 : 72 ≤ Y.memsize)
    (hM2 : Y.memsize < 4294967296) (hip : (yarn_getRegister Y 0 0).2 = ip)
    (hfit : ip < Y.codesize) (hcs : Y.codesize < 4294967296) (hop : (Y.code ip).val = 0x00) :
    ∃ Y1, yarn_step host Y = some (Y1, true)
      ∧ yarn_rest Y1 = yarn_rest { Y with instructioncount := Y.instructioncount + 1 }
      ∧ yarn_getStatus Y1 = 2
      ∧ (yarn_getRegister Y1 0 0).2 = ip + 1
      ∧ (∀ r, 1 ≤ r → r ≤ 15 → (yarn_getRegister Y1 r 0).2 = (yarn_getRegister Y r 0).2)
      ∧ (∀ i, i < Y.memsize - 8 ∨ Y.memsize - 4 < i → Y1.memory i = Y.memory i) := by
  have hne : (Y.code ip).val ≠ 0x44 := by rw [hop]; decide
  have hdis := yarn_dispatch_control host Y ip 0x00 hop (by decide)
  rw [yarn_exec_halt] at hdis
  have hS1 : 72 ≤ (yarn_setStatus Y 2).memsize := by simpa using hM1
  have hS2 : (yarn_setStatus Y 2).memsize < 4294967296 := by simpa using hM2
  refine ⟨_, yarn_step_through host Y _ ip hM1 hM2 hip hfit hne hdis,
    yarn_rest_counted _ _ _ (yarn_dispatch_keeps _ _ _ _ hne hdis), ?_, ?_,
    ?_, ?_⟩
  · rw [yarn_getStatus_count, yarn_getStatus_incRegister _ 0 1 _ hS1 hS2 (by omega),
      yarn_getStatus_setStatus Y 2 (by omega) hM2]
  · rw [yarn_getRegister_count, yarn_getRegister_incRegister _ 0 0 1 _ hS1 hS2 (by omega)
      (by omega), if_pos rfl, yarn_getRegister_setStatus Y 2 0 hM1 hM2 (by omega), hip]
    unfold toUint
    omega
  · intro r hr1 hr15
    rw [yarn_getRegister_count, yarn_getRegister_incRegister _ 0 r 1 _ hS1 hS2 (by omega) hr15,
      if_neg (by omega), yarn_getRegister_setStatus Y 2 r hM1 hM2 hr15]
  · intro i hi
    simp only []
    rw [yarn_incRegister_memory _ 0 1 _ i hS1 hS2 (by omega)
      (by simp only [yarn_setStatus_memsize]; omega),
      yarn_setStatus_memory Y 2 i hM1 hM2 (by omega)]

/-- One pass on `IR %null,rB,#d` with `rB` other than INSTRUCTION: `rB`
receives `d`, INSTRUCTION advances by 6 and nothing else changes. -/
theorem yarn_step_ir (host : yarn_host) (Y : yarn_state) (ip rB d : Nat)
    (hM1 : 72 ≤ Y.memsize) (hM2 : Y.memsize < 4294967296)
    (hip : (yarn_getRegister Y 0 0).2 = ip) (hfit : ip + 6 ≤ Y.codesize)
    (hcs : Y.codesize < 4294967296) (hop : (Y.code ip).val = 0x20)
    (hregs : (Y.code (ip + 1)).val = 16 * 15 + rB) (hrB0 : 1 ≤ rB) (hrB : rB ≤ 15)
    (hd : readWord Y.code (ip + 2) = d) :
    ∃ Y1, yarn_step host Y = some (Y1, true)
      ∧ yarn_rest Y1 = yarn_rest { Y with instructioncount := Y.instructioncount + 1 }
      ∧ yarn_getStatus Y1 = yarn_getStatus Y
      ∧ (yarn_getRegister Y1 0 0).2 = ip + 6
      ∧ (yarn_getRegister Y1 rB 0).2 = d
      ∧ (∀ r, 1 ≤ r → r ≤ 15 → r ≠ rB →
          (yarn_getRegister Y1 r 0).2 = (yarn_getRegister Y r 0).2)
      ∧ (∀ i, i < Y.memsize - 68 ∨ Y.memsize - 4 ≤ i → Y1.memory i = Y.memory i) := by
  have hne : (Y.code ip).val ≠ 0x44 := by rw [hop]; decide
  have hdis := yarn_dispatch_move host Y ip 0x20 15 rB hM1 hM2 hfit hcs hop (by decide) hregs
    (by decide) hrB
  rw [yarn_exec_ir] at hdis
  simp only [if_true, Nat.zero_add, hd] at hdis
  have hdlt : d < 4294967296 := by rw [← hd]; exact readWord_lt _ _
  rw [Nat.mod_eq_of_lt hdlt] at hdis
  unfold yarn_storeResult at hdis
  simp only [YARN_REG_INSTRUCTION] at hdis
  have hS1 : 72 ≤ (yarn_setRegister Y rB d).memsize := by simpa using hM1
  have hS2 : (yarn_setRegister Y rB d).memsize < 4294967296 := by simpa using hM2
  refine ⟨_, yarn_step_through host Y _ ip hM1 hM2 hip (by omega) hne hdis,
    yarn_rest_counted _ _ _ (yarn_dispatch_keeps _ _ _ _ hne hdis), ?_, ?_, ?_, ?_, ?_⟩
  · rw [yarn_getStatus_count, yarn_getStatus_incRegister _ 0 6 _ hS1 hS2 (by omega),
      yarn_getStatus_setRegister Y rB d hM1 hM2 hrB]
  · rw [yarn_getRegister_count, yarn_getRegister_incRegister _ 0 0 6 _ hS1 hS2 (by omega)
      (by omega), if_pos rfl, yarn_getRegister_setRegister Y rB 0 d hM1 hM2 hrB (by omega),
      if_neg (by omega), hip]
    unfold toUint
    omega
  · rw [yarn_getRegister_count, yarn_getRegister_incRegister _ 0 rB 6 _ hS1 hS2 (by omega) hrB,
      if_neg (by omega), yarn_getRegister_setRegister Y rB rB d hM1 hM2 hrB hrB, if_pos rfl,
      Nat.mod_eq_of_lt hdlt]
  · intro r hr1 hr15 hne
    rw [yarn_getRegister_count, yarn_getRegister_incRegister _ 0 r 6 _ hS1 hS2 (by omega) hr15,
      if_neg (by omega), yarn_getRegister_setRegister Y rB r d hM1 hM2 hrB hr15, if_neg hne]
  · intro i hi
    simp only []
    rw [yarn_incRegister_memory _ 0 6 _ i hS1 hS2 (by omega)
      (by simp only [yarn_setRegister_memsize]; omega),
      yarn_setRegister_memory Y rB d i hM1 hM2 hrB (by omega)]

/-- One pass on DIV or DIVS with a zero divisor: the status becomes DIVBYZERO,
INSTRUCTION advances by 6 and nothing else changes. -/
theorem yarn_step_div_zero (host : yarn_host) (Y : yarn_state) (ip op rA rB : Nat)
    (hM1 : 72 ≤ Y.memsize) (hM2 : Y.memsize < 4294967296)
    (hip : (yarn_getRegister Y 0 0).2 = ip) (hfit : ip + 6 ≤ Y.codesize)
    (hcs : Y.codesize < 4294967296) (hop : (Y.code ip).val = op)
    (hops : op = 0x13 ∨ op = 0x14) (hregs : (Y.code (ip + 1)).val = 16 * rA + rB)
    (hrA : rA ≤ 15) (hrB : rB ≤ 15)
    (hA : (if rA = 15 then readWord Y.code (ip + 2) else (yarn_getRegister Y rA 0).2) = 0) :
    ∃ Y1, yarn_step host Y = some (Y1, true)
      ∧ yarn_rest Y1 = yarn_rest { Y with instructioncount := Y.instructioncount + 1 }
      ∧ yarn_getStatus Y1 = 5
      ∧ (yarn_getRegister Y1 0 0).2 = ip + 6
      ∧ (∀ r, 1 ≤ r → r ≤ 15 → (yarn_getRegister Y1 r 0).2 = (yarn_getRegister Y r 0).2)
      ∧ (∀ i, i < Y.memsize - 8 ∨ Y.memsize - 4 < i → Y1.memory i = Y.memory i) := by
  have hne : (Y.code ip).val ≠ 0x44 := by
    rw [hop]
    rcases hops with h | h <;> rw [h] <;> decide
  have hdis := yarn_dispatch_arith host Y ip op rA rB hM1 hM2 hfit hcs hop (by omega) hregs
    hrA hrB
  have hA2 : (if rA = 15 then readWord Y.code (ip + 2)
      else readWord Y.memory (Y.memsize - (rA + 2) * 4)) = 0 := by
    rw [← hA]
    by_cases h15 : rA = 15
    · simp only [h15, if_true]
    · simp only [h15, if_false]
      rw [yarn_getRegister_val Y rA 0 hM1 hM2 hrA]
  rw [hA2] at hdis
  have hexec : yarn_exec host Y ip (host.uninit Y.instructioncount)
      ⟨rA, rB, readWord Y.code (ip + 2), 0, readWord Y.memory (Y.memsize - (rB + 2) * 4)⟩ op
      = some (yarn_incRegister (yarn_setStatus Y 5) 0 6 (host.uninit Y.instructioncount)) := by
    rcases hops with h | h
    · subst h
      rw [yarn_exec_div, if_pos rfl]
    · subst h
      have hz : toInt 0 = 0 := by decide
      rw [yarn_exec_divs]
      simp only [hz, if_true]
  rw [hexec] at hdis
  obtain ⟨h1, h2, h3, h4⟩ := yarn_divzero_spec Y (host.uninit Y.instructioncount)
    (Y.instructioncount + 1) hM1 hM2
  have hip8 : readWord Y.memory (Y.memsize - 8) = ip := by
    rw [← hip, yarn_getRegister_val Y 0 0 hM1 hM2 (by omega)]
  have hlt := readWord_lt Y.memory (Y.memsize - 8)
  refine ⟨_, yarn_step_through host Y _ ip hM1 hM2 hip (by omega) hne hdis,
    yarn_rest_counted _ _ _ (yarn_dispatch_keeps _ _ _ _ hne hdis), h1, ?_, h2, h3⟩
  rw [h4, hip8]
  omega

/-! ### The machine `yarn_init` makes, with a program loaded -/

theorem yarn_getRegister_loadCode (Y : yarn_state) (code : List byte) (q u : Nat) :
    (yarn_getRegister (yarn_loadCode Y code) q u).2 = (yarn_getRegister Y q u).2 := by
  unfold yarn_getRegister yarn_getMemory yarn_loadCode
  simp only []
  split_ifs <;> rfl

theorem yarn_getStatus_loadCode (Y : yarn_state) (code : List byte) :
    yarn_getStatus (yarn_loadCode Y code) = yarn_getStatus Y := rfl

/-- The registers and the status of the machine `yarn_init` returns. -/
theorem yarn_init_registers (M : Nat) (raw Y : yarn_state) (hM1 : 72 ≤ M)
    (hM2 : M < 4294967296) (h : yarn_init M raw = some Y) :
    Y.memsize = M ∧ Y.instructioncount = raw.instructioncount
      ∧ yarn_getStatus Y = 0
      ∧ (yarn_getRegister Y 0 0).2 = 0
      ∧ (yarn_getRegister Y 1 0).2 = M - 72
      ∧ (yarn_getRegister Y 2 0).2 = M - 72
      ∧ (∀ r, 3 ≤ r → r ≤ 15 → (yarn_getRegister Y r 0).2 = 0) := by
  obtain ⟨hsize, hstack, hbase, hzero⟩ := yarn_init_memory M raw Y hM1 hM2 h
  obtain ⟨-, -, hcount, -, -⟩ := yarn_init_frame M raw Y h
  have hY1 : 72 ≤ Y.memsize := by omega
  have hY2 : Y.memsize < 4294967296 := by omega
  refine ⟨hsize, hcount, ?_, ?_, ?_, ?_, ?_⟩
  · rw [yarn_getStatus_eq Y (by omega) hY2, hsize, hzero _ (by omega)]
    rfl
  · rw [yarn_getRegister_val Y 0 0 hY1 hY2 (by omega), hsize]
    exact readWord_zero _ _ (fun i h1 h2 => hzero i (by omega))
  · rw [yarn_getRegister_val Y 1 0 hY1 hY2 (by omega), hsize]
    exact hstack
  · rw [yarn_getRegister_val Y 2 0 hY1 hY2 (by omega), hsize]
    exact hbase
  · intro r hr3 hr15
    rw [yarn_getRegister_val Y r 0 hY1 hY2 hr15, hsize]
    exact readWord_zero _ _ (fun i h1 h2 => hzero i (by omega))

theorem yarn_rest_fields (Y Y1 : yarn_state) (c : Nat)
    (h : yarn_rest Y1 = yarn_rest { Y with instructioncount := c }) :
    Y1.code = Y.code ∧ Y1.codesize = Y.codesize ∧ Y1.memsize = Y.memsize
      ∧ Y1.instructioncount = c ∧ Y1.syscalls = Y.syscalls := by
  unfold yarn_rest at h
  simp only [Prod.mk.injEq] at h
  exact h

/-- The word a program holds where the four bytes of `v` were placed. -/
theorem readWord_program (pre post : List byte) (v : Nat) (hv : v < 4294967296) :
    readWord (fun i => (pre ++ (wordBytes v ++ post)).getD i 0) pre.length = v := by
  have hb : ∀ k, k < 4 →
      (pre ++ (wordBytes v ++ post)).getD (pre.length + k) 0 = (wordBytes v).getD k 0 := by
    intro k hk
    rw [List.getD_append_right _ _ _ _ (by omega), Nat.add_sub_cancel_left,
      List.getD_append _ _ _ _ (by rw [wordBytes_length]; exact hk)]
  unfold readWord
  simp only []
  have h0 := hb 0 (by omega)
  rw [Nat.add_zero] at h0
  rw [h0, hb 1 (by omega), hb 2 (by omega), hb 3 (by omega)]
  simp only [wordBytes, toByte, List.getD_cons_zero, List.getD_cons_succ]
  omega

/-! ### The stack -/

/-- The state `yarn_push` leaves when the word lands in bounds below the
register file: STACK is four lower, the word is stored there, nothing else
changes. -/
theorem yarn_push_spec (Y : yarn_state) (v u stk : Nat) (hM1 : 72 ≤ Y.memsize)
    (hM2 : Y.memsize < 4294967296) (hstk : (yarn_getRegister Y 1 0).2 = stk) (h4 : 4 ≤ stk)
    (hle : stk ≤ Y.memsize - 68) :
    yarn_getStatus (yarn_push Y v u) = yarn_getStatus Y
      ∧ (yarn_getRegister (yarn_push Y v u) 1 0).2 = stk - 4
      ∧ (∀ r, r ≤ 15 → r ≠ 1 →
          (yarn_getRegister (yarn_push Y v u) r 0).2 = (yarn_getRegister Y r 0).2)
      ∧ readWord (yarn_push Y v u).memory (stk - 4) = v % 4294967296
      ∧ (∀ i, i < stk - 4 ∨ stk ≤ i → i < Y.memsize - 12 ∨ Y.memsize - 8 ≤ i →
          (yarn_push Y v u).memory i = Y.memory i) := by
  have hI1 : 72 ≤ (yarn_incRegister Y 1 (-4) u).memsize := by simpa using hM1
  have hI2 : (yarn_incRegister Y 1 (-4) u).memsize < 4294967296 := by simpa using hM2
  have hnew : (yarn_getRegister (yarn_incRegister Y 1 (-4) u) 1 0).2 = stk - 4 := by
    rw [yarn_getRegister_incRegister Y 1 1 (-4) u hM1 hM2 (by omega) (by omega), if_pos rfl, hstk]
    unfold toUint
    omega
  have hpush : yarn_push Y v u
      = yarn_setMemory (yarn_incRegister Y 1 (-4) u) (stk - 4) (wordBytes v) := by
    unfold yarn_push
    simp only [YARN_REG_STACK]
    rw [yarn_getRegister_eq _ 1 u (by simp; omega) (by simpa using hM2)]
    simp only []
    rw [← yarn_getRegister_val _ 1 0 hI1 hI2 (by omega), hnew]
  rw [hpush]
  have hlen : (wordBytes v).length = 4 := wordBytes_length v
  have hIm : (yarn_incRegister Y 1 (-4) u).memsize = Y.memsize := by simp
  refine ⟨?_, ?_, ?_, ?_, ?_⟩
  · rw [yarn_getStatus_setMemory _ _ _ hI1 hI2 (by rw [hlen, hIm]; omega),
      yarn_getStatus_incRegister Y 1 (-4) u hM1 hM2 (by omega)]
  · rw [yarn_getRegister_setMemory _ _ _ 1 hI1 hI2 (by omega) (by rw [hlen, hIm]; omega), hnew]
  · intro r hr hne
    rw [yarn_getRegister_setMemory _ _ _ r hI1 hI2 hr (by rw [hlen, hIm]; omega),
      yarn_getRegister_incRegister Y 1 r (-4) u hM1 hM2 (by omega) hr, if_neg hne]
  · exact yarn_setMemory_readWord _ _ _ (by rw [hIm]; omega)
  · intro i hi1 hi2
    rw [yarn_setMemory_memory _ _ _ i (by rw [hlen, hIm]; omega) (by rw [hlen]; omega),
      yarn_incRegister_memory Y 1 (-4) u i hM1 hM2 (by omega) (by omega)]

/-- The word `yarn_pop` returns and the state it leaves when the word read
lies in bounds: STACK is four higher, nothing else changes. -/
theorem yarn_pop_spec (Y : yarn_state) (u stk : Nat) (hM1 : 72 ≤ Y.memsize)
    (hM2 : Y.memsize < 4294967296) (hstk : (yarn_getRegister Y 1 0).2 = stk)
    (hle : stk + 4 ≤ Y.memsize) :
    (yarn_pop Y u).2 = readWord Y.memory stk
      ∧ (yarn_pop Y u).1.memsize = Y.memsize
      ∧ yarn_getStatus (yarn_pop Y u).1 = yarn_getStatus Y
      ∧ (yarn_getRegister (yarn_pop Y u).1 1 0).2 = stk + 4
      ∧ (∀ r, r ≤ 15 → r ≠ 1 →
          (yarn_getRegister (yarn_pop Y u).1 r 0).2 = (yarn_getRegister Y r 0).2)
      ∧ (∀ i, i < Y.memsize - 12 ∨ Y.memsize - 8 ≤ i →
          (yarn_pop Y u).1.memory i = Y.memory i) := by
  have hpop : yarn_pop Y u = (yarn_incRegister Y 1 4 u, readWord Y.memory stk) := by
    rw [yarn_pop_eq Y u hM1 hM2, ← yarn_getRegister_val Y 1 0 hM1 hM2 (by omega), hstk,
      yarn_getMemory_inb Y stk _ (by rw [wordBytes_length]; exact hle), wordBytes_length,
      bytesWord_memcpy_from]
  rw [hpop]
  refine ⟨rfl, by simp, ?_, ?_, ?_, ?_⟩
  · exact yarn_getStatus_incRegister Y 1 4 u hM1 hM2 (by omega)
  · rw [yarn_getRegister_incRegister Y 1 1 4 u hM1 hM2 (by omega) (by omega), if_pos rfl, hstk]
    unfold toUint
    omega
  · intro r hr hne
    rw [yarn_getRegister_incRegister Y 1 r 4 u hM1 hM2 (by omega) hr, if_neg hne]
  · intro i hi
    exact yarn_incRegister_memory Y 1 4 u i hM1 hM2 (by omega) (by omega)

/-- The loop of `d` pops of the RET case, when every word read lies in bounds:
STACK is `4 * d` higher, nothing else changes. -/
theorem yarn_popMany_spec (u : Nat) (d : Nat) :
    ∀ (Y : yarn_state) (stk : Nat), 72 ≤ Y.memsize → Y.memsize < 4294967296 →
      (yarn_getRegister Y 1 0).2 = stk → stk + 4 * d ≤ Y.memsize →
      (yarn_popMany u d Y).memsize = Y.memsize
        ∧ yarn_getStatus (yarn_popMany u d Y) = yarn_getStatus Y
        ∧ (yarn_getRegister (yarn_popMany u d Y) 1 0).2 = stk + 4 * d
        ∧ (∀ r, r ≤ 15 → r ≠ 1 →
            (yarn_getRegister (yarn_popMany u d Y) r 0).2 = (yarn_getRegister Y r 0).2)
        ∧ (∀ i, i < Y.memsize - 12 ∨ Y.memsize - 8 ≤ i →
            (yarn_popMany u d Y).memory i = Y.memory i) := by
  induction d with
  | zero =>
    intro Y stk _ _ hstk _
    exact ⟨rfl, rfl, by rw [Nat.mul_zero, Nat.add_zero]; exact hstk, fun _ _ _ => rfl,
      fun _ _ => rfl⟩
  | succ d ih =>
    intro Y stk hM1 hM2 hstk hle
    obtain ⟨-, p2, p3, p4, p5, p6⟩ := yarn_pop_spec Y u stk hM1 hM2 hstk (by omega)
    obtain ⟨q1, q2, q3, q4, q5⟩ := ih (yarn_pop Y u).1 (stk + 4) (by rw [p2]; exact hM1)
      (by rw [p2]; exact hM2) p4 (by rw [p2]; omega)
    have e : yarn_popMany u (d + 1) Y = yarn_popMany u d (yarn_pop Y u).1 := rfl
    rw [e]
    refine ⟨by rw [q1, p2], by rw [q2, p3], by rw [q3]; omega, ?_, ?_⟩
    · intro r hr hne
      rw [q4 r hr hne, p5 r hr hne]
    · intro i hi
      rw [q5 i (by rw [p2]; exact hi), p6 i hi]

/-! ### One pass on PUSH, CALL and RET -/

theorem yarn_exec_push (host : yarn_host) (Y : yarn_state) (ip u : Nat) (o : yarn_operands) :
    yarn_exec host Y ip u o 0x30
      = some (yarn_incRegister
          (yarn_push (yarn_getRegister Y o.rA o.valA).1 (yarn_getRegister Y o.rA o.valA).2 u)
          0 2 u) := rfl

theorem yarn_exec_call (host : yarn_host) (Y : yarn_state) (ip u : Nat) (o : yarn_operands) :
    yarn_exec host Y ip u o 0x40
      = some (yarn_setRegister (yarn_push Y ((ip + 5) % 4294967296) u) 0 o.d) := rfl

theorem yarn_exec_ret (host : yarn_host) (Y : yarn_state) (ip u : Nat) (o : yarn_operands) :
    yarn_exec host Y ip u o 0x41
      = some (yarn_setRegister (yarn_pop (yarn_popMany u o.d Y) u).1 0
          (yarn_pop (yarn_popMany u o.d Y) u).2) := rfl

/-- One pass on `PUSH rA` when the word lands in bounds below the register
file: STACK is four lower, the content of `rA` is stored there, INSTRUCTION
advances by 2 and nothing else changes. -/
theorem yarn_step_push (host : yarn_host) (Y : yarn_state) (ip rA low stk : Nat)
    (hM1 : 72 ≤ Y.memsize) (hM2 : Y.memsize < 4294967296)
    (hip : (yarn_getRegister Y 0 0).2 = ip) (hfit : ip + 2 ≤ Y.codesize)
    (hcs : Y.codesize < 4294967296) (hop : (Y.code ip).val = 0x30)
    (hregs : (Y.code (ip + 1)).val = 16 * rA + low) (hrA : rA ≤ 15) (hlow : low ≤ 15)
    (hstk : (yarn_getRegister Y 1 0).2 = stk) (h4 : 4 ≤ stk) (hle : stk ≤ Y.memsize - 68) :
    ∃ Y1, yarn_step host Y = some (Y1, true)
      ∧ yarn_rest Y1 = yarn_rest { Y with instructioncount := Y.instructioncount + 1 }
      ∧ yarn_getStatus Y1 = yarn_getStatus Y
      ∧ (yarn_getRegister Y1 0 0).2 = ip + 2
      ∧ (yarn_getRegister Y1 1 0).2 = stk - 4
      ∧ (∀ r, 2 ≤ r → r ≤ 15 → (yarn_getRegister Y1 r 0).2 = (yarn_getRegister Y r 0).2)
      ∧ readWord Y1.memory (stk - 4) = (yarn_getRegister Y rA 0).2
      ∧ (∀ i, i < stk - 4 ∨ stk ≤ i → i < Y.memsize - 12 ∨ Y.memsize - 4 ≤ i →
          Y1.memory i = Y.memory i) := by
  have hne : (Y.code ip).val ≠ 0x44 := by rw [hop]; decide
  have hdis := yarn_dispatch_stack host Y ip 0x30 rA low hfit hcs hop (by decide) hregs hlow
  rw [yarn_exec_push] at hdis
  simp only [] at hdis
  rw [yarn_getRegister_eq Y rA _ (by omega) hM2,
    ← yarn_getRegister_val Y rA 0 hM1 hM2 hrA] at hdis
  simp only [] at hdis
  obtain ⟨p1, p2, p3, p4, p5⟩ := yarn_push_spec Y (yarn_getRegister Y rA 0).2
    (host.uninit Y.instructioncount) stk hM1 hM2 hstk h4 hle
  have hP1 : 72 ≤ (yarn_push Y (yarn_getRegister Y rA 0).2
      (host.uninit Y.instructioncount)).memsize := by simpa using hM1
  have hP2 : (yarn_push Y (yarn_getRegister Y rA 0).2
      (host.uninit Y.instructioncount)).memsize < 4294967296 := by simpa using hM2
  have hvlt : (yarn_getRegister Y rA 0).2 < 4294967296 := by
    rw [yarn_getRegister_val Y rA 0 hM1 hM2 hrA]; exact readWord_lt _ _
  refine ⟨_, yarn_step_through host Y _ ip hM1 hM2 hip (by omega) hne hdis,
    yarn_rest_counted _ _ _ (yarn_dispatch_keeps _ _ _ _ hne hdis), ?_, ?_, ?_, ?_, ?_, ?_⟩
  · rw [yarn_getStatus_count, yarn_getStatus_incRegister _ 0 2 _ hP1 hP2 (by omega), p1]
  · rw [yarn_getRegister_count, yarn_getRegister_incRegister _ 0 0 2 _ hP1 hP2 (by omega)
      (by omega), if_pos rfl, p3 0 (by omega) (by omega), hip]
    unfold toUint
    omega
  · rw [yarn_getRegister_count, yarn_getRegister_incRegister _ 0 1 2 _ hP1 hP2 (by omega)
      (by omega), if_neg (by omega), p2]
  · intro r hr2 hr15
    rw [yarn_getRegister_count, yarn_getRegister_incRegister _ 0 r 2 _ hP1 hP2 (by omega) hr15,
      if_neg (by omega), p3 r hr15 (by omega)]
  · simp only []
    rw [readWord_congr _ _ _ (fun i h1 h2 => yarn_incRegister_memory _ 0 2 _ i hP1 hP2
      (by omega) (by simp only [yarn_push_memsize]; omega)), p4, Nat.mod_eq_of_lt hvlt]
  · intro i hi1 hi2
    simp only []
    rw [yarn_incRegister_memory _ 0 2 _ i hP1 hP2 (by omega)
      (by simp only [yarn_push_memsize]; omega), p5 i hi1 (by omega)]

/-- One pass on `CALL #d` when the word lands in bounds below the register
file: STACK is four lower, the offset of the next instruction is stored there,
INSTRUCTION becomes `d` and nothing else changes. -/
theorem yarn_step_call (host : yarn_host) (Y : yarn_state) (ip d stk : Nat)
    (hM1 : 72 ≤ Y.memsize) (hM2 : Y.memsize < 4294967296)
    (hip : (yarn_getRegister Y 0 0).2 = ip) (hfit : ip + 5 ≤ Y.codesize)
    (hcs : Y.codesize < 4294967296) (hop : (Y.code ip).val = 0x40)
    (hd : readWord Y.code (ip + 1) = d)
    (hstk : (yarn_getRegister Y 1 0).2 = stk) (h4 : 4 ≤ stk) (hle : stk ≤ Y.memsize - 68) :
    ∃ Y1, yarn_step host Y = some (Y1, true)
      ∧ yarn_rest Y1 = yarn_rest { Y with instructioncount := Y.instructioncount + 1 }
      ∧ yarn_getStatus Y1 = yarn_getStatus Y
      ∧ (yarn_getRegister Y1 0 0).2 = d
      ∧ (yarn_getRegister Y1 1 0).2 = stk - 4
      ∧ (∀ r, 2 ≤ r → r ≤ 15 → (yarn_getRegister Y1 r 0).2 = (yarn_getRegister Y r 0).2)
      ∧ readWord Y1.memory (stk - 4) = ip + 5
      ∧ (∀ i, i < stk - 4 ∨ stk ≤ i → i < Y.memsize - 12 ∨ Y.memsize - 4 ≤ i →
          Y1.memory i = Y.memory i) := by
  have hne : (Y.code ip).val ≠ 0x44 := by rw [hop]; decide
  have hdis := yarn_dispatch_branch host Y ip 0x40 hfit hcs hop (by decide)
  rw [yarn_exec_call] at hdis
  simp only [hd] at hdis
  rw [Nat.mod_eq_of_lt (by omega)] at hdis
  obtain ⟨p1, p2, p3, p4, p5⟩ := yarn_push_spec Y (ip + 5)
    (host.uninit Y.instructioncount) stk hM1 hM2 hstk h4 hle
  have hP1 : 72 ≤ (yarn_push Y (ip + 5) (host.uninit Y.instructioncount)).memsize := by
    simpa using hM1
  have hP2 : (yarn_push Y (ip + 5) (host.uninit Y.instructioncount)).memsize < 4294967296 := by
    simpa using hM2
  have hdlt : d < 4294967296 := by rw [← hd]; exact readWord_lt _ _
  refine ⟨_, yarn_step_through host Y _ ip hM1 hM2 hip (by omega) hne hdis,
    yarn_rest_counted _ _ _ (yarn_dispatch_keeps _ _ _ _ hne hdis), ?_, ?_, ?_, ?_, ?_, ?_⟩
  · rw [yarn_getStatus_count, yarn_getStatus_setRegister _ 0 d hP1 hP2 (by omega), p1]
  · rw [yarn_getRegister_count, yarn_getRegister_setRegister _ 0 0 d hP1 hP2 (by omega)
      (by omega), if_pos rfl, Nat.mod_eq_of_lt hdlt]
  · rw [yarn_getRegister_count, yarn_getRegister_setRegister _ 0 1 d hP1 hP2 (by omega)
      (by omega), if_neg (by omega), p2]
  · intro r hr2 hr15
    rw [yarn_getRegister_count, yarn_getRegister_setRegister _ 0 r d hP1 hP2 (by omega) hr15,
      if_neg (by omega), p3 r hr15 (by omega)]
  · simp only []
    rw [readWord_congr _ _ _ (fun i h1 h2 => yarn_setRegister_memory _ 0 d i hP1 hP2
      (by omega) (by simp only [yarn_push_memsize]; omega)), p4, Nat.mod_eq_of_lt (by omega)]
  · intro i hi1 hi2
    simp only []
    rw [yarn_setRegister_memory _ 0 d i hP1 hP2 (by omega)
      (by simp only [yarn_push_memsize]; omega), p5 i hi1 (by omega)]

/-- One pass on `RET #d` when the `d + 1` words popped lie in bounds below the
register file: the `d` words on top of the stack are dropped, the next one
becomes INSTRUCTION, STACK is `4 * (d + 1)` higher and nothing else
changes. -/
theorem yarn_step_ret (host : yarn_host) (Y : yarn_state) (ip d stk : Nat)
    (hM1 : 72 ≤ Y.memsize) (hM2 : Y.memsize < 4294967296)
    (hip : (yarn_getRegister Y 0 0).2 = ip) (hfit : ip + 5 ≤ Y.codesize)
    (hcs : Y.codesize < 4294967296) (hop : (Y.code ip).val = 0x41)
    (hd : readWord Y.code (ip + 1) = d)
    (hstk : (yarn_getRegister Y 1 0).2 = stk) (hle : stk + 4 * (d + 1) ≤ Y.memsize - 68) :
    ∃ Y1, yarn_step host Y = some (Y1, true)
      ∧ yarn_rest Y1 = yarn_rest { Y with instructioncount := Y.instructioncount + 1 }
      ∧ yarn_getStatus Y1 = yarn_getStatus Y
      ∧ (yarn_getRegister Y1 0 0).2 = readWord Y.memory (stk + 4 * d)
      ∧ (yarn_getRegister Y1 1 0).2 = stk + 4 * (d + 1)
      ∧ (∀ r, 2 ≤ r → r ≤ 15 → (yarn_getRegister Y1 r 0).2 = (yarn_getRegister Y r 0).2)
      ∧ (∀ i, i < Y.memsize - 12 ∨ Y.memsize - 4 ≤ i → Y1.memory i = Y.memory i) := by
  have hne : (Y.code ip).val ≠ 0x44 := by rw [hop]; decide
  have hdis := yarn_dispatch_branch host Y ip 0x41 hfit hcs hop (by decide)
  rw [yarn_exec_ret] at hdis
  simp only [hd] at hdis
  generalize hu : host.uninit Y.instructioncount = u at hdis
  obtain ⟨q1, q2, q3, q4, q5⟩ := yarn_popMany_spec u d Y stk hM1 hM2 hstk (by omega)
  obtain ⟨p1, p2, p3, p4, p5, p6⟩ := yarn_pop_spec (yarn_popMany u d Y) u (stk + 4 * d)
    (by rw [q1]; exact hM1) (by rw [q1]; exact hM2) q3 (by rw [q1]; omega)
  have hP1 : 72 ≤ (yarn_pop (yarn_popMany u d Y) u).1.memsize := by rw [p2, q1]; exact hM1
  have hP2 : (yarn_pop (yarn_popMany u d Y) u).1.memsize < 4294967296 := by
    rw [p2, q1]; exact hM2
  have hPm : (yarn_pop (yarn_popMany u d Y) u).1.memsize = Y.memsize := by rw [p2, q1]
  have hword : (yarn_pop (yarn_popMany u d Y) u).2 = readWord Y.memory (stk + 4 * d) := by
    rw [p1]
    exact readWord_congr _ _ _ (fun i h1 h2 => q5 i (by omega))
  have hwlt : readWord Y.memory (stk + 4 * d) < 4294967296 := readWord_lt _ _
  rw [hword] at hdis
  refine ⟨_, yarn_step_through host Y _ ip hM1 hM2 hip (by omega) hne hdis,
    yarn_rest_counted _ _ _ (yarn_dispatch_keeps _ _ _ _ hne hdis), ?_, ?_, ?_, ?_, ?_⟩
  · rw [yarn_getStatus_count, yarn_getStatus_setRegister _ 0 _ hP1 hP2 (by omega), p3, q2]
  · rw [yarn_getRegister_count, yarn_getRegister_setRegister _ 0 0 _ hP1 hP2 (by omega)
      (by omega), if_pos rfl, Nat.mod_eq_of_lt hwlt]
  · rw [yarn_getRegister_count, yarn_getRegister_setRegister _ 0 1 _ hP1 hP2 (by omega)
      (by omega), if_neg (by omega), p4]
    omega
  · intro r hr2 hr15
    rw [yarn_getRegister_count, yarn_getRegister_setRegister _ 0 r _ hP1 hP2 (by omega) hr15,
      if_neg (by omega), p5 r hr15 (by omega), q4 r hr15 (by omega)]
  · intro i hi
    simp only []
    rw [yarn_setRegister_memory _ 0 _ i hP1 hP2 (by omega) (by rw [hPm]; omega),
      p6 i (by rw [q1]; omega), q5 i (by omega)]

/-! ### The syscall table as a finite map -/

/-- In a chained table the look-up of a key that an entry holds returns the
callback of that entry. -/
theorem yarn_getSysCall_hit (Y : yarn_state) (hY : yarn_tableChained Y) (s : Nat)
    (hs : s < 256) (hocc : (Y.syscalls s).val ≠ none) :
    yarn_getSysCall Y (Y.syscalls s).key = some (Y.syscalls s).val := by
  obtain ⟨j, hj, hidx, hbefore⟩ := hY s hs hocc
  have := yarn_getSysCall_probe_at Y (Y.syscalls s).key j 256 (hash_uint (Y.syscalls s).key) hj
    hbefore (Or.inr (by rw [hidx]))
  rw [hidx] at this
  exact this

/-- The look-up of a key that no entry holds returns the null pointer, when
the table has an empty slot. -/
theorem yarn_getSysCall_miss (Y : yarn_state) (key : Nat) (hslot : yarn_hasEmptySlot Y)
    (hno : ∀ s, s < 256 → (Y.syscalls s).val ≠ none → (Y.syscalls s).key ≠ key) :
    yarn_getSysCall Y key = some none := by
  obtain ⟨idx, hidx, hempty⟩ := hslot
  obtain ⟨j, hj, hbefore, hstop⟩ := yarn_probe_first Y key (hash_uint key)
    ⟨idx, hidx, Or.inl hempty⟩
  have hnone : (Y.syscalls ((hash_uint key + j) % 256)).val = none := by
    rcases hstop with h | h
    · exact h
    · by_contra hocc
      exact hno _ (by omega) hocc h
  have := yarn_getSysCall_probe_at Y key j 256 (hash_uint key) hj hbefore (Or.inl hnone)
  rw [hnone] at this
  exact this

/-- In a chained table no two entries hold the same key. -/
theorem yarn_tableChained_unique (Y : yarn_state) (hY : yarn_tableChained Y) (s1 s2 : Nat)
    (h1 : s1 < 256) (h2 : s2 < 256) (o1 : (Y.syscalls s1).val ≠ none)
    (o2 : (Y.syscalls s2).val ≠ none) (hk : (Y.syscalls s1).key = (Y.syscalls s2).key) :
    s1 = s2 := by
  obtain ⟨j1, hj1, e1, b1⟩ := hY s1 h1 o1
  obtain ⟨j2, hj2, e2, b2⟩ := hY s2 h2 o2
  rw [hk] at e1 b1
  rcases Nat.lt_trichotomy j1 j2 with h | h | h
  · have := (b2 j1 h).2
    rw [e1] at this
    exact absurd hk this
  · subst h
    exact e1.symm.trans e2
  · have := (b1 j2 h).2
    rw [e2] at this
    exact absurd rfl this

/-- A chained table whose keys come from fewer than 256 has an empty slot. -/
theorem yarn_tableChained_room (Y : yarn_state) (hY : yarn_tableChained Y) (K : Finset Nat)
    (hK : K.card < 256)
    (hin : ∀ s, s < 256 → (Y.syscalls s).val ≠ none → (Y.syscalls s).key ∈ K) :
    yarn_hasEmptySlot Y := by
  by_contra hno
  have hfull : ∀ s, s < 256 → (Y.syscalls s).val ≠ none := by
    intro s hs hnone
    exact hno ⟨s, hs, hnone⟩
  have hle : (Finset.range 256).card ≤ K.card := by
    apply Finset.card_le_card_of_injOn (fun s => (Y.syscalls s).key)
    · intro s hs
      exact hin s (Finset.mem_range.mp hs) (hfull s (Finset.mem_range.mp hs))
    · intro s1 hs1 s2 hs2 hk
      have h1 := Finset.mem_range.mp hs1
      have h2 := Finset.mem_range.mp hs2
      exact yarn_tableChained_unique Y hY s1 s2 h1 h2 (hfull s1 h1) (hfull s2 h2) hk
  rw [Finset.card_range] at hle
  omega

/-- A registration with a callback that is not null, in a chained table that
has a slot for it: it returns, the table stays chained, the entry it wrote is
the only change. -/
theorem yarn_registerSysCall_chained (Y : yarn_state) (hY : yarn_tableChained Y) (k : Nat)
    (f : yarn_CFunc) (hslot : yarn_hasEmptySlot Y) :
    ∃ Y1 s0, yarn_registerSysCall Y k (some f) = some Y1 ∧ s0 < 256
      ∧ Y1.syscalls = (fun i => if i = s0 then ⟨k, some f⟩ else Y.syscalls i)
      ∧ ((Y.syscalls s0).val = none ∨ (Y.syscalls s0).key = k)
      ∧ yarn_tableChained Y1 := by
  obtain ⟨idx, hidx, hempty⟩ := hslot
  obtain ⟨j0, hj0, hbefore, hstop, hreg⟩ := yarn_registerSysCall_spec Y k (some f)
    ⟨idx, hidx, Or.inl hempty⟩
  refine ⟨_, (hash_uint k + j0) % 256, hreg, by omega, rfl, hstop, ?_⟩
  intro s hs hocc
  simp only [] at hocc ⊢
  by_cases hs0 : s = (hash_uint k + j0) % 256
  · -- the entry written
    simp only [hs0, if_true]
    refine ⟨j0, hj0, rfl, ?_⟩
    intro i hi
    have hne : (hash_uint k + i) % 256 ≠ (hash_uint k + j0) % 256 := by omega
    simp only [hne, if_false]
    exact hbefore i hi
  · -- an entry the table held before
    simp only [hs0, if_false] at hocc ⊢
    obtain ⟨j, hj, hchain, hb⟩ := hY s hs hocc
    have hkey : (Y.syscalls s).key ≠ k := by
      intro hk
      rw [hk] at hchain hb
      rcases Nat.lt_trichotomy j0 j with h | h | h
      · have := hb j0 h
        rcases hstop with hn | hn
        · exact this.1 hn
        · exact this.2 hn
      · subst h
        exact hs0 hchain.symm
      · have := (hbefore j h).2
        rw [hchain] at this
        exact this hk
    refine ⟨j, hj, hchain, ?_⟩
    intro i hi
    by_cases hi0 : (hash_uint (Y.syscalls s).key + i) % 256 = (hash_uint k + j0) % 256
    · simp only [hi0, if_true]
      exact ⟨by simp, fun h => hkey h.symm⟩
    · simp only [hi0, if_false]
      exact hb i hi

/-- The look-ups after a registration, in a chained table whose keys come from
fewer than 256: the key registered is bound to the new callback, every other
key as before. -/
theorem yarn_registerSysCall_lookup (Y : yarn_state) (hY : yarn_tableChained Y) (K : Finset Nat)
    (hK : K.card < 256)
    (hin : ∀ s, s < 256 → (Y.syscalls s).val ≠ none → (Y.syscalls s).key ∈ K)
    (k : Nat) (f : yarn_CFunc) (hk : k ∈ K) :
    ∃ Y1, yarn_registerSysCall Y k (some f) = some Y1 ∧ yarn_tableChained Y1
      ∧ (∀ s, s < 256 → (Y1.syscalls s).val ≠ none → (Y1.syscalls s).key ∈ K)
      ∧ yarn_getSysCall Y1 k = some (some f)
      ∧ ∀ key, key ≠ k → yarn_getSysCall Y1 key = yarn_getSysCall Y key := by
  have hroom := yarn_tableChained_room Y hY K hK hin
  obtain ⟨Y1, s0, hreg, hs0, htab, hold, hY1⟩ := yarn_registerSysCall_chained Y hY k f hroom
  have hin1 : ∀ s, s < 256 → (Y1.syscalls s).val ≠ none → (Y1.syscalls s).key ∈ K := by
    intro s hs hocc
    rw [htab] at hocc ⊢
    by_cases h : s = s0
    · simp only [h, if_true]; exact hk
    · simp only [h, if_false] at hocc ⊢; exact hin s hs hocc
  have hroom1 := yarn_tableChained_room Y1 hY1 K hK hin1
  have hat : Y1.syscalls s0 = ⟨k, some f⟩ := by rw [htab]; simp
  refine ⟨Y1, hreg, hY1, hin1, ?_, ?_⟩
  · have := yarn_getSysCall_hit Y1 hY1 s0 hs0 (by rw [hat]; simp)
    rw [hat] at this
    exact this
  · intro key hne
    by_cases hex : ∃ s, s < 256 ∧ (Y.syscalls s).val ≠ none ∧ (Y.syscalls s).key = key
    · obtain ⟨s, hs, hocc, hkey⟩ := hex
      have hss0 : s ≠ s0 := by
        intro h
        subst h
        rcases hold with hn | hn
        · exact hocc hn
        · exact hne (hkey.symm.trans hn)
      have hsame : Y1.syscalls s = Y.syscalls s := by rw [htab]; simp [hss0]
      have h1 := yarn_getSysCall_hit Y1 hY1 s hs (by rw [hsame]; exact hocc)
      have h2 := yarn_getSysCall_hit Y hY s hs hocc
      rw [hsame] at h1
      rw [hkey] at h1 h2
      rw [h1, h2]
    · push_neg at hex
      rw [yarn_getSysCall_miss Y key hroom (fun s hs hocc => hex s hs hocc),
        yarn_getSysCall_miss Y1 key hroom1]
      intro s hs hocc
      rw [htab] at hocc ⊢
      by_cases h : s = s0
      · simp only [h, if_true]; exact fun e => hne e.symm
      · simp only [h, if_false] at hocc ⊢; exact hex s hs hocc

/-- The registrations `regs` made in order on a chained table whose keys, with
those of `regs`, come from fewer than 256: all return, and a look-up then
returns the callback of the last registration of the key, or what it returned
before for a key `regs` does not register. -/
theorem yarn_registerAll_lookup (K : Finset Nat) (hK : K.card < 256)
    (regs : List (Nat × yarn_CFunc)) :
    ∀ Y, yarn_tableChained Y →
      (∀ s, s < 256 → (Y.syscalls s).val ≠ none → (Y.syscalls s).key ∈ K) →
      (∀ kf, kf ∈ regs → kf.1 ∈ K) →
      ∃ Y1, yarn_registerAll Y regs = some Y1
        ∧ ∀ key, ∃ r, yarn_getSysCall Y key = some r
            ∧ yarn_getSysCall Y1 key
              = some (match spec_lastRegistered regs key with
                  | some g => some g
                  | none => r) := by
  induction regs with
  | nil =>
    intro Y hY hin _
    refine ⟨Y, rfl, ?_⟩
    intro key
    obtain ⟨r, hr⟩ := yarn_getSysCall_returns Y key (yarn_tableChained_room Y hY K hK hin)
    exact ⟨r, hr, hr⟩
  | cons kf rest ih =>
    intro Y hY hin hregs
    obtain ⟨k, f⟩ := kf
    obtain ⟨Y1, hreg, hY1, hin1, hnew, hother⟩ := yarn_registerSysCall_lookup Y hY K hK hin k f
      (hregs (k, f) (List.mem_cons_self _ _))
    obtain ⟨Y2, hall, hlook⟩ := ih Y1 hY1 hin1
      (fun kf hkf => hregs kf (List.mem_cons_of_mem _ hkf))
    refine ⟨Y2, by simp only [yarn_registerAll, hreg, Option.some_bind, hall], ?_⟩
    intro key
    obtain ⟨r, hr⟩ := yarn_getSysCall_returns Y key (yarn_tableChained_room Y hY K hK hin)
    obtain ⟨r1, hr1, hr2⟩ := hlook key
    refine ⟨r, hr, ?_⟩
    rw [hr2]
    simp only [spec_lastRegistered]
    by_cases hkey : k = key
    · subst hkey
      rw [hnew] at hr1
      cases hlast : spec_lastRegistered rest k with
      | none =>
        simp only [if_true]
        exact congrArg some (Option.some.inj hr1).symm
      | some g => rfl
    · rw [hother key (fun e => hkey e.symm), hr] at hr1
      cases hlast : spec_lastRegistered rest key with
      | none =>
        simp only [hkey, if_false]
        exact congrArg some (Option.some.inj hr1).symm
      | some g => rfl

/-- On a record whose table starts empty, `yarn_init` leaves only the three
built-in callbacks registered. -/
theorem yarn_init_onlyBuiltins (M : Nat) (raw Y : yarn_state)
    (hraw : ∀ idx, idx < 256 → (raw.syscalls idx).val = none)
    (h : yarn_init M raw = some Y) : yarn_onlyBuiltins Y := by
  obtain ⟨Y4, Y5, h4, h5, h6⟩ := yarn_init_some M raw Y h
  have e : yarn_rest (yarn_setRegister (yarn_setRegister (yarn_setRegister
      { raw with memory := fun _ => 0, memsize := M } 0 0) 1
      ((M + 18446744073709551616 - 72) % 18446744073709551616 % 4294967296)) 2
      ((M + 18446744073709551616 - 72) % 18446744073709551616 % 4294967296))
      = yarn_rest { raw with memory := fun _ => 0, memsize := M } := by simp
  have e3 : ∀ idx, (yarn_setRegister (yarn_setRegister (yarn_setRegister
      { raw with memory := fun _ => 0, memsize := M } 0 0) 1
      ((M + 18446744073709551616 - 72) % 18446744073709551616 % 4294967296)) 2
      ((M + 18446744073709551616 - 72) % 18446744073709551616 % 4294967296)).syscalls idx
      = raw.syscalls idx := fun idx => congrFun (yarn_rest_syscalls e) idx
  have hh0 : (hash_uint 0 + 0) % 256 = 0 := by decide
  have hh1 : (hash_uint 1 + 0) % 256 = 177 := by decide
  have hh2 : (hash_uint 2 + 0) % 256 = 98 := by decide
  have r4 := yarn_registerSysCall_probe_at _ 0 (some .yarn_sys_getvmmemory) 0 256 (hash_uint 0)
    (by decide) (fun i hi => absurd hi (by omega))
    (Or.inl (by rw [hh0, e3]; exact hraw 0 (by decide)))
  rw [hh0] at r4
  have r4' : yarn_registerSysCall _ 0 (some .yarn_sys_getvmmemory) = _ := r4
  rw [r4'] at h4
  have t4 : ∀ idx, Y4.syscalls idx
      = if idx = 0 then ⟨0, some .yarn_sys_getvmmemory⟩ else raw.syscalls idx := by
    intro idx
    rw [← Option.some.inj h4]
    simp only [e3]
  have r5 := yarn_registerSysCall_probe_at Y4 1 (some .yarn_sys_getinstructioncount) 0 256
    (hash_uint 1) (by decide) (fun i hi => absurd hi (by omega))
    (Or.inl (by rw [hh1, t4, if_neg (by decide)]; exact hraw 177 (by decide)))
  rw [hh1] at r5
  have r5' : yarn_registerSysCall Y4 1 (some .yarn_sys_getinstructioncount) = _ := r5
  rw [r5'] at h5
  have t5 : ∀ idx, Y5.syscalls idx
      = if idx = 177 then ⟨1, some .yarn_sys_getinstructioncount⟩ else Y4.syscalls idx := by
    intro idx
    rw [← Option.some.inj h5]
  have r6 := yarn_registerSysCall_probe_at Y5 2 (some .yarn_sys_gettime) 0 256
    (hash_uint 2) (by decide) (fun i hi => absurd hi (by omega))
    (Or.inl (by
      rw [hh2, t5, if_neg (by decide), t4, if_neg (by decide)]; exact hraw 98 (by decide)))
  rw [hh2] at r6
  have r6' : yarn_registerSysCall Y5 2 (some .yarn_sys_gettime) = _ := r6
  rw [r6'] at h6
  have t6 : ∀ idx, Y.syscalls idx
      = if idx = 98 then ⟨2, some .yarn_sys_gettime⟩ else Y5.syscalls idx := by
    intro idx
    rw [← Option.some.inj h6]
  intro idx hidx
  rw [t6, t5, t4]
  by_cases c98 : idx = 98
  · right
    subst c98
    simp only [if_true]
    exact ⟨by decide, rfl, by decide⟩
  · by_cases c177 : idx = 177
    · right
      subst c177
      simp only [if_neg c98, if_true]
      exact ⟨by decide, rfl, by decide⟩
    · by_cases c0 : idx = 0
      · right
        subst c0
        simp only [if_neg c98, if_neg c177, if_true]
        exact ⟨by decide, rfl, by decide⟩
      · left
        simp only [if_neg c98, if_neg c177, if_neg c0]
        exact hraw idx hidx

/-! ## Scenarios on a fresh machine -/

/-- C11 fails: on the machine of 1024 bytes `yarn_init` makes from a zeroed
record, with C1 = 0, C2 = 7 and the code `14 45 00 00 00 00 00` loaded,
`yarn_execute(-1)` returns DIVBYZERO with C2 = 7 after one pass, the loop
being left before HALT is dispatched: however many passes are allowed, it
never returns with an instruction count of 2, and it does return with a
count of 1. -/
theorem yarn_divs_scenario_counts_one :
    ∃ Y0, yarn_init 1024 zeroedRecord = some Y0
      ∧ (¬ ∃ fuel Y1,
          yarn_execute exampleHost fuel
              (yarn_loadCode (yarn_setRegister (yarn_setRegister Y0 YARN_REG_C1 0) YARN_REG_C2 7)
                [0x14, 0x45, 0, 0, 0, 0, 0]) (-1) = some (YARN_STATUS_DIVBYZERO, Y1)
            ∧ yarn_getInstructionCount Y1 = 2)
      ∧ ∃ Y1,
          yarn_execute exampleHost 1
              (yarn_loadCode (yarn_setRegister (yarn_setRegister Y0 YARN_REG_C1 0) YARN_REG_C2 7)
                [0x14, 0x45, 0, 0, 0, 0, 0]) (-1) = some (YARN_STATUS_DIVBYZERO, Y1)
            ∧ (yarn_getRegister Y1 YARN_REG_C2 0).2 = 7
            ∧ yarn_getInstructionCount Y1 = 1 := by
  have h : (yarn_init 1024 zeroedRecord).bind (fun Y0 =>
      (yarn_execute exampleHost 1
        (yarn_loadCode (yarn_setRegister (yarn_setRegister Y0 YARN_REG_C1 0) YARN_REG_C2 7)
          [0x14, 0x45, 0, 0, 0, 0, 0]) (-1)).map
        (fun r => (r.1, (yarn_getRegister r.2 YARN_REG_C2 0).2, yarn_getInstructionCount r.2)))
      = some (YARN_STATUS_DIVBYZERO, 7, 1) := by decide
  obtain ⟨Y0, hY0, hrun⟩ := Option.bind_eq_some.mp h
  obtain ⟨r, hr, hv⟩ := Option.map_eq_some'.mp hrun
  simp only [Prod.mk.injEq] at hv
  obtain ⟨h1, h2, h3⟩ := hv
  refine ⟨Y0, hY0, ?_, r.2, by rw [hr, ← h1], h2, h3⟩
  rintro ⟨fuel, Y1, hf, hc⟩
  have e := yarn_execute_fuel exampleHost fuel 1 _ (-1) _ _ hf hr
  rw [← e] at h3
  simp only [] at h3
  omega

/-- C11, amended: on the machine `yarn_init(M)` returns (72 ≤ M < 2^32), with
C1 set to 0 and C2 to 7 and the code `14 45 00 00 00 00 00`
(`DIVS %C1,%C2,#0; HALT`) loaded, `yarn_execute(-1)` returns DIVBYZERO with C2
still 7 and INSTRUCTION = 6, and the run has counted one instruction: the
instruction count is 1 above its value before the run, the loop being left
before HALT is dispatched. -/
theorem yarn_divs_scenario (host : yarn_host) (fuel M : Nat) (raw Y0 : yarn_state)
    (hM1 : 72 ≤ M) (hM2 : M < 4294967296) (hinit : yarn_init M raw = some Y0) :
    ∃ Y1,
      yarn_execute host (fuel + 1)
          (yarn_loadCode (yarn_setRegister (yarn_setRegister Y0 YARN_REG_C1 0) YARN_REG_C2 7)
            [0x14, 0x45, 0, 0, 0, 0, 0]) (-1) = some (YARN_STATUS_DIVBYZERO, Y1)
        ∧ (yarn_getRegister Y1 YARN_REG_C2 0).2 = 7
        ∧ (yarn_getRegister Y1 YARN_REG_INSTRUCTION 0).2 = 6
        ∧ yarn_getInstructionCount Y1 = yarn_getInstructionCount Y0 + 1 := by
  simp only [YARN_REG_C1, YARN_REG_C2, YARN_REG_INSTRUCTION, YARN_STATUS_DIVBYZERO]
  obtain ⟨hsize, -, hst, hr0, -, -, -⟩ := yarn_init_registers M raw Y0 hM1 hM2 hinit
  have hA1 : 72 ≤ Y0.memsize := by omega
  have hA2 : Y0.memsize < 4294967296 := by omega
  have hB1 : 72 ≤ (yarn_setRegister Y0 4 0).memsize := by simpa using hA1
  have hB2 : (yarn_setRegister Y0 4 0).memsize < 4294967296 := by simpa using hA2
  generalize hY : yarn_loadCode (yarn_setRegister (yarn_setRegister Y0 4 0) 5 7)
    [0x14, 0x45, 0, 0, 0, 0, 0] = Y
  have hYm : Y.memsize = Y0.memsize := by rw [← hY]; simp [yarn_loadCode]
  have hYc : Y.instructioncount = Y0.instructioncount := by
    rw [← hY]
    have e : yarn_rest (yarn_setRegister (yarn_setRegister Y0 4 0) 5 7) = yarn_rest Y0 := by simp
    have := yarn_rest_instructioncount e
    exact this
  have hYreg : ∀ q, q ≤ 15 → (yarn_getRegister Y q 0).2
      = if q = 5 then 7 else if q = 4 then 0 else (yarn_getRegister Y0 q 0).2 := by
    intro q hq
    rw [← hY, yarn_getRegister_loadCode,
      yarn_getRegister_setRegister _ 5 q 7 hB1 hB2 (by omega) hq,
      yarn_getRegister_setRegister Y0 4 q 0 hA1 hA2 (by omega) hq]
  have hYst : yarn_getStatus Y = 0 := by
    rw [← hY, yarn_getStatus_loadCode, yarn_getStatus_setRegister _ 5 7 hB1 hB2 (by omega),
      yarn_getStatus_setRegister Y0 4 0 hA1 hA2 (by omega), hst]
  have hcode : Y.code = fun i => ([0x14, 0x45, 0, 0, 0, 0, 0] : List byte).getD i 0 := by
    rw [← hY]; rfl
  have hcs : Y.codesize = 7 := by rw [← hY]; rfl
  obtain ⟨Y1, hstep, hrest, hst1, hip1, hregs1, -⟩ := yarn_step_div_zero host Y 0 0x14 4 5
    (by omega) (by omega) (by rw [hYreg 0 (by omega)]; simpa using hr0) (by omega) (by omega)
    (by rw [hcode]; rfl) (Or.inr rfl) (by rw [hcode]; rfl) (by omega) (by omega)
    (by rw [if_neg (by omega), hYreg 4 (by omega)]; rfl)
  have hloop : yarn_loop host (fuel + 1) Y (-1) = some Y1 := by
    rw [yarn_loop_unbounded host fuel Y Y1 hYst hstep]
    exact yarn_loop_stop host fuel Y1 (-1) (by rw [hst1]; decide)
  refine ⟨Y1, ?_, ?_, hip1, ?_⟩
  · unfold yarn_execute
    rw [hloop, Option.map_some', hst1]
  · rw [hregs1 5 (by omega) (by omega), hYreg 5 (by omega)]
    rfl
  · unfold yarn_getInstructionCount
    rw [yarn_rest_instructioncount hrest]
    simp only []
    rw [hYc]

/-- C11 (amended) at a concrete input: on the machine `yarn_init(1024)` makes
from a zeroed record the run returns DIVBYZERO with C2 = 7 and an instruction
count of 1. -/
theorem yarn_divs_scenario_witness :
    ∃ Y0 Y1, yarn_init 1024 zeroedRecord = some Y0
      ∧ yarn_execute exampleHost 1
          (yarn_loadCode (yarn_setRegister (yarn_setRegister Y0 YARN_REG_C1 0) YARN_REG_C2 7)
            [0x14, 0x45, 0, 0, 0, 0, 0]) (-1) = some (YARN_STATUS_DIVBYZERO, Y1)
      ∧ (yarn_getRegister Y1 YARN_REG_C2 0).2 = 7
      ∧ yarn_getInstructionCount Y1 = 1 := by
  obtain ⟨Y0, hY0⟩ := yarn_init_returns 1024 zeroedRecord (fun _ _ => rfl)
  obtain ⟨Y1, h1, h2, -, h4⟩ := yarn_divs_scenario exampleHost 0 1024 zeroedRecord Y0
    (by decide) (by decide) hY0
  refine ⟨Y0, Y1, hY0, h1, h2, ?_⟩
  rw [h4]
  unfold yarn_getInstructionCount
  rw [(yarn_init_frame 1024 zeroedRecord Y0 hY0).2.2.1]
  rfl

/-- C12, with the count taken from where it starts: on the machine
`yarn_init(M)` returns (72 ≤ M < 2^32) with the seven bytes `20`, `F0 + rB`,
the four bytes of `v` (little-endian) and `00` loaded, for every 32-bit `v` and
every `rB` in 3..14, `yarn_execute(-1)` returns HALT with register `rB` equal
to `v` and INSTRUCTION equal to 7, and the run has counted two instructions:
the instruction count is 2 above the value of the field `instructioncount` of
the record `malloc` handed out, which `yarn_init` does not assign. -/
theorem yarn_ir_scenario (host : yarn_host) (fuel M : Nat) (raw Y0 : yarn_state)
    (v rB : Nat) (hM1 : 72 ≤ M) (hM2 : M < 4294967296) (hinit : yarn_init M raw = some Y0)
    (hv : v < 4294967296) (hrB3 : 3 ≤ rB) (hrB14 : rB ≤ 14) :
    ∃ Y1,
      yarn_execute host (fuel + 2)
          (yarn_loadCode Y0 ([0x20, toByte (0xF0 + rB)] ++ (wordBytes v ++ [0x00]))) (-1)
        = some (YARN_STATUS_HALT, Y1)
        ∧ (yarn_getRegister Y1 rB 0).2 = v
        ∧ (yarn_getRegister Y1 YARN_REG_INSTRUCTION 0).2 = 7
        ∧ yarn_getInstructionCount Y1 = raw.instructioncount + 2 := by
  simp only [YARN_REG_INSTRUCTION, YARN_STATUS_HALT]
  obtain ⟨hsize, hcount, hst, hr0, -, -, -⟩ := yarn_init_registers M raw Y0 hM1 hM2 hinit
  generalize hY : yarn_loadCode Y0 ([0x20, toByte (0xF0 + rB)] ++ (wordBytes v ++ [0x00])) = Y
  have hYm : Y.memsize = M := by rw [← hY]; exact hsize
  have hYc : Y.instructioncount = raw.instructioncount := by rw [← hY]; exact hcount
  have hYst : yarn_getStatus Y = 0 := by rw [← hY, yarn_getStatus_loadCode, hst]
  have hYip : (yarn_getRegister Y 0 0).2 = 0 := by rw [← hY, yarn_getRegister_loadCode, hr0]
  have hcode : Y.code
      = fun i => ([0x20, toByte (0xF0 + rB)] ++ (wordBytes v ++ [0x00])).getD i 0 := by
    rw [← hY]; rfl
  have hcs : Y.codesize = 7 := by rw [← hY]; rfl
  have hword : readWord Y.code (0 + 2) = v := by
    rw [hcode]
    exact readWord_program [0x20, toByte (0xF0 + rB)] [0x00] v hv
  obtain ⟨Y1, hstep1, hrest1, hst1, hip1, hrB1, -, -⟩ := yarn_step_ir host Y 0 rB v
    (by omega) (by omega) hYip (by omega) (by omega) (by rw [hcode]; rfl)
    (by rw [hcode]; simp [toByte]; omega) (by omega) (by omega) hword
  obtain ⟨hc1, hs1, hm1, hn1, -⟩ := yarn_rest_fields Y Y1 _ hrest1
  obtain ⟨Y2, hstep2, hrest2, hst2, hip2, hregs2, -⟩ := yarn_step_halt host Y1 6
    (by omega) (by omega) hip1 (by omega) (by omega) (by rw [hc1, hcode]; rfl)
  obtain ⟨-, -, -, hn2, -⟩ := yarn_rest_fields Y1 Y2 _ hrest2
  have hloop : yarn_loop host (fuel + 2) Y (-1) = some Y2 := by
    rw [yarn_loop_unbounded host (fuel + 1) Y Y1 hYst hstep1,
      yarn_loop_unbounded host fuel Y1 Y2 (by rw [hst1, hYst]) hstep2]
    exact yarn_loop_stop host fuel Y2 (-1) (by rw [hst2]; decide)
  refine ⟨Y2, ?_, ?_, hip2, ?_⟩
  · unfold yarn_execute
    rw [hloop, Option.map_some', hst2]
  · rw [hregs2 rB (by omega) (by omega), hrB1]
  · unfold yarn_getInstructionCount
    rw [hn2, hn1, hYc]

/-- C12 at a failing input: `yarn_init(1024)` on a record whose field
`instructioncount` holds 5; with the code `20 F4 2A 00 00 00 00` loaded,
`yarn_execute(-1)` returns HALT with C1 = 42 and INSTRUCTION = 7, and the
instruction count is 7, not 2. -/
theorem yarn_ir_scenario_witness :
    ∃ Y0 Y1, yarn_init 1024 staleRecord = some Y0
      ∧ yarn_execute exampleHost 2 (yarn_loadCode Y0 [0x20, 0xF4, 0x2A, 0, 0, 0, 0]) (-1)
          = some (YARN_STATUS_HALT, Y1)
      ∧ (yarn_getRegister Y1 YARN_REG_C1 0).2 = 42
      ∧ (yarn_getRegister Y1 YARN_REG_INSTRUCTION 0).2 = 7
      ∧ yarn_getInstructionCount Y1 = 7 := by
  obtain ⟨Y0, hY0⟩ := yarn_init_returns 1024 staleRecord (fun _ _ => rfl)
  obtain ⟨Y1, h1, h2, h3, h4⟩ := yarn_ir_scenario exampleHost 0 1024 staleRecord Y0 42 4
    (by decide) (by decide) hY0 (by decide) (by decide) (by decide)
  exact ⟨Y0, Y1, hY0, h1, h2, h3, h4⟩

theorem yarn_nop_program (n i : Nat) :
    (i < n → ((List.replicate n (0x02 : byte) ++ [0x00]).getD i 0).val = 0x02)
      ∧ (i = n → ((List.replicate n (0x02 : byte) ++ [0x00]).getD i 0).val = 0x00) := by
  constructor
  · intro h
    rw [List.getD_append _ _ _ _ (by rw [List.length_replicate]; exact h),
      List.getD_eq_getElem _ _ (by rw [List.length_replicate]; exact h), List.getElem_replicate]
    rfl
  · intro h
    subst h
    rw [List.getD_append_right _ _ _ _ (by rw [List.length_replicate]), List.length_replicate,
      Nat.sub_self]
    rfl

/-- A run of NOPs under a count: from offset `j`, `k` passes lead to offset
`j + k` with `k` more dispatches counted and the status still OK. -/
theorem yarn_loop_nops (host : yarn_host) (code : Nat → byte) (n M : Nat)
    (hM1 : 72 ≤ M) (hM2 : M < 4294967296) (hn : n + 1 < 4294967296)
    (hcode : ∀ i, i < n → (code i).val = 0x02) (k : Nat) :
    ∀ (fuel j c : Nat) (Y : yarn_state), Y.code = code → Y.codesize = n + 1 → Y.memsize = M →
      yarn_getStatus Y = 0 → (yarn_getRegister Y 0 0).2 = j → Y.instructioncount = c →
      j + k ≤ n →
      ∃ Y1, yarn_loop host (fuel + k) Y k = some Y1
        ∧ Y1.code = code ∧ Y1.codesize = n + 1 ∧ Y1.memsize = M ∧ yarn_getStatus Y1 = 0
        ∧ (yarn_getRegister Y1 0 0).2 = j + k ∧ Y1.instructioncount = c + k := by
  induction k with
  | zero =>
    intro fuel j c Y h1 h2 h3 h4 h5 h6 _
    exact ⟨Y, yarn_loop_zero host _ Y, h1, h2, h3, h4, h5, h6⟩
  | succ k ih =>
    intro fuel j c Y h1 h2 h3 h4 h5 h6 hjk
    obtain ⟨Y1, hstep, hrest, hst, hip, -, -⟩ := yarn_step_nop host Y j (by omega) (by omega) h5
      (by omega) (by omega) (by rw [h1]; exact hcode j (by omega))
    obtain ⟨g1, g2, g3, g4, -⟩ := yarn_rest_fields Y Y1 _ hrest
    obtain ⟨Y2, hl, f1, f2, f3, f4, f5, f6⟩ := ih fuel (j + 1) (c + 1) Y1 (by rw [g1, h1])
      (by rw [g2, h2]) (by rw [g3, h3]) (by rw [hst, h4]) hip (by rw [g4, h6]) (by omega)
    refine ⟨Y2, ?_, f1, f2, f3, f4, by rw [f5]; omega, by rw [f6]; omega⟩
    have e : fuel + (k + 1) = (fuel + k) + 1 := by omega
    rw [e]
    have := yarn_loop_counted host (fuel + k) Y Y1 k h4 hstep
    rw [← hl, ← this]
    rfl

/-- A run of NOPs up to a HALT with no count: from offset `j`, the `n - j`
NOPs and the HALT at offset `n` are dispatched and the loop is left with
status HALT. -/
theorem yarn_loop_nops_halt (host : yarn_host) (code : Nat → byte) (n M : Nat)
    (hM1 : 72 ≤ M) (hM2 : M < 4294967296) (hn : n + 1 < 4294967296)
    (hcode : ∀ i, i < n → (code i).val = 0x02) (hhalt : (code n).val = 0x00) (m : Nat) :
    ∀ (fuel j c : Nat) (Y : yarn_state), Y.code = code → Y.codesize = n + 1 → Y.memsize = M →
      yarn_getStatus Y = 0 → (yarn_getRegister Y 0 0).2 = j → Y.instructioncount = c →
      j + m = n →
      ∃ Y1, yarn_loop host (fuel + m + 1) Y (-1) = some Y1
        ∧ yarn_getStatus Y1 = 2 ∧ Y1.instructioncount = c + m + 1 := by
  induction m with
  | zero =>
    intro fuel j c Y h1 h2 h3 h4 h5 h6 hjm
    have hj : j = n := by omega
    subst hj
    obtain ⟨Y1, hstep, hrest, hst, -, -, -⟩ := yarn_step_halt host Y j (by omega) (by omega) h5
      (by omega) (by omega) (by rw [h1]; exact hhalt)
    obtain ⟨-, -, -, g4, -⟩ := yarn_rest_fields Y Y1 _ hrest
    refine ⟨Y1, ?_, hst, by rw [g4, h6]⟩
    rw [Nat.add_zero, yarn_loop_unbounded host fuel Y Y1 h4 hstep]
    exact yarn_loop_stop host fuel Y1 (-1) (by rw [hst]; decide)
  | succ m ih =>
    intro fuel j c Y h1 h2 h3 h4 h5 h6 hjm
    obtain ⟨Y1, hstep, hrest, hst, hip, -, -⟩ := yarn_step_nop host Y j (by omega) (by omega) h5
      (by omega) (by omega) (by rw [h1]; exact hcode j (by omega))
    obtain ⟨g1, g2, g3, g4, -⟩ := yarn_rest_fields Y Y1 _ hrest
    obtain ⟨Y2, hl, f1, f2⟩ := ih fuel (j + 1) (c + 1) Y1 (by rw [g1, h1])
      (by rw [g2, h2]) (by rw [g3, h3]) (by rw [hst, h4]) hip (by rw [g4, h6]) (by omega)
    refine ⟨Y2, ?_, f1, by rw [f2]; omega⟩
    have e : fuel + (m + 1) + 1 = (fuel + m + 1) + 1 := by omega
    rw [e, yarn_loop_unbounded host (fuel + m + 1) Y Y1 h4 hstep]
    exact hl

/-- C13, with the count taken from where it starts: on the machine
`yarn_init(M)` returns (72 ≤ M < 2^32) with `n` NOP bytes followed by one HALT
loaded (`n + 1 < 2^32`), for every `k` with `0 ≤ k ≤ n`, `yarn_execute(k)`
returns OK with INSTRUCTION equal to `k` after counting `k` instructions, and
the `yarn_execute(-1)` that follows returns HALT after counting `n + 1` in
all: the instruction count is `k`, then `n + 1`, above the value of the field
`instructioncount` of the record `malloc` handed out, which `yarn_init` does
not assign. -/
theorem yarn_nop_scenario (host : yarn_host) (fuel1 fuel2 M : Nat) (raw Y0 : yarn_state)
    (n k : Nat) (hM1 : 72 ≤ M) (hM2 : M < 4294967296) (hinit : yarn_init M raw = some Y0)
    (hn : n + 1 < 4294967296) (hk : k ≤ n) :
    ∃ Y1 Y2,
      yarn_execute host (fuel1 + k)
          (yarn_loadCode Y0 (List.replicate n 0x02 ++ [0x00])) k = some (YARN_STATUS_OK, Y1)
        ∧ yarn_getInstructionCount Y1 = raw.instructioncount + k
        ∧ (yarn_getRegister Y1 YARN_REG_INSTRUCTION 0).2 = k
        ∧ yarn_execute host (fuel2 + (n - k) + 1) Y1 (-1) = some (YARN_STATUS_HALT, Y2)
        ∧ yarn_getInstructionCount Y2 = raw.instructioncount + n + 1 := by
  simp only [YARN_REG_INSTRUCTION, YARN_STATUS_HALT, YARN_STATUS_OK]
  obtain ⟨hsize, hcount, hst, hr0, -, -, -⟩ := yarn_init_registers M raw Y0 hM1 hM2 hinit
  generalize hY : yarn_loadCode Y0 (List.replicate n 0x02 ++ [0x00]) = Y
  have hYm : Y.memsize = M := by rw [← hY]; exact hsize
  have hYc : Y.instructioncount = raw.instructioncount := by rw [← hY]; exact hcount
  have hYst : yarn_getStatus Y = 0 := by rw [← hY, yarn_getStatus_loadCode, hst]
  have hYip : (yarn_getRegister Y 0 0).2 = 0 := by rw [← hY, yarn_getRegister_loadCode, hr0]
  have hcode : Y.code = fun i => (List.replicate n (0x02 : byte) ++ [0x00]).getD i 0 := by
    rw [← hY]; rfl
  have hcs : Y.codesize = n + 1 := by
    rw [← hY]
    simp [yarn_loadCode]
  have hnop : ∀ i, i < n → (Y.code i).val = 0x02 := fun i hi => by
    rw [hcode]; exact (yarn_nop_program n i).1 hi
  have hhalt : (Y.code n).val = 0x00 := by
    rw [hcode]; exact (yarn_nop_program n n).2 rfl
  obtain ⟨Y1, hl1, a1, a2, a3, a4, a5, a6⟩ := yarn_loop_nops host Y.code n M hM1 hM2 hn hnop k
    fuel1 0 raw.instructioncount Y rfl hcs hYm hYst hYip hYc (by omega)
  obtain ⟨Y2, hl2, b1, b2⟩ := yarn_loop_nops_halt host Y.code n M hM1 hM2 hn hnop hhalt (n - k)
    fuel2 k (raw.instructioncount + k) Y1 a1 a2 a3 a4 (by rw [a5]; omega) a6 (by omega)
  refine ⟨Y1, Y2, ?_, a6, by rw [a5]; omega, ?_, ?_⟩
  · unfold yarn_execute
    rw [hl1, Option.map_some', a4]
  · unfold yarn_execute
    rw [hl2, Option.map_some', b1]
  · unfold yarn_getInstructionCount
    rw [b2]
    omega

/-- C13 at a failing input: `yarn_init(1024)` on a record whose field
`instructioncount` holds 5; with three NOP bytes and one HALT loaded,
`yarn_execute(2)` returns OK with INSTRUCTION = 2 and an instruction count of
7, not 2, and the `yarn_execute(-1)` that follows returns HALT with a count of
9, not 4. -/
theorem yarn_nop_scenario_witness :
    ∃ Y0 Y1 Y2, yarn_init 1024 staleRecord = some Y0
      ∧ yarn_execute exampleHost 2 (yarn_loadCode Y0 [0x02, 0x02, 0x02, 0x00]) 2
          = some (YARN_STATUS_OK, Y1)
      ∧ yarn_getInstructionCount Y1 = 7
      ∧ (yarn_getRegister Y1 YARN_REG_INSTRUCTION 0).2 = 2
      ∧ yarn_execute exampleHost 2 Y1 (-1) = some (YARN_STATUS_HALT, Y2)
      ∧ yarn_getInstructionCount Y2 = 9 := by
  obtain ⟨Y0, hY0⟩ := yarn_init_returns 1024 staleRecord (fun _ _ => rfl)
  obtain ⟨Y1, Y2, h1, h2, h3, h4, h5⟩ := yarn_nop_scenario exampleHost 0 0 1024 staleRecord Y0
    3 2 (by decide) (by decide) hY0 (by decide) (by decide)
  exact ⟨Y0, Y1, Y2, hY0, h1, h2, h3, h4, h5⟩

/-! ## Compare instructions -/

/-- C14: on a machine of size M with 72 ≤ M < 2^32 and status OK whose
INSTRUCTION register points at a compare instruction (LT, LTS, LTE, LTES, EQ,
NEQ) lying wholly inside the code buffer, with register operands `rA`, `rB`
in 0..15 whose contents are `A` and `B`, and whatever the flag byte holds
before: after one step bit 0 of the flag byte is 1 exactly when the
comparison holds (LT: A < B and LTE: A ≤ B unsigned, EQ: A = B, NEQ: A ≠ B,
LTS: A < B and LTES: A ≤ B as two's-complement signed words), bits 1 to 7 of
the flag byte are as before, every register other than INSTRUCTION keeps its
content, INSTRUCTION advances by 2 and the status stays OK. -/
theorem yarn_compare_flag (host : yarn_host) (fuel : Nat) (Y : yarn_state)
    (ip op rA rB A B : Nat) (hM1 : 72 ≤ Y.memsize) (hM2 : Y.memsize < 4294967296)
    (hOK : yarn_getStatus Y = YARN_STATUS_OK)
    (hip : (yarn_getRegister Y YARN_REG_INSTRUCTION 0).2 = ip)
    (hfit : ip + 2 ≤ Y.codesize) (hcs : Y.codesize < 4294967296)
    (hop : (Y.code ip).val = op) (hops : YARN_INST_LT ≤ op ∧ op ≤ YARN_INST_NEQ)
    (hregs : (Y.code (ip + 1)).val = 16 * rA + rB) (hrA : rA ≤ 15) (hrB : rB ≤ 15)
    (hA : A = (yarn_getRegister Y rA 0).2) (hB : B = (yarn_getRegister Y rB 0).2) :
    ∃ Y1, yarn_execute host (fuel + 1) Y 1 = some (YARN_STATUS_OK, Y1)
      ∧ (op = YARN_INST_LT → (yarn_getFlag Y1 YARN_FLAG_CONDITIONAL = 1 ↔ A < B))
      ∧ (op = YARN_INST_LTS → (yarn_getFlag Y1 YARN_FLAG_CONDITIONAL = 1 ↔ toInt A < toInt B))
      ∧ (op = YARN_INST_LTE → (yarn_getFlag Y1 YARN_FLAG_CONDITIONAL = 1 ↔ A ≤ B))
      ∧ (op = YARN_INST_LTES → (yarn_getFlag Y1 YARN_FLAG_CONDITIONAL = 1 ↔ toInt A ≤ toInt B))
      ∧ (op = YARN_INST_EQ → (yarn_getFlag Y1 YARN_FLAG_CONDITIONAL = 1 ↔ A = B))
      ∧ (op = YARN_INST_NEQ → (yarn_getFlag Y1 YARN_FLAG_CONDITIONAL = 1 ↔ A ≠ B))
      ∧ (Y1.memory (flagLocation Y.memsize)).val / 2
          = (Y.memory (flagLocation Y.memsize)).val / 2
      ∧ (∀ r, 1 ≤ r → r ≤ 15 → (yarn_getRegister Y1 r 0).2 = (yarn_getRegister Y r 0).2)
      ∧ (yarn_getRegister Y1 YARN_REG_INSTRUCTION 0).2 = ip + 2 := by
  simp only [YARN_INST_LT, YARN_INST_LTS, YARN_INST_LTE, YARN_INST_LTES, YARN_INST_EQ,
    YARN_INST_NEQ, YARN_STATUS_OK, YARN_REG_INSTRUCTION, YARN_FLAG_CONDITIONAL] at *
  rw [yarn_getRegister_val Y 0 0 hM1 hM2 (by omega)] at hip
  have hip8 : readWord Y.memory (Y.memsize - 8) = ip := hip
  rw [yarn_getRegister_val Y rA 0 hM1 hM2 hrA] at hA
  rw [yarn_getRegister_val Y rB 0 hM1 hM2 hrB] at hB
  have hdis := yarn_dispatch_compare host Y ip op rA rB hM1 hM2 hfit hcs hop hops hregs hrA hrB
  rw [yarn_exec_compare host _ ip _ _ op hops, ← hA, ← hB] at hdis
  rw [yarn_execute_one host fuel Y hOK, yarn_step_inside host Y ip hM1 hM2 hip8 (by omega), hdis]
  simp only [Option.map_some']
  obtain ⟨h1, h2, hF, h3, h4⟩ := yarn_compare_spec Y ((op = 0x50 ∧ A < B)
    ∨ (op = 0x51 ∧ toInt A < toInt B) ∨ (op = 0x52 ∧ A ≤ B) ∨ (op = 0x53 ∧ toInt A ≤ toInt B)
    ∨ (op = 0x54 ∧ A = B) ∨ (op = 0x55 ∧ A ≠ B)) (host.uninit Y.instructioncount)
    ((yarn_incRegister (if (op = 0x50 ∧ A < B)
      ∨ (op = 0x51 ∧ toInt A < toInt B) ∨ (op = 0x52 ∧ A ≤ B) ∨ (op = 0x53 ∧ toInt A ≤ toInt B)
      ∨ (op = 0x54 ∧ A = B) ∨ (op = 0x55 ∧ A ≠ B)
      then yarn_setFlag (yarn_clearFlag Y 0) 0 else yarn_clearFlag Y 0)
      0 2 (host.uninit Y.instructioncount)).instructioncount + 1) hM1 hM2
  rw [flagLocation_eq _ (by omega) hM2]
  have hst : ∀ X : yarn_state, yarn_getStatus X = 0 →
      some (yarn_getStatus X, X) = some (0, X) := fun X h => by rw [h]
  refine ⟨_, hst _ (h1.trans hOK), ?_, ?_, ?_, ?_, ?_, ?_, h2, h3, ?_⟩
  · intro h; exact hF.trans (by subst h; simp)
  · intro h; exact hF.trans (by subst h; simp)
  · intro h; exact hF.trans (by subst h; simp)
  · intro h; exact hF.trans (by subst h; simp)
  · intro h; exact hF.trans (by subst h; simp)
  · intro h; exact hF.trans (by subst h; simp)
  · refine Eq.trans h4 ?_
    have hlt := readWord_lt Y.memory (Y.memsize - 8)
    rw [hip8]
    omega

/-- C14 at a concrete input: with C1 = 10, C2 = 3 and the flag byte `0xFF`,
`LTS %C1,%C2` clears bit 0 of the flag byte and keeps bits 1 to 7, and
INSTRUCTION becomes 2. -/
theorem yarn_compare_flag_witness :
    ∃ Y1, yarn_execute exampleHost 1 compareVM 1 = some (YARN_STATUS_OK, Y1)
      ∧ yarn_getFlag Y1 YARN_FLAG_CONDITIONAL = 0
      ∧ (Y1.memory (flagLocation 1024)).val / 2 = 127
      ∧ (yarn_getRegister Y1 YARN_REG_INSTRUCTION 0).2 = 2 := by
  obtain ⟨Y1, h1, -, h3, -, -, -, -, h8, -, h10⟩ := yarn_compare_flag exampleHost 0 compareVM
    0 0x51 4 5 10 3 (by decide) (by decide) (by decide) (by decide) (by decide) (by decide)
    (by decide) (by decide) (by decide) (by decide) (by decide) (by decide) (by decide)
  refine ⟨Y1, h1, ?_, h8, h10⟩
  have hn : ¬ (toInt 10 < toInt 3) := by decide
  have h01 : yarn_getFlag Y1 YARN_FLAG_CONDITIONAL ≠ 1 := fun h => hn ((h3 rfl).mp h)
  have hle : yarn_getFlag Y1 YARN_FLAG_CONDITIONAL ≤ 1 := by
    unfold yarn_getFlag
    exact Nat.and_le_right
  omega

/-! ## Shifts -/

theorem yarn_exec_lsh (host : yarn_host) (Y : yarn_state) (ip u : Nat) (o : yarn_operands) :
    yarn_exec host Y ip u o 0x15
      = some (yarn_storeResult Y o u ((o.valB <<< (o.valA % 32)) % 4294967296)) := rfl

theorem yarn_exec_rsh (host : yarn_host) (Y : yarn_state) (ip u : Nat) (o : yarn_operands) :
    yarn_exec host Y ip u o 0x16
      = some (yarn_storeResult Y o u (o.valB >>> (o.valA % 32))) := rfl

theorem yarn_exec_rshs (host : yarn_host) (Y : yarn_state) (ip u : Nat) (o : yarn_operands) :
    yarn_exec host Y ip u o 0x17
      = some (yarn_storeResult Y o u (toUint (toInt o.valB >>> (o.valA % 32)))) := rfl

/-- The signed reading of the word an arithmetic shift stores. -/
theorem toInt_shiftRight (B A : Nat) :
    toInt (toUint (toInt B >>> A) % 4294967296) = toInt B / 2 ^ A := by
  have e : toInt B >>> A = toInt B / 2 ^ A := by
    rw [Int.shiftRight_eq_div_pow]
    push_cast
    rfl
  rw [e]
  have hB : -2147483648 ≤ toInt B ∧ toInt B < 2147483648 := by
    unfold toInt; split_ifs <;> omega
  have hp : (0 : Int) < 2 ^ A := by positivity
  have h1 : -2147483648 ≤ toInt B / 2 ^ A := by
    apply Int.le_ediv_of_mul_le hp
    nlinarith
  have h2 : toInt B / 2 ^ A < 2147483648 := by
    apply Int.ediv_lt_of_lt_mul hp
    nlinarith
  generalize toInt B / 2 ^ A = q at h1 h2
  unfold toInt toUint
  split_ifs <;> omega

/-- C15: on a machine of size M with 72 ≤ M < 2^32 and status OK whose
INSTRUCTION register points at an LSH, RSH or RSHS instruction lying wholly
inside the code buffer, with register operands `rA` in 0..15 and `rB` in
1..15, destination value `B` (the prior content of `rB`) and any source value
`A` (the immediate when `rA` is NULL, the prior content of `rA` otherwise),
32 and more included: one step shifts by the low five bits of `A`.  It stores
in `rB` the word `(B << (A mod 32)) mod 2^32` for LSH, the logical shift
`B >> (A mod 32)` for RSH, and for RSHS the word whose signed reading is the
signed reading of `B` shifted right arithmetically by `A mod 32` (divided by
`2^(A mod 32)` rounding down, so that the sign is propagated); INSTRUCTION
advances by 6 and the status stays OK. -/
theorem yarn_shift (host : yarn_host) (fuel : Nat) (Y : yarn_state)
    (ip op rA rB d A B : Nat) (hM1 : 72 ≤ Y.memsize) (hM2 : Y.memsize < 4294967296)
    (hOK : yarn_getStatus Y = YARN_STATUS_OK)
    (hip : (yarn_getRegister Y YARN_REG_INSTRUCTION 0).2 = ip)
    (hfit : ip + 6 ≤ Y.codesize) (hcs : Y.codesize < 4294967296)
    (hop : (Y.code ip).val = op)
    (hops : op = YARN_INST_LSH ∨ op = YARN_INST_RSH ∨ op = YARN_INST_RSHS)
    (hregs : (Y.code (ip + 1)).val = 16 * rA + rB) (hrA : rA ≤ 15)
    (hrB0 : 1 ≤ rB) (hrB : rB ≤ 15) (hd : readWord Y.code (ip + 2) = d)
    (hA : A = if rA = YARN_REG_NULL then d else (yarn_getRegister Y rA 0).2)
    (hB : B = (yarn_getRegister Y rB 0).2) :
    ∃ Y1, yarn_execute host (fuel + 1) Y 1 = some (YARN_STATUS_OK, Y1)
      ∧ (op = YARN_INST_LSH →
          (yarn_getRegister Y1 rB 0).2 = (B <<< (A % 32)) % 4294967296)
      ∧ (op = YARN_INST_RSH → (yarn_getRegister Y1 rB 0).2 = B >>> (A % 32))
      ∧ (op = YARN_INST_RSHS →
          toInt (yarn_getRegister Y1 rB 0).2 = toInt B / 2 ^ (A % 32))
      ∧ (yarn_getRegister Y1 YARN_REG_INSTRUCTION 0).2 = ip + 6 := by
  simp only [YARN_INST_LSH, YARN_INST_RSH, YARN_INST_RSHS, YARN_REG_NULL, YARN_STATUS_OK,
    YARN_REG_INSTRUCTION] at *
  obtain ⟨hip8, hex⟩ := yarn_execute_arith host fuel Y ip op rA rB hM1 hM2 hOK hip hfit hcs hop
    (by omega) hregs hrA hrB
  rw [hex]
  have hA2 : (if rA = 15 then readWord Y.code (ip + 2)
      else readWord Y.memory (Y.memsize - (rA + 2) * 4)) = A := by
    rw [hA, hd]
    by_cases h15 : rA = 15
    · simp only [h15, if_true]
    · simp only [h15, if_false]
      rw [yarn_getRegister_val Y rA 0 hM1 hM2 hrA]
  have hB2 : readWord Y.memory (Y.memsize - (rB + 2) * 4) = B := by
    rw [hB, yarn_getRegister_val Y rB 0 hM1 hM2 hrB]
  rw [hA2, hB2]
  have hBlt : B < 4294967296 := by rw [← hB2]; exact readWord_lt _ _
  have key : ∀ v c, ∃ Y1,
      some (yarn_getStatus
          { yarn_storeResult Y ⟨rA, rB, readWord Y.code (ip + 2), A, B⟩
              (host.uninit Y.instructioncount) v with instructioncount := c },
        ({ yarn_storeResult Y ⟨rA, rB, readWord Y.code (ip + 2), A, B⟩
              (host.uninit Y.instructioncount) v with instructioncount := c } : yarn_state))
        = some (0, Y1)
      ∧ (yarn_getRegister Y1 rB 0).2 = v % 4294967296
      ∧ (yarn_getRegister Y1 0 0).2 = ip + 6 := by
    intro v c
    obtain ⟨h1, h2, h3⟩ := yarn_storeResult_spec Y ⟨rA, rB, readWord Y.code (ip + 2), A, B⟩
      (host.uninit Y.instructioncount) v c hM1 hM2 hrB0 hrB
    refine ⟨_, by rw [h1, hOK], h2, ?_⟩
    rw [h3, hip8]
    omega
  rcases hops with h | h | h
  · subst h
    rw [yarn_exec_lsh]
    obtain ⟨Y1, e1, e2, e3⟩ := key ((B <<< (A % 32)) % 4294967296) _
    refine ⟨Y1, e1, ?_, ?_, ?_, e3⟩
    · intro _; rw [e2]; exact Nat.mod_mod _ _
    · intro h; exact absurd h (by decide)
    · intro h; exact absurd h (by decide)
  · subst h
    rw [yarn_exec_rsh]
    obtain ⟨Y1, e1, e2, e3⟩ := key (B >>> (A % 32)) _
    refine ⟨Y1, e1, ?_, ?_, ?_, e3⟩
    · intro h; exact absurd h (by decide)
    · intro _
      rw [e2]
      rw [Nat.shiftRight_eq_div_pow]
      exact Nat.mod_eq_of_lt (lt_of_le_of_lt (Nat.div_le_self B (2 ^ (A % 32))) hBlt)
    · intro h; exact absurd h (by decide)
  · subst h
    rw [yarn_exec_rshs]
    obtain ⟨Y1, e1, e2, e3⟩ := key (toUint (toInt B >>> (A % 32))) _
    refine ⟨Y1, e1, ?_, ?_, ?_, e3⟩
    · intro h; exact absurd h (by decide)
    · intro h; exact absurd h (by decide)
    · intro _
      rw [e2]
      exact toInt_shiftRight B (A % 32)

/-- C15 at a concrete input, a shift by the width of the word: with C1 = 32
and C2 = 1 the code `15 45 00 00 00 00` (`LSH %C1,%C2,#0`) shifts by
32 mod 32 = 0 and leaves C2 = 1 and INSTRUCTION = 6. -/
theorem yarn_shift_witness :
    ∃ Y1, yarn_execute exampleHost 1 shiftWideVM 1 = some (YARN_STATUS_OK, Y1)
      ∧ (yarn_getRegister Y1 YARN_REG_C2 0).2 = 1
      ∧ (yarn_getRegister Y1 YARN_REG_INSTRUCTION 0).2 = 6 := by
  obtain ⟨Y1, h1, h2, -, -, h5⟩ := yarn_shift exampleHost 0 shiftWideVM 0 0x15 4 5 0 32 1
    (by decide) (by decide) (by decide) (by decide) (by decide) (by decide) (by decide)
    (by decide) (by decide) (by decide) (by decide) (by decide) (by decide) (by decide)
    (by decide)
  exact ⟨Y1, h1, by rw [h2 rfl]; decide, h5⟩

/-! ## Memory moves -/

theorem yarn_exec_mr (host : yarn_host) (Y : yarn_state) (ip u : Nat) (o : yarn_operands) :
    yarn_exec host Y ip u o 0x21
      = some (yarn_storeResult (yarn_getMemory Y ((o.d + o.valA) % 4294967296) (wordBytes u)).1
          o u (bytesWord (yarn_getMemory Y ((o.d + o.valA) % 4294967296) (wordBytes u)).2)) :=
  rfl

theorem yarn_exec_rm (host : yarn_host) (Y : yarn_state) (ip u : Nat) (o : yarn_operands) :
    yarn_exec host Y ip u o 0x23
      = some (yarn_incRegister
          (yarn_setMemory (yarn_getRegister Y o.rB o.valB).1
            (((yarn_getRegister Y o.rB o.valB).2 + o.d) % 4294967296) (wordBytes o.valA))
          0 6 u) := rfl

theorem yarn_getMemory_oob (Y : yarn_state) (pos : Nat) (val : List byte)
    (h : pos + val.length > Y.memsize) :
    yarn_getMemory Y pos val = (yarn_setStatus Y 3, val) := by
  unfold yarn_getMemory
  rw [if_pos h]

theorem bytesWord_wordBytes (v : Nat) : bytesWord (wordBytes v) = v % 4294967296 := by
  simp only [bytesWord, wordBytes, toByte, List.getD_cons_zero, List.getD_cons_succ]
  omega

/-- C16, as the code has it: on a machine of size M with 72 ≤ M < 2^32 and
status OK whose INSTRUCTION register points at an MR or RM instruction lying
wholly inside the code buffer, with an address (MR: (A + d) mod 2^32, `A` being
0 when `rA` is NULL and the content of `rA` otherwise; RM: (content of `rB`
+ d) mod 2^32) whose four bytes do not lie inside memory: one step ends with
status INVALIDMEMORY and INSTRUCTION advanced by 6 and changes no byte
outside the status byte and the register file.  RM changes no register but
INSTRUCTION.  MR changes no register but INSTRUCTION and its destination `rB`
(taken in 1..15), in which it stores the word of the local `valM` that the
failed read left unwritten, an indeterminate word. -/
theorem yarn_move_out_of_bounds (host : yarn_host) (fuel : Nat) (Y : yarn_state)
    (ip op rA rB d A addr : Nat) (hM1 : 72 ≤ Y.memsize) (hM2 : Y.memsize < 4294967296)
    (hOK : yarn_getStatus Y = YARN_STATUS_OK)
    (hip : (yarn_getRegister Y YARN_REG_INSTRUCTION 0).2 = ip)
    (hfit : ip + 6 ≤ Y.codesize) (hcs : Y.codesize < 4294967296)
    (hop : (Y.code ip).val = op) (hops : op = YARN_INST_MR ∨ op = YARN_INST_RM)
    (hregs : (Y.code (ip + 1)).val = 16 * rA + rB) (hrA : rA ≤ 15) (hrB : rB ≤ 15)
    (hrB0 : op = YARN_INST_MR → 1 ≤ rB) (hd : readWord Y.code (ip + 2) = d)
    (hA : A = if rA = YARN_REG_NULL then 0 else (yarn_getRegister Y rA 0).2)
    (haddr : addr = if op = YARN_INST_MR then (d + A) % 4294967296
      else ((yarn_getRegister Y rB 0).2 + d) % 4294967296)
    (hoob : addr + 4 > Y.memsize) :
    ∃ Y1, yarn_execute host (fuel + 1) Y 1 = some (YARN_STATUS_INVALIDMEMORY, Y1)
      ∧ (yarn_getRegister Y1 YARN_REG_INSTRUCTION 0).2 = ip + 6
      ∧ (op = YARN_INST_MR →
          (yarn_getRegister Y1 rB 0).2 = host.uninit Y.instructioncount % 4294967296)
      ∧ (∀ r, 1 ≤ r → r ≤ 15 → op = YARN_INST_RM ∨ r ≠ rB →
          (yarn_getRegister Y1 r 0).2 = (yarn_getRegister Y r 0).2)
      ∧ (∀ i, i < Y.memsize - 68 ∨ Y.memsize - 4 < i → Y1.memory i = Y.memory i) := by
  simp only [YARN_INST_MR, YARN_INST_RM, YARN_REG_NULL, YARN_STATUS_OK,
    YARN_STATUS_INVALIDMEMORY, YARN_REG_INSTRUCTION] at *
  have hip8 : readWord Y.memory (Y.memsize - 8) = ip := by
    rw [← hip, yarn_getRegister_val Y 0 0 hM1 hM2 (by omega)]
  have hlt := readWord_lt Y.memory (Y.memsize - 8)
  have hdis := yarn_dispatch_move host Y ip op rA rB hM1 hM2 hfit hcs hop (by omega) hregs
    hrA hrB
  rw [hd, ← hA] at hdis
  have hS1 : 72 ≤ (yarn_setStatus Y 3).memsize := by simpa using hM1
  have hS2 : (yarn_setStatus Y 3).memsize < 4294967296 := by simpa using hM2
  have hst : ∀ X : yarn_state, yarn_getStatus X = 3 →
      some (yarn_getStatus X, X) = some (3, X) := fun X h => by rw [h]
  rw [yarn_execute_one host fuel Y hOK, yarn_step_inside host Y ip hM1 hM2 hip8 (by omega), hdis]
  generalize host.uninit Y.instructioncount = u
  rcases hops with h | h
  · -- MR
    subst h
    simp only [if_true] at haddr
    have hrB1 : 1 ≤ rB := hrB0 rfl
    rw [yarn_exec_mr]
    simp only []
    rw [← haddr, yarn_getMemory_oob Y addr _ (by rw [wordBytes_length]; exact hoob)]
    simp only [bytesWord_wordBytes, Option.map_some']
    unfold yarn_storeResult
    simp only [YARN_REG_INSTRUCTION]
    have hR1 : 72 ≤ (yarn_setRegister (yarn_setStatus Y 3) rB (u % 4294967296)).memsize := by
      simpa using hM1
    have hR2 : (yarn_setRegister (yarn_setStatus Y 3) rB (u % 4294967296)).memsize
        < 4294967296 := by simpa using hM2
    refine ⟨_, hst _ ?_, ?_, ?_, ?_, ?_⟩
    · rw [yarn_getStatus_count, yarn_getStatus_incRegister _ 0 6 _ hR1 hR2 (by omega),
        yarn_getStatus_setRegister _ rB _ hS1 hS2 hrB,
        yarn_getStatus_setStatus Y 3 (by omega) hM2]
    · rw [yarn_getRegister_count, yarn_getRegister_incRegister _ 0 0 6 _ hR1 hR2 (by omega)
        (by omega), if_pos rfl, yarn_getRegister_setRegister _ rB 0 _ hS1 hS2 hrB (by omega),
        if_neg (by omega), yarn_getRegister_setStatus Y 3 0 hM1 hM2 (by omega), hip]
      unfold toUint
      omega
    · intro _
      rw [yarn_getRegister_count, yarn_getRegister_incRegister _ 0 rB 6 _ hR1 hR2 (by omega)
        hrB, if_neg (by omega), yarn_getRegister_setRegister _ rB rB _ hS1 hS2 hrB hrB,
        if_pos rfl, Nat.mod_mod]
    · intro r hr1 hr15 hne
      have hne2 : r ≠ rB := by
        rcases hne with h | h
        · exact absurd h (by decide)
        · exact h
      rw [yarn_getRegister_count, yarn_getRegister_incRegister _ 0 r 6 _ hR1 hR2 (by omega)
        hr15, if_neg (by omega), yarn_getRegister_setRegister _ rB r _ hS1 hS2 hrB hr15,
        if_neg hne2, yarn_getRegister_setStatus Y 3 r hM1 hM2 hr15]
    · intro i hi
      simp only []
      rw [yarn_incRegister_memory _ 0 6 _ i hR1 hR2 (by omega)
          (by simp only [yarn_setRegister_memsize, yarn_setStatus_memsize]; omega),
        yarn_setRegister_memory _ rB _ i hS1 hS2 hrB
          (by simp only [yarn_setStatus_memsize]; omega),
        yarn_setStatus_memory Y 3 i hM1 hM2 (by omega)]
  · -- RM
    subst h
    simp only [show ¬ ((35 : Nat) = 33) by decide, if_false] at haddr
    rw [yarn_exec_rm]
    simp only []
    rw [yarn_getRegister_eq Y rB _ (by omega) hM2, ← yarn_getRegister_val Y rB 0 hM1 hM2 hrB]
    simp only []
    rw [← haddr, yarn_setMemory_oob Y addr _ (by omega) hM2
      (by rw [wordBytes_length]; exact hoob)]
    simp only [YARN_STATUS_INVALIDMEMORY, Option.map_some']
    refine ⟨_, hst _ ?_, ?_, ?_, ?_, ?_⟩
    · rw [yarn_getStatus_count, yarn_getStatus_incRegister _ 0 6 _ hS1 hS2 (by omega),
        yarn_getStatus_setStatus Y 3 (by omega) hM2]
    · rw [yarn_getRegister_count, yarn_getRegister_incRegister _ 0 0 6 _ hS1 hS2 (by omega)
        (by omega), if_pos rfl, yarn_getRegister_setStatus Y 3 0 hM1 hM2 (by omega), hip]
      unfold toUint
      omega
    · intro h
      exact absurd h (by decide)
    · intro r hr1 hr15 _
      rw [yarn_getRegister_count, yarn_getRegister_incRegister _ 0 r 6 _ hS1 hS2 (by omega)
        hr15, if_neg (by omega), yarn_getRegister_setStatus Y 3 r hM1 hM2 hr15]
    · intro i hi
      simp only []
      rw [yarn_incRegister_memory _ 0 6 _ i hS1 hS2 (by omega)
          (by simp only [yarn_setStatus_memsize]; omega),
        yarn_setStatus_memory Y 3 i hM1 hM2 (by omega)]

/-- C16 at a failing input: on a machine of 1024 bytes with C1 = 10, the
instruction `MR %null,%C1,#0x800` reads out of bounds; the step ends with
status INVALIDMEMORY and INSTRUCTION = 6, and with a host whose indeterminate
word is `0xDEADBEEF`, C1 holds `0xDEADBEEF` and no longer 10. -/
theorem yarn_move_out_of_bounds_witness :
    (yarn_getRegister loadVM YARN_REG_C1 0).2 = 10
      ∧ ∃ Y1, yarn_execute exampleHost 1 loadVM 1 = some (YARN_STATUS_INVALIDMEMORY, Y1)
        ∧ (yarn_getRegister Y1 YARN_REG_INSTRUCTION 0).2 = 6
        ∧ (yarn_getRegister Y1 YARN_REG_C1 0).2 = 0xDEADBEEF := by
  refine ⟨by decide, ?_⟩
  obtain ⟨Y1, h1, h2, h3, -, -⟩ := yarn_move_out_of_bounds exampleHost 0 loadVM 0 0x21 15 4
    0x800 0 0x800 (by decide) (by decide) (by decide) (by decide) (by decide) (by decide)
    (by decide) (by decide) (by decide) (by decide) (by decide) (by decide) (by decide)
    (by decide) (by decide) (by decide)
  exact ⟨Y1, h1, h2, h3 rfl⟩

/-! ## Call and return -/

/-- C17 fails: on the machine of 1024 bytes `yarn_init` makes from a zeroed
record, with the program of the scenario loaded for the argument 1000, RET 1
drops the return address and takes the argument as the new INSTRUCTION, which
lies outside the code: `yarn_execute(-1)` returns INVALIDINSTRUCTION, and
however many passes are allowed it never returns HALT. -/
theorem yarn_call_scenario_leaves_code :
    ∃ Y0, yarn_init 1024 zeroedRecord = some Y0
      ∧ (¬ ∃ fuel Y1,
          yarn_execute exampleHost fuel (yarn_loadCode Y0 (callProgram 1000)) (-1)
            = some (YARN_STATUS_HALT, Y1))
      ∧ ∃ Y1,
          yarn_execute exampleHost 6 (yarn_loadCode Y0 (callProgram 1000)) (-1)
            = some (YARN_STATUS_INVALIDINSTRUCTION, Y1)
          ∧ (yarn_getRegister Y1 YARN_REG_INSTRUCTION 0).2 = 1000 := by
  have h : (yarn_init 1024 zeroedRecord).bind (fun Y0 =>
      (yarn_execute exampleHost 6 (yarn_loadCode Y0 (callProgram 1000)) (-1)).map
        (fun r => (r.1, (yarn_getRegister r.2 YARN_REG_INSTRUCTION 0).2)))
      = some (YARN_STATUS_INVALIDINSTRUCTION, 1000) := by decide
  obtain ⟨Y0, hY0, hrun⟩ := Option.bind_eq_some.mp h
  obtain ⟨r, hr, hv⟩ := Option.map_eq_some'.mp hrun
  simp only [Prod.mk.injEq] at hv
  obtain ⟨h1, h2⟩ := hv
  refine ⟨Y0, hY0, ?_, r.2, by rw [hr, ← h1], h2⟩
  rintro ⟨fuel, Y1, hf⟩
  have e := yarn_execute_fuel exampleHost fuel 6 _ (-1) _ _ hf hr
  rw [← e] at h1
  simp only [YARN_STATUS_HALT, YARN_STATUS_INVALIDINSTRUCTION] at h1
  omega

/-- C17, amended: on the machine `yarn_init(M)` returns (80 ≤ M < 2^32, so
that the two words pushed fit) with the program of the scenario loaded for a
32-bit argument `a` (load `a` in C1 and PUSH it, CALL the subroutine, HALT
after the CALL; the subroutine sets RETURN to 99 and ends with RET 1): the
five instructions up to RET 1 (`yarn_execute(5)`) leave the status OK,
RETURN = 99, STACK = M − 72 and INSTRUCTION = `a`, for RET 1 drops the return
address CALL pushed and takes the argument as the new INSTRUCTION; so
`yarn_execute(-1)` returns HALT with RETURN = 99 and STACK = M − 72 when `a`
is 13, the offset of the HALT that follows the CALL. -/
theorem yarn_call_scenario (host : yarn_host) (fuel M : Nat) (raw Y0 : yarn_state) (a : Nat)
    (hM1 : 80 ≤ M) (hM2 : M < 4294967296) (hinit : yarn_init M raw = some Y0)
    (ha : a < 4294967296) :
    (∃ Y5, yarn_execute host (fuel + 5) (yarn_loadCode Y0 (callProgram a)) 5
          = some (YARN_STATUS_OK, Y5)
        ∧ (yarn_getRegister Y5 YARN_REG_INSTRUCTION 0).2 = a
        ∧ (yarn_getRegister Y5 YARN_REG_RETURN 0).2 = 99
        ∧ (yarn_getRegister Y5 YARN_REG_STACK 0).2 = M - 72)
      ∧ (a = 13 →
          ∃ Y6, yarn_execute host (fuel + 6) (yarn_loadCode Y0 (callProgram a)) (-1)
              = some (YARN_STATUS_HALT, Y6)
            ∧ (yarn_getRegister Y6 YARN_REG_RETURN 0).2 = 99
            ∧ (yarn_getRegister Y6 YARN_REG_STACK 0).2 = M - 72) := by
  simp only [YARN_REG_INSTRUCTION, YARN_REG_RETURN, YARN_REG_STACK, YARN_STATUS_HALT,
    YARN_STATUS_OK]
  obtain ⟨hsize, -, hst, hr0, hr1, -, -⟩ := yarn_init_registers M raw Y0 (by omega) hM2 hinit
  generalize hY : yarn_loadCode Y0 (callProgram a) = Y
  have hYm : Y.memsize = M := by rw [← hY]; exact hsize
  have hYst : yarn_getStatus Y = 0 := by rw [← hY, yarn_getStatus_loadCode, hst]
  have hYip : (yarn_getRegister Y 0 0).2 = 0 := by rw [← hY, yarn_getRegister_loadCode, hr0]
  have hYsp : (yarn_getRegister Y 1 0).2 = M - 72 := by
    rw [← hY, yarn_getRegister_loadCode, hr1]
  have hcode : Y.code = fun i => (callProgram a).getD i 0 := by rw [← hY]; rfl
  have hcs : Y.codesize = 25 := by rw [← hY]; rfl
  have hword : readWord Y.code (0 + 2) = a := by
    rw [hcode]
    exact readWord_program [0x20, 0xF4] _ a ha
  -- 0: IR %null,%C1,#a
  obtain ⟨Y1, hstep1, hrest1, hst1, hip1, hC1, hregs1, hmem1⟩ := yarn_step_ir host Y 0 4 a
    (by omega) (by omega) hYip (by omega) (by omega) (by rw [hcode]; rfl)
    (by rw [hcode]; rfl) (by omega) (by omega) hword
  obtain ⟨c1, s1, m1, -, -⟩ := yarn_rest_fields Y Y1 _ hrest1
  -- 6: PUSH %C1
  obtain ⟨Y2, hstep2, hrest2, hst2, hip2, hsp2, hregs2, hw2, hmem2⟩ := yarn_step_push host Y1 6 4
    0 (M - 72) (by omega) (by omega) hip1 (by omega) (by omega) (by rw [c1, hcode]; rfl)
    (by rw [c1, hcode]; rfl) (by omega) (by omega)
    (by rw [hregs1 1 (by omega) (by omega) (by omega), hYsp]) (by omega) (by omega)
  obtain ⟨c2, s2, m2, -, -⟩ := yarn_rest_fields Y1 Y2 _ hrest2
  -- 8: CALL #14
  obtain ⟨Y3, hstep3, hrest3, hst3, hip3, hsp3, hregs3, hw3, hmem3⟩ := yarn_step_call host Y2 8
    14 (M - 72 - 4) (by omega) (by omega) hip2 (by omega) (by omega)
    (by rw [c2, c1, hcode]; rfl) (by rw [c2, c1, hcode]; rfl) hsp2 (by omega) (by omega)
  obtain ⟨c3, s3, m3, -, -⟩ := yarn_rest_fields Y2 Y3 _ hrest3
  -- 14: IR %null,%ret,#99
  obtain ⟨Y4, hstep4, hrest4, hst4, hip4, hR4, hregs4, hmem4⟩ := yarn_step_ir host Y3 14 3 99
    (by omega) (by omega) hip3 (by omega) (by omega) (by rw [c3, c2, c1, hcode]; rfl)
    (by rw [c3, c2, c1, hcode]; rfl) (by omega) (by omega) (by rw [c3, c2, c1, hcode]; rfl)
  obtain ⟨c4, s4, m4, -, -⟩ := yarn_rest_fields Y3 Y4 _ hrest4
  -- 20: RET #1
  obtain ⟨Y5, hstep5, hrest5, hst5, hip5, hsp5, hregs5, -⟩ := yarn_step_ret host Y4 20 1
    (M - 72 - 4 - 4) (by omega) (by omega) hip4 (by omega) (by omega)
    (by rw [c4, c3, c2, c1, hcode]; rfl) (by rw [c4, c3, c2, c1, hcode]; rfl)
    (by rw [hregs4 1 (by omega) (by omega) (by omega), hsp3]) (by omega)
  obtain ⟨c5, s5, m5, -, -⟩ := yarn_rest_fields Y4 Y5 _ hrest5
  have hOK1 : yarn_getStatus Y1 = 0 := by rw [hst1, hYst]
  have hOK2 : yarn_getStatus Y2 = 0 := by rw [hst2, hOK1]
  have hOK3 : yarn_getStatus Y3 = 0 := by rw [hst3, hOK2]
  have hOK4 : yarn_getStatus Y4 = 0 := by rw [hst4, hOK3]
  have hOK5 : yarn_getStatus Y5 = 0 := by rw [hst5, hOK4]
  have harg : readWord Y4.memory (M - 72 - 4 - 4 + 4 * 1) = a := by
    have e : M - 72 - 4 - 4 + 4 * 1 = M - 72 - 4 := by omega
    rw [e, readWord_congr _ _ _ (fun i h1 h2 => hmem4 i (by omega)),
      readWord_congr _ _ _ (fun i h1 h2 => hmem3 i (by omega) (by omega)), hw2, hC1]
  have hip5a : (yarn_getRegister Y5 0 0).2 = a := by rw [hip5, harg]
  have hR5 : (yarn_getRegister Y5 3 0).2 = 99 := by rw [hregs5 3 (by omega) (by omega), hR4]
  have hS5 : (yarn_getRegister Y5 1 0).2 = M - 72 := by rw [hsp5]; omega
  constructor
  · refine ⟨Y5, ?_, hip5a, hR5, hS5⟩
    have e5 : fuel + 5 = fuel + 4 + 1 := by omega
    have hl : yarn_loop host (fuel + 5) Y 5 = some Y5 := by
      rw [e5, yarn_loop_positive host (fuel + 4) Y Y1 5 (by decide) hYst hstep1,
        yarn_loop_positive host (fuel + 3) Y1 Y2 _ (by decide) hOK1 hstep2,
        yarn_loop_positive host (fuel + 2) Y2 Y3 _ (by decide) hOK2 hstep3,
        yarn_loop_positive host (fuel + 1) Y3 Y4 _ (by decide) hOK3 hstep4,
        yarn_loop_positive host fuel Y4 Y5 _ (by decide) hOK4 hstep5]
      exact yarn_loop_zero host fuel Y5
    unfold yarn_execute
    rw [hl, Option.map_some', hOK5]
  · intro h13
    subst h13
    -- 13: HALT
    obtain ⟨Y6, hstep6, -, hst6, -, hregs6, -⟩ := yarn_step_halt host Y5 13
      (by omega) (by omega) hip5a (by omega) (by omega)
      (by rw [c5, c4, c3, c2, c1, hcode]; rfl)
    refine ⟨Y6, ?_, by rw [hregs6 3 (by omega) (by omega), hR5],
      by rw [hregs6 1 (by omega) (by omega), hS5]⟩
    have e6 : fuel + 6 = fuel + 5 + 1 := by omega
    have hl : yarn_loop host (fuel + 6) Y (-1) = some Y6 := by
      rw [e6, yarn_loop_unbounded host (fuel + 5) Y Y1 hYst hstep1,
        yarn_loop_unbounded host (fuel + 4) Y1 Y2 hOK1 hstep2,
        yarn_loop_unbounded host (fuel + 3) Y2 Y3 hOK2 hstep3,
        yarn_loop_unbounded host (fuel + 2) Y3 Y4 hOK3 hstep4,
        yarn_loop_unbounded host (fuel + 1) Y4 Y5 hOK4 hstep5,
        yarn_loop_unbounded host fuel Y5 Y6 hOK5 hstep6]
      exact yarn_loop_stop host fuel Y6 (-1) (by rw [hst6]; decide)
    unfold yarn_execute
    rw [hl, Option.map_some', hst6]

/-- C17 (amended) at a concrete input: on the machine `yarn_init(1024)` makes
from a zeroed record, with the argument 13 the run returns HALT with
RETURN = 99 and STACK = 952. -/
theorem yarn_call_scenario_witness :
    ∃ Y0 Y6, yarn_init 1024 zeroedRecord = some Y0
      ∧ yarn_execute exampleHost 6 (yarn_loadCode Y0 (callProgram 13)) (-1)
          = some (YARN_STATUS_HALT, Y6)
      ∧ (yarn_getRegister Y6 YARN_REG_RETURN 0).2 = 99
      ∧ (yarn_getRegister Y6 YARN_REG_STACK 0).2 = 952 := by
  obtain ⟨Y0, hY0⟩ := yarn_init_returns 1024 zeroedRecord (fun _ _ => rfl)
  obtain ⟨Y6, h1, h2, h3⟩ := (yarn_call_scenario exampleHost 0 1024 zeroedRecord Y0 13
    (by decide) (by decide) hY0 (by decide)).2 rfl
  exact ⟨Y0, Y6, hY0, h1, h2, h3⟩

/-! ## The syscall table -/

theorem spec_lastRegistered_none (regs : List (Nat × yarn_CFunc)) (key : Nat)
    (h : key ∉ regs.map Prod.fst) : spec_lastRegistered regs key = none := by
  induction regs with
  | nil => rfl
  | cons kf rest ih =>
    obtain ⟨k, f⟩ := kf
    simp only [List.map_cons, List.mem_cons, not_or] at h
    simp only [spec_lastRegistered, ih h.2]
    rw [if_neg (fun e => h.1 e.symm)]

theorem spec_lastRegistered_last (pre post : List (Nat × yarn_CFunc)) (key : Nat)
    (f : yarn_CFunc) (h : key ∉ post.map Prod.fst) :
    spec_lastRegistered (pre ++ (key, f) :: post) key = some f := by
  induction pre with
  | nil =>
    simp only [List.nil_append, spec_lastRegistered, spec_lastRegistered_none post key h,
      if_true]
  | cons kf rest ih =>
    obtain ⟨k, g⟩ := kf
    have e : (k, g) :: rest ++ (key, f) :: post = (k, g) :: (rest ++ (key, f) :: post) := rfl
    rw [e, spec_lastRegistered, ih]

/-- C18: the syscall table behaves as a finite map from key to callback.
Starting from an empty table (all 256 slots with a null callback), after the
calls `yarn_registerSysCall(Y, k, f)` for any sequence `regs` of pairs of a key
and a callback that is not null, using fewer than 256 distinct keys: every
call returns, and then `yarn_getSysCall(Y, key)` returns what the finite map
built from `regs` binds the key to; that is, the callback of the most recent
registration of `key`, and the null pointer for a key never registered. -/
theorem yarn_syscall_finite_map (Y : yarn_state) (regs : List (Nat × yarn_CFunc))
    (hempty : ∀ idx, idx < YARN_MAP_COUNT → (Y.syscalls idx).val = none)
    (hkeys : (regs.map Prod.fst).toFinset.card < YARN_MAP_COUNT) :
    ∃ Y1, yarn_registerAll Y regs = some Y1
      ∧ (∀ key, yarn_getSysCall Y1 key = some (spec_lastRegistered regs key))
      ∧ (∀ pre post key f, regs = pre ++ (key, f) :: post → key ∉ post.map Prod.fst →
          yarn_getSysCall Y1 key = some (some f))
      ∧ (∀ key, key ∉ regs.map Prod.fst → yarn_getSysCall Y1 key = some none) := by
  simp only [YARN_MAP_COUNT] at hempty hkeys
  have hY : yarn_tableChained Y := fun s hs hocc => absurd (hempty s hs) hocc
  obtain ⟨Y1, hall, hlook⟩ := yarn_registerAll_lookup (regs.map Prod.fst).toFinset hkeys regs Y
    hY (fun s hs hocc => absurd (hempty s hs) hocc)
    (fun kf hkf => List.mem_toFinset.mpr (List.mem_map_of_mem Prod.fst hkf))
  have hmap : ∀ key, yarn_getSysCall Y1 key = some (spec_lastRegistered regs key) := by
    intro key
    obtain ⟨r, hr, hr1⟩ := hlook key
    rw [yarn_getSysCall_miss Y key ⟨0, by decide, hempty 0 (by decide)⟩
      (fun s hs hocc => absurd (hempty s hs) hocc)] at hr
    rw [hr1, ← Option.some.inj hr]
    cases spec_lastRegistered regs key <;> rfl
  refine ⟨Y1, hall, hmap, ?_, ?_⟩
  · intro pre post key f hregs hpost
    rw [hmap key, hregs, spec_lastRegistered_last pre post key f hpost]
  · intro key hkey
    rw [hmap key, spec_lastRegistered_none regs key hkey]

/-- C18 at a concrete input: on an empty table, after the registrations of
`host 1` under 7, `host 2` under 263 (whose hash selects the same slot as that
of 7) and `host 3` under 7 again, the look-up of 7 returns `host 3`, that of
263 returns `host 2` and that of 5 the null pointer. -/
theorem yarn_syscall_finite_map_witness :
    ∃ Y1, yarn_registerAll zeroedRecord [(7, .host 1), (263, .host 2), (7, .host 3)] = some Y1
      ∧ yarn_getSysCall Y1 7 = some (some (.host 3))
      ∧ yarn_getSysCall Y1 263 = some (some (.host 2))
      ∧ yarn_getSysCall Y1 5 = some none := by
  obtain ⟨Y1, h1, -, h3, h4⟩ := yarn_syscall_finite_map zeroedRecord
    [(7, .host 1), (263, .host 2), (7, .host 3)] (fun _ _ => rfl) (by decide)
  exact ⟨Y1, h1, h3 [(7, .host 1), (263, .host 2)] [] 7 (.host 3) rfl (by simp),
    h3 [(7, .host 1)] [(7, .host 3)] 263 (.host 2) rfl (by simp), h4 5 (by simp)⟩

/-! ## System calls -/

/-- C19 fails on a fresh machine when the record `malloc` hands out is not
empty: `yarn_init` registers the three built-ins in the table as it finds it
and never clears a slot.  On `staleTableRecord`, where slot 57 still holds an
entry for the id 9, `yarn_init(1024)` returns a machine on which the look-up
of the id 9 finds that entry, and one step of `SYSCALL #9` calls it and ends
with status OK, not INVALIDINSTRUCTION. -/
theorem yarn_syscall_stale_slot :
    ∃ Y0 Y1, yarn_init 1024 staleTableRecord = some Y0
      ∧ yarn_getSysCall Y0 9 = some (some (.host 9))
      ∧ yarn_execute exampleHost 1 (yarn_loadCode Y0 [0x44, 9, 0, 0, 0]) 1
          = some (YARN_STATUS_OK, Y1)
      ∧ (yarn_getRegister Y1 YARN_REG_INSTRUCTION 0).2 = 5 := by
  have h : (yarn_init 1024 staleTableRecord).bind (fun Y0 =>
      (yarn_execute exampleHost 1 (yarn_loadCode Y0 [0x44, 9, 0, 0, 0]) 1).map
        (fun r => (yarn_getSysCall Y0 9, r.1, (yarn_getRegister r.2 YARN_REG_INSTRUCTION 0).2)))
      = some (some (some (.host 9)), YARN_STATUS_OK, 5) := by decide
  obtain ⟨Y0, hY0, hrun⟩ := Option.bind_eq_some.mp h
  obtain ⟨r, hr, hv⟩ := Option.map_eq_some'.mp hrun
  simp only [Prod.mk.injEq] at hv
  obtain ⟨h1, h2, h3⟩ := hv
  exact ⟨Y0, r.2, hY0, h1, by rw [hr, ← h2], h3⟩

/-- C19, where the look-up misses: on a machine of size M with 72 ≤ M < 2^32
and status OK whose INSTRUCTION register points at a SYSCALL instruction lying
wholly inside the code buffer, with a 32-bit id `d` under which no callback is
registered (the look-up returns the null pointer; in particular every id other
than 0, 1 and 2 when only the built-in callbacks are registered, which is what
`yarn_init` leaves when the table of the record `malloc` handed out was
empty): one step ends with status INVALIDINSTRUCTION, INSTRUCTION advanced by
5 and the instruction counter increased by 1, and changes no other register
and no byte of memory outside the INSTRUCTION word and the status byte. -/
theorem yarn_syscall_unregistered (host : yarn_host) (fuel : Nat) (Y : yarn_state)
    (ip d : Nat) (hM1 : 72 ≤ Y.memsize) (hM2 : Y.memsize < 4294967296)
    (hOK : yarn_getStatus Y = YARN_STATUS_OK)
    (hip : (yarn_getRegister Y YARN_REG_INSTRUCTION 0).2 = ip)
    (hfit : ip + 5 ≤ Y.codesize) (hcs : Y.codesize < 4294967296)
    (hop : (Y.code ip).val = YARN_INST_SYSCALL) (hd : readWord Y.code (ip + 1) = d)
    (hmiss : yarn_getSysCall Y d = some none ∨ (yarn_onlyBuiltins Y ∧ 3 ≤ d)) :
    ∃ Y1, yarn_execute host (fuel + 1) Y 1 = some (YARN_STATUS_INVALIDINSTRUCTION, Y1)
      ∧ (yarn_getRegister Y1 YARN_REG_INSTRUCTION 0).2 = ip + 5
      ∧ Y1.instructioncount = Y.instructioncount + 1
      ∧ (∀ r, 1 ≤ r → r ≤ 15 → (yarn_getRegister Y1 r 0).2 = (yarn_getRegister Y r 0).2)
      ∧ (∀ i, i < Y.memsize - 8 ∨ Y.memsize - 4 < i → Y1.memory i = Y.memory i) := by
  simp only [YARN_INST_SYSCALL, YARN_STATUS_OK, YARN_STATUS_INVALIDINSTRUCTION,
    YARN_REG_INSTRUCTION] at *
  have hmiss1 : yarn_getSysCall Y d = some none := by
    rcases hmiss with h | ⟨h1, h2⟩
    · exact h
    · exact yarn_getSysCall_builtins Y h1 d h2
  rw [yarn_getRegister_val Y 0 0 hM1 hM2 (by omega)] at hip
  have hip8 : readWord Y.memory (Y.memsize - 8) = ip := hip
  have hdis := yarn_dispatch_branch host Y ip 0x44 hfit hcs hop (by decide)
  rw [yarn_exec_syscall] at hdis
  simp only [hd, hmiss1] at hdis
  rw [yarn_execute_one host fuel Y hOK, yarn_step_inside host Y ip hM1 hM2 hip8 (by omega), hdis]
  simp only [Option.map_some', YARN_STATUS_INVALIDINSTRUCTION, YARN_REG_INSTRUCTION]
  obtain ⟨h1, h2, h3, h4⟩ := yarn_syscall_miss_spec Y (host.uninit Y.instructioncount)
    ((yarn_incRegister (yarn_setStatus Y 4) 0 5 (host.uninit Y.instructioncount)).instructioncount
      + 1) hM1 hM2
  refine ⟨_, by rw [h1], ?_, ?_, h2, h3⟩
  · rw [h4, hip8]
    omega
  · have e : yarn_rest (yarn_incRegister (yarn_setStatus Y 4) 0 5
        (host.uninit Y.instructioncount)) = yarn_rest Y := by simp
    have := yarn_rest_instructioncount e
    simp only [this]

/-- C19 at a concrete input: on the machine `yarn_init(1024)` makes from a
zeroed record, where only the built-in callbacks are registered, `SYSCALL #9`
ends with status INVALIDINSTRUCTION, INSTRUCTION = 5, one more instruction
counted and STACK still 952. -/
theorem yarn_syscall_unregistered_witness :
    ∃ Y0 Y1, yarn_init 1024 zeroedRecord = some Y0
      ∧ yarn_execute exampleHost 1 (yarn_loadCode Y0 [0x44, 9, 0, 0, 0]) 1
          = some (YARN_STATUS_INVALIDINSTRUCTION, Y1)
      ∧ (yarn_getRegister Y1 YARN_REG_INSTRUCTION 0).2 = 5
      ∧ yarn_getInstructionCount Y1 = yarn_getInstructionCount Y0 + 1
      ∧ (yarn_getRegister Y1 YARN_REG_STACK 0).2 = 952 := by
  obtain ⟨Y0, hY0⟩ := yarn_init_returns 1024 zeroedRecord (fun _ _ => rfl)
  obtain ⟨hsize, -, hst, hr0, hr1, -, -⟩ := yarn_init_registers 1024 zeroedRecord Y0
    (by decide) (by decide) hY0
  have hb : yarn_onlyBuiltins (yarn_loadCode Y0 [0x44, 9, 0, 0, 0]) :=
    yarn_init_onlyBuiltins 1024 zeroedRecord Y0 (fun _ _ => rfl) hY0
  obtain ⟨Y1, h1, h2, h3, h4, -⟩ := yarn_syscall_unregistered exampleHost 0
    (yarn_loadCode Y0 [0x44, 9, 0, 0, 0]) 0 9
    (by rw [show (yarn_loadCode Y0 [0x44, 9, 0, 0, 0]).memsize = Y0.memsize from rfl, hsize]
        decide)
    (by rw [show (yarn_loadCode Y0 [0x44, 9, 0, 0, 0]).memsize = Y0.memsize from rfl, hsize]
        decide)
    (by rw [yarn_getStatus_loadCode, hst]) (by rw [yarn_getRegister_loadCode]; exact hr0)
    (by show 0 + 5 ≤ 5; decide) (by show 5 < 4294967296; decide) rfl rfl
    (Or.inr ⟨hb, by decide⟩)
  refine ⟨Y0, Y1, hY0, h1, h2, h3, ?_⟩
  rw [h4 1 (by decide) (by decide), yarn_getRegister_loadCode]
  exact hr1

/-! ## Creation -/

/-- C20: for every memory size M with 72 ≤ M < 2^32 and whatever record
`malloc` hands out, a state `yarn_init(M)` returns has memory size M, status
OK, flag byte 0, INSTRUCTION = 0, STACK = BASE = M − 72, and every byte of
linear memory outside the eight bytes that back BASE and STACK equal to 0;
and `yarn_init(M)` does return a state when the table of the record starts
empty. -/
theorem yarn_init_state (M : Nat) (raw : yarn_state) (hM1 : 72 ≤ M) (hM2 : M < 4294967296) :
    (∀ Y, yarn_init M raw = some Y →
      yarn_getMemorySize Y = M
        ∧ yarn_getStatus Y = YARN_STATUS_OK
        ∧ Y.memory (flagLocation M) = 0
        ∧ (yarn_getRegister Y YARN_REG_INSTRUCTION 0).2 = 0
        ∧ (yarn_getRegister Y YARN_REG_STACK 0).2 = M - 72
        ∧ (yarn_getRegister Y YARN_REG_BASE 0).2 = M - 72
        ∧ ∀ i, i < M →
            i < registerLocation M YARN_REG_BASE ∨ registerLocation M YARN_REG_STACK + 4 ≤ i →
            Y.memory i = 0)
    ∧ ((∀ idx, idx < YARN_MAP_COUNT → (raw.syscalls idx).val = none) →
        ∃ Y, yarn_init M raw = some Y) := by
  refine ⟨?_, fun hraw => yarn_init_returns M raw hraw⟩
  intro Y hY
  obtain ⟨hsize, hstack, hbase, hzero⟩ := yarn_init_memory M raw Y hM1 hM2 hY
  have hY1 : 72 ≤ Y.memsize := by omega
  have hY2 : Y.memsize < 4294967296 := by omega
  simp only [YARN_REG_INSTRUCTION, YARN_REG_STACK, YARN_REG_BASE, YARN_STATUS_OK]
  rw [registerLocation_eq M 2 (by omega) hM2, registerLocation_eq M 1 (by omega) hM2,
    flagLocation_eq M (by omega) hM2]
  refine ⟨hsize, ?_, hzero _ (by omega), ?_, ?_, ?_, ?_⟩
  · rw [yarn_getStatus_eq Y (by omega) hY2, hsize, hzero _ (by omega)]
    rfl
  · rw [yarn_getRegister_val Y 0 0 hY1 hY2 (by omega), hsize]
    exact readWord_zero _ _ (fun i h1 h2 => hzero i (by omega))
  · rw [yarn_getRegister_val Y 1 0 hY1 hY2 (by omega), hsize]
    exact hstack
  · rw [yarn_getRegister_val Y 2 0 hY1 hY2 (by omega), hsize]
    exact hbase
  · intro i _ hi
    exact hzero i (by omega)

/-- C20 at a concrete input: `yarn_init(1024)` on a zeroed record returns a
state with status OK and STACK = BASE = 952. -/
theorem yarn_init_state_witness :
    ∃ Y, yarn_init 1024 zeroedRecord = some Y ∧ yarn_getStatus Y = YARN_STATUS_OK
      ∧ (yarn_getRegister Y YARN_REG_STACK 0).2 = 952
      ∧ (yarn_getRegister Y YARN_REG_BASE 0).2 = 952 := by
  have h := yarn_init_state 1024 zeroedRecord (by decide) (by decide)
  obtain ⟨Y, hY⟩ := h.2 (fun _ _ => rfl)
  obtain ⟨-, h2, -, -, h5, h6, -⟩ := h.1 Y hY
  exact ⟨Y, hY, h2, h5, h6⟩

/-! ## A call and the return from it -/

/-- C21: on a machine of size M < 2^32 with status OK and STACK = s,
4 ≤ s ≤ M − 72, whose code buffer (of less than 2^32 bytes) holds the five
bytes of `CALL #d` at INSTRUCTION = ip and the five bytes of `RET #0` at `d`,
two passes of `yarn_execute` (a call with `icount` 2) leave INSTRUCTION =
ip + 5, STACK = s, every other register as it was and the status OK: the first
pass stores ip + 5 at `s − 4` and jumps to `d`, the second pops that word into
INSTRUCTION.  Two instructions are counted, and linear memory is as before
outside the stack word `[s − 4, s)` and the slots of INSTRUCTION and STACK. -/
theorem yarn_call_ret (host : yarn_host) (Y : yarn_state) (ip d s : Nat)
    (hM2 : Y.memsize < 4294967296) (hcs : Y.codesize < 4294967296)
    (hOK : yarn_getStatus Y = YARN_STATUS_OK)
    (hstk : (yarn_getRegister Y YARN_REG_STACK 0).2 = s) (h4 : 4 ≤ s)
    (hle : s ≤ Y.memsize - 72)
    (hip : (yarn_getRegister Y YARN_REG_INSTRUCTION 0).2 = ip)
    (hcall : ip + 5 ≤ Y.codesize) (hopc : (Y.code ip).val = YARN_INST_CALL)
    (hd : readWord Y.code (ip + 1) = d)
    (hret : d + 5 ≤ Y.codesize) (hopr : (Y.code d).val = YARN_INST_RET)
    (hzero : readWord Y.code (d + 1) = 0) :
    ∃ Y1 Y2, yarn_step host Y = some (Y1, true) ∧ yarn_step host Y1 = some (Y2, true)
      ∧ (∀ fuel, yarn_execute host (fuel + 2) Y 2 = some (YARN_STATUS_OK, Y2))
      ∧ (yarn_getRegister Y1 YARN_REG_INSTRUCTION 0).2 = d
      ∧ (yarn_getRegister Y1 YARN_REG_STACK 0).2 = s - 4
      ∧ readWord Y1.memory (s - 4) = ip + 5
      ∧ yarn_getStatus Y1 = YARN_STATUS_OK
      ∧ (yarn_getRegister Y2 YARN_REG_INSTRUCTION 0).2 = ip + 5
      ∧ (yarn_getRegister Y2 YARN_REG_STACK 0).2 = s
      ∧ (∀ r, 2 ≤ r → r ≤ 15 → (yarn_getRegister Y2 r 0).2 = (yarn_getRegister Y r 0).2)
      ∧ yarn_getStatus Y2 = YARN_STATUS_OK
      ∧ yarn_getInstructionCount Y2 = yarn_getInstructionCount Y + 2
      ∧ (∀ i, i < s - 4 ∨ s ≤ i → i < Y.memsize - 12 ∨ Y.memsize - 4 ≤ i →
          Y2.memory i = Y.memory i) := by
  simp only [YARN_REG_STACK, YARN_REG_INSTRUCTION, YARN_STATUS_OK, YARN_INST_CALL,
    YARN_INST_RET] at *
  have hM1 : 72 ≤ Y.memsize := by omega
  obtain ⟨Y1, hstep1, hrest1, hst1, hip1, hstk1, hregs1, hword1, hmem1⟩ :=
    yarn_step_call host Y ip d s hM1 hM2 hip hcall hcs hopc hd hstk h4 (by omega)
  have hsize1 : Y1.memsize = Y.memsize := by
    have := yarn_rest_memsize hrest1
    exact this
  have hcode1 : Y1.code = Y.code := by
    have := yarn_rest_code hrest1
    exact this
  have hcs1 : Y1.codesize = Y.codesize := by
    have := yarn_rest_codesize hrest1
    exact this
  have hcnt1 : Y1.instructioncount = Y.instructioncount + 1 := by
    have := yarn_rest_instructioncount hrest1
    exact this
  obtain ⟨Y2, hstep2, hrest2, hst2, hip2, hstk2, hregs2, hmem2⟩ :=
    yarn_step_ret host Y1 d 0 (s - 4) (by omega) (by omega) hip1 (by omega) (by omega)
      (by rw [hcode1]; exact hopr) (by rw [hcode1]; exact hzero) hstk1 (by omega)
  have hcnt2 : Y2.instructioncount = Y1.instructioncount + 1 := by
    have := yarn_rest_instructioncount hrest2
    exact this
  have hOK1 : yarn_getStatus Y1 = 0 := by rw [hst1, hOK]
  have hOK2 : yarn_getStatus Y2 = 0 := by rw [hst2, hOK1]
  refine ⟨Y1, Y2, hstep1, hstep2, ?_, hip1, hstk1, hword1, hOK1, ?_, ?_, ?_, hOK2, ?_, ?_⟩
  · intro fuel
    have e2 : (2 : Int) = ((1 : Nat) : Int) + 1 := rfl
    have e1 : (((1 : Nat) : Int)) = ((0 : Nat) : Int) + 1 := rfl
    unfold yarn_execute
    rw [e2, yarn_loop_counted host (fuel + 1) Y Y1 1 hOK hstep1, e1,
      yarn_loop_counted host fuel Y1 Y2 0 hOK1 hstep2]
    have e0 : (((0 : Nat) : Int)) = 0 := rfl
    rw [e0, yarn_loop_zero, Option.map_some', hOK2]
  · rw [hip2, Nat.mul_zero, Nat.add_zero, hword1]
  · rw [hstk2]; omega
  · intro r hr2 hr15
    rw [hregs2 r hr2 hr15, hregs1 r hr2 hr15]
  · unfold yarn_getInstructionCount
    rw [hcnt2, hcnt1]
  · intro i hi1 hi2
    rw [hmem2 i (by omega), hmem1 i hi1 hi2]

/-- C21 at a concrete input: on `callRetVM` (`CALL #5` at 0, `RET #0` at 5,
STACK = 952 on a machine of 1024 bytes) two passes leave INSTRUCTION = 5,
STACK = 952 and the status OK. -/
theorem yarn_call_ret_witness :
    ∃ Y2, yarn_execute exampleHost 2 callRetVM 2 = some (YARN_STATUS_OK, Y2)
      ∧ (yarn_getRegister Y2 YARN_REG_INSTRUCTION 0).2 = 5
      ∧ (yarn_getRegister Y2 YARN_REG_STACK 0).2 = 952
      ∧ (yarn_getRegister Y2 YARN_REG_C1 0).2 = 10 := by
  obtain ⟨Y1, Y2, -, -, hrun, -, -, -, -, hip, hstk, hregs, -⟩ :=
    yarn_call_ret exampleHost callRetVM 0 5 952 (by decide) (by decide) (by decide)
      (by decide) (by decide) (by decide) (by decide) (by decide) (by decide) (by decide)
      (by decide) (by decide) (by decide)
  exact ⟨Y2, hrun 0, hip, hstk, by rw [hregs 4 (by decide) (by decide)]; decide⟩

/-! ## The first push -/

/-- C22 fails: on the machine of 1024 bytes `yarn_init` makes from a zeroed
record, the slot of register 15 starts at R = 956 and STACK starts at 952;
the first `yarn_push(0x01020304)` stores its word at offsets 948..951, not at
`[R - 4, R)` = 952..955: the four bytes 952..955 stay zero, unused between
the first stack word and the register block. -/
theorem yarn_first_push_leaves_gap :
    ∃ Y, yarn_init 1024 zeroedRecord = some Y
      ∧ registerLocation Y.memsize YARN_REG_NULL = 956
      ∧ (yarn_getRegister Y YARN_REG_STACK 0).2 = 952
      ∧ readWord (yarn_push Y 0x01020304 0).memory (registerLocation Y.memsize YARN_REG_NULL - 4)
          ≠ 0x01020304
      ∧ readWord (yarn_push Y 0x01020304 0).memory 952 = 0
      ∧ readWord (yarn_push Y 0x01020304 0).memory 948 = 0x01020304
      ∧ (yarn_getRegister (yarn_push Y 0x01020304 0) YARN_REG_STACK 0).2 = 948 := by
  have h : (yarn_init 1024 zeroedRecord).map (fun Y =>
      (registerLocation Y.memsize YARN_REG_NULL, (yarn_getRegister Y YARN_REG_STACK 0).2,
        readWord (yarn_push Y 0x01020304 0).memory (registerLocation Y.memsize YARN_REG_NULL - 4),
        readWord (yarn_push Y 0x01020304 0).memory 952,
        readWord (yarn_push Y 0x01020304 0).memory 948,
        (yarn_getRegister (yarn_push Y 0x01020304 0) YARN_REG_STACK 0).2))
      = some (956, 952, 0, 0, 0x01020304, 948) := by decide
  obtain ⟨Y, hY, hv⟩ := Option.map_eq_some'.mp h
  simp only [Prod.mk.injEq] at hv
  obtain ⟨h1, h2, h3, h4, h5, h6⟩ := hv
  exact ⟨Y, hY, h1, h2, by rw [h3]; decide, h4, h5, h6⟩

/-- C22, amended: on the machine `yarn_init(M)` returns (76 ≤ M < 2^32) the
register block starts at R = M − 68, the slot of register 15, and STACK starts
at M − 72 = R − 4.  The first `yarn_push(v)` lowers STACK to M − 76 and stores
the word `v` at offsets `[M − 76, M − 72)` = `[R − 8, R − 4)`; the status stays
OK, every other byte outside the slot of STACK keeps its value, and the four
bytes `[M − 72, M − 68)` = `[R − 4, R)` between the first stack word and the
register block stay zero, unused. -/
theorem yarn_first_push (M : Nat) (raw Y : yarn_state) (v u : Nat)
    (hM1 : 76 ≤ M) (hM2 : M < 4294967296) (hinit : yarn_init M raw = some Y) :
    registerLocation M YARN_REG_NULL = M - 68
    ∧ (yarn_getRegister Y YARN_REG_STACK 0).2 = M - 72
    ∧ (yarn_getRegister (yarn_push Y v u) YARN_REG_STACK 0).2 = M - 76
    ∧ readWord (yarn_push Y v u).memory (M - 76) = v % 4294967296
    ∧ yarn_getStatus (yarn_push Y v u) = YARN_STATUS_OK
    ∧ (∀ i, i < M - 76 ∨ M - 72 ≤ i →
        i < registerLocation M YARN_REG_STACK ∨ registerLocation M YARN_REG_STACK + 4 ≤ i →
        (yarn_push Y v u).memory i = Y.memory i)
    ∧ (∀ i, M - 72 ≤ i → i < M - 68 → (yarn_push Y v u).memory i = 0) := by
  simp only [YARN_REG_NULL, YARN_REG_STACK, YARN_STATUS_OK]
  obtain ⟨hsize, -, hst, -, hstk, -, -⟩ := yarn_init_registers M raw Y (by omega) hM2 hinit
  obtain ⟨-, -, -, hzero⟩ := yarn_init_memory M raw Y (by omega) hM2 hinit
  have hY1 : 72 ≤ Y.memsize := by omega
  have hY2 : Y.memsize < 4294967296 := by omega
  obtain ⟨p1, p2, -, p4, p5⟩ := yarn_push_spec Y v u (M - 72) hY1 hY2 hstk (by omega)
    (by omega)
  have e76 : M - 72 - 4 = M - 76 := by omega
  rw [e76] at p2 p4 p5
  rw [registerLocation_eq M 15 (by omega) hM2, registerLocation_eq M 1 (by omega) hM2]
  refine ⟨rfl, hstk, p2, p4, by rw [p1, hst], ?_, ?_⟩
  · intro i hi1 hi2
    exact p5 i hi1 (by omega)
  · intro i hi1 hi2
    rw [p5 i (by omega) (by omega)]
    exact hzero i (by omega)

/-- C22 (amended) at a concrete input: on the machine `yarn_init(1024)` makes
from a zeroed record the first push of `0x01020304` stores the word at offset
948 and leaves STACK = 948. -/
theorem yarn_first_push_witness :
    ∃ Y, yarn_init 1024 zeroedRecord = some Y
      ∧ readWord (yarn_push Y 0x01020304 0).memory 948 = 0x01020304
      ∧ (yarn_getRegister (yarn_push Y 0x01020304 0) YARN_REG_STACK 0).2 = 948
      ∧ ∀ i, 952 ≤ i → i < 956 → (yarn_push Y 0x01020304 0).memory i = 0 := by
  obtain ⟨Y, hY⟩ := yarn_init_returns 1024 zeroedRecord (fun _ _ => rfl)
  have h := yarn_first_push 1024 zeroedRecord Y 0x01020304 0 (by decide) (by decide) hY
  exact ⟨Y, hY, h.2.2.2.1, h.2.2.1, h.2.2.2.2.2.2⟩

/-! ## Termination of the probe loops -/

theorem yarn_registerSysCall_probe_full (Y : yarn_state) (key : Nat) (g : Option yarn_CFunc)
    (h : ∀ idx, idx < 256 → (Y.syscalls idx).val ≠ none ∧ (Y.syscalls idx).key ≠ key)
    (fuel : Nat) : ∀ n, yarn_registerSysCall_probe Y key g fuel n = none := by
  induction fuel with
  | zero => intro n; rfl
  | succ f ih =>
    intro n
    unfold yarn_registerSysCall_probe
    simp only [YARN_MAP_MASK, YARN_MAP_COUNT]
    have hidx : n &&& (256 - 1) = n % 256 := Nat.and_pow_two_sub_one_eq_mod n 8
    rw [hidx]
    obtain ⟨h1, h2⟩ := h (n % 256) (by omega)
    rw [if_neg (by tauto)]
    exact ih _

/-- When some slot is empty or holds `key`, both probe loops started at `n`
leave within 256 probes: there is a number `k ≤ 256` of probes after which
each has returned. -/
theorem yarn_probes_leave (Y : yarn_state) (key : Nat) (g : Option yarn_CFunc) (n : Nat)
    (h : ∃ idx, idx < 256 ∧ ((Y.syscalls idx).val = none ∨ (Y.syscalls idx).key = key)) :
    ∃ k, k ≤ 256
      ∧ (∃ r, ∀ fuel, k ≤ fuel → yarn_getSysCall_probe Y key fuel n = some r)
      ∧ ∃ Y1, ∀ fuel, k ≤ fuel → yarn_registerSysCall_probe Y key g fuel n = some Y1 := by
  obtain ⟨j, hj, hbefore, hat⟩ := yarn_probe_first Y key n h
  exact ⟨j + 1, by omega,
    ⟨_, fun fuel hf => yarn_getSysCall_probe_at Y key j fuel n (by omega) hbefore hat⟩,
    ⟨_, fun fuel hf => yarn_registerSysCall_probe_at Y key g j fuel n (by omega) hbefore hat⟩⟩

/-- C23: the probe loops of the syscall table.  On a table with an empty slot
(a null callback), `yarn_getSysCall(key)` and `yarn_registerSysCall(key, fn)`
have returned after some number `k ≤ 256` of probes, for every key and
callback; `yarn_registerSysCall(key, fn)` has also returned after at most 256
probes whenever some slot holds `key`; on a table where every slot is occupied
and none holds `key`, both loops are still running after `n` probes, for every
`n`. -/
theorem yarn_syscall_probes_terminate (Y : yarn_state) (key : Nat) (g : Option yarn_CFunc) :
    (yarn_hasEmptySlot Y →
      (∃ k r, k ≤ YARN_MAP_COUNT
        ∧ ∀ fuel, k ≤ fuel → yarn_getSysCall_probe Y key fuel (hash_uint key) = some r)
      ∧ (∃ k Y1, k ≤ YARN_MAP_COUNT
        ∧ ∀ fuel, k ≤ fuel →
            yarn_registerSysCall_probe Y key g fuel (hash_uint key) = some Y1)
      ∧ (∃ r, yarn_getSysCall Y key = some r)
      ∧ ∃ Y1, yarn_registerSysCall Y key g = some Y1)
    ∧ ((∃ idx, idx < YARN_MAP_COUNT ∧ (Y.syscalls idx).key = key) →
      (∃ k Y1, k ≤ YARN_MAP_COUNT
        ∧ ∀ fuel, k ≤ fuel →
            yarn_registerSysCall_probe Y key g fuel (hash_uint key) = some Y1)
      ∧ ∃ Y1, yarn_registerSysCall Y key g = some Y1)
    ∧ ((∀ idx, idx < YARN_MAP_COUNT →
          (Y.syscalls idx).val ≠ none ∧ (Y.syscalls idx).key ≠ key) →
      ∀ n, yarn_getSysCall_probe Y key n (hash_uint key) = none
        ∧ yarn_registerSysCall_probe Y key g n (hash_uint key) = none) := by
  refine ⟨?_, ?_, ?_⟩
  · rintro ⟨idx, hidx, hnone⟩
    obtain ⟨k, hk, ⟨r, hr⟩, ⟨Y1, hY1⟩⟩ :=
      yarn_probes_leave Y key g (hash_uint key) ⟨idx, hidx, Or.inl hnone⟩
    exact ⟨⟨k, r, hk, hr⟩, ⟨k, Y1, hk, hY1⟩, ⟨r, hr _ hk⟩, ⟨Y1, hY1 _ hk⟩⟩
  · rintro ⟨idx, hidx, hkey⟩
    obtain ⟨k, hk, -, ⟨Y1, hY1⟩⟩ :=
      yarn_probes_leave Y key g (hash_uint key) ⟨idx, hidx, Or.inr hkey⟩
    exact ⟨⟨k, Y1, hk, hY1⟩, ⟨Y1, hY1 _ hk⟩⟩
  · intro hfull n
    exact ⟨yarn_getSysCall_probe_full Y key hfull n _,
      yarn_registerSysCall_probe_full Y key g hfull n _⟩

/-- C23 at concrete inputs: on `exampleVM`, whose table holds the three
built-ins, the look-up of the id 9 returns and the registration of the id 1,
which the table holds, returns; on `fullTableVM`, whose 256 slots hold the ids
0 to 255, the look-up and the registration of the id 256 are still running
after 100000 probes. -/
theorem yarn_syscall_probes_terminate_witness :
    (∃ r, yarn_getSysCall exampleVM 9 = some r)
    ∧ (∃ Y1, yarn_registerSysCall exampleVM 1 (some (.host 7)) = some Y1)
    ∧ yarn_getSysCall_probe fullTableVM 256 100000 (hash_uint 256) = none
    ∧ yarn_registerSysCall_probe fullTableVM 256 (some (.host 7)) 100000 (hash_uint 256)
        = none := by
  have hfull : ∀ idx, idx < YARN_MAP_COUNT →
      (fullTableVM.syscalls idx).val ≠ none ∧ (fullTableVM.syscalls idx).key ≠ 256 := by
    intro idx _
    simp only [fullTableVM]
    refine ⟨by simp, ?_⟩
    omega
  exact ⟨((yarn_syscall_probes_terminate exampleVM 9 none).1 ⟨1, by decide, rfl⟩).2.2.1,
    ((yarn_syscall_probes_terminate exampleVM 1 (some (.host 7))).2.1
      ⟨177, by decide, rfl⟩).2,
    ((yarn_syscall_probes_terminate fullTableVM 256 none).2.2 hfull 100000).1,
    ((yarn_syscall_probes_terminate fullTableVM 256 (some (.host 7))).2.2 hfull 100000).2⟩

/-! ## Register writes and their frame -/

/-- C24: on a machine of size M with 72 ≤ M < 2^32, for every register `r` in
0..15 and every value `v`, `yarn_setRegister(r, v)` changes only the four
bytes at offsets `[M - (r + 2) * 4, M - (r + 2) * 4 + 4)`, which then hold the
low 32 bits of `v`: the fields of the record other than linear memory, every
other register, the flag byte at `M - 3` (so every flag), the status byte at
`M - 4` (so the status) and every byte below `M - 68` keep their values.  The
sixteen register slots lie in `[M - 68, M - 4)`, any two of them are disjoint,
and the status byte and the flag byte lie above them, inside the memory. -/
theorem yarn_setRegister_framed (Y : yarn_state) (r v : Nat)
    (hM1 : 72 ≤ Y.memsize) (hM2 : Y.memsize < 4294967296) (hr : r ≤ 15) :
    yarn_rest (yarn_setRegister Y r v) = yarn_rest Y
    ∧ (∀ i, i < Y.memsize - (r + 2) * 4 ∨ Y.memsize - (r + 2) * 4 + 4 ≤ i →
        (yarn_setRegister Y r v).memory i = Y.memory i)
    ∧ readWord (yarn_setRegister Y r v).memory (Y.memsize - (r + 2) * 4) = v % 4294967296
    ∧ (∀ q u, q ≤ 15 → q ≠ r →
        (yarn_getRegister (yarn_setRegister Y r v) q u).2 = (yarn_getRegister Y q u).2)
    ∧ (yarn_setRegister Y r v).memory (Y.memsize - 3) = Y.memory (Y.memsize - 3)
    ∧ (∀ flag, yarn_getFlag (yarn_setRegister Y r v) flag = yarn_getFlag Y flag)
    ∧ (yarn_setRegister Y r v).memory (Y.memsize - 4) = Y.memory (Y.memsize - 4)
    ∧ yarn_getStatus (yarn_setRegister Y r v) = yarn_getStatus Y
    ∧ (∀ i, i < Y.memsize - 68 → (yarn_setRegister Y r v).memory i = Y.memory i)
    ∧ (∀ q, q ≤ 15 →
        registerLocation Y.memsize q = Y.memsize - (q + 2) * 4
        ∧ Y.memsize - 68 ≤ registerLocation Y.memsize q
        ∧ registerLocation Y.memsize q + 4 ≤ statusLocation Y.memsize)
    ∧ (∀ q q', q ≤ 15 → q' ≤ 15 → q ≠ q' →
        registerLocation Y.memsize q + 4 ≤ registerLocation Y.memsize q'
        ∨ registerLocation Y.memsize q' + 4 ≤ registerLocation Y.memsize q)
    ∧ statusLocation Y.memsize = Y.memsize - 4
    ∧ flagLocation Y.memsize = Y.memsize - 3
    ∧ statusLocation Y.memsize < flagLocation Y.memsize
    ∧ flagLocation Y.memsize < Y.memsize := by
  have hmem : ∀ i, i < Y.memsize - (r + 2) * 4 ∨ Y.memsize - (r + 2) * 4 + 4 ≤ i →
      (yarn_setRegister Y r v).memory i = Y.memory i :=
    fun i hi => yarn_setRegister_memory Y r v i hM1 hM2 hr hi
  have hS1 : 72 ≤ (yarn_setRegister Y r v).memsize := by
    rw [yarn_setRegister_memsize]; exact hM1
  have hS2 : (yarn_setRegister Y r v).memsize < 4294967296 := by
    rw [yarn_setRegister_memsize]; exact hM2
  have hloc : ∀ q, q ≤ 15 → registerLocation Y.memsize q = Y.memsize - (q + 2) * 4 :=
    fun q hq => registerLocation_eq Y.memsize q (by omega) hM2
  have hst := statusLocation_eq Y.memsize (by omega) hM2
  have hfl := flagLocation_eq Y.memsize (by omega) hM2
  refine ⟨yarn_setRegister_rest Y r v, hmem, ?_, ?_, hmem _ (by omega), ?_, hmem _ (by omega),
    yarn_getStatus_setRegister Y r v hM1 hM2 hr, fun i hi => hmem i (by omega), ?_, ?_,
    hst, hfl, by omega, by omega⟩
  · rw [yarn_setRegister_eq Y r v (by omega) hM2]
    exact readWord_memcpy_to_same _ _ _
  · intro q u hq hne
    rw [yarn_getRegister_val _ q u hS1 hS2 hq, yarn_getRegister_val Y q u hM1 hM2 hq,
      yarn_setRegister_memsize]
    exact readWord_congr _ _ _ (fun i h1 h2 => hmem i (by omega))
  · intro flag
    unfold yarn_getFlag
    rw [yarn_setRegister_memsize, hfl, hmem _ (by omega)]
  · intro q hq
    rw [hloc q hq, hst]
    omega
  · intro q q' hq hq' hne
    rw [hloc q hq, hloc q' hq']
    omega

/-- C24 at a concrete input: writing `0x01020304` to C1 (register 4) of
`exampleVM` leaves C2, the status, the conditional flag and the byte at offset
100 as they were. -/
theorem yarn_setRegister_framed_witness :
    (yarn_getRegister (yarn_setRegister exampleVM 4 16909060) 5 0).2
        = (yarn_getRegister exampleVM 5 0).2
    ∧ yarn_getStatus (yarn_setRegister exampleVM 4 16909060) = yarn_getStatus exampleVM
    ∧ yarn_getFlag (yarn_setRegister exampleVM 4 16909060) YARN_FLAG_CONDITIONAL
        = yarn_getFlag exampleVM YARN_FLAG_CONDITIONAL
    ∧ (yarn_setRegister exampleVM 4 16909060).memory 100 = exampleVM.memory 100
    ∧ readWord (yarn_setRegister exampleVM 4 16909060).memory 1000 = 16909060 := by
  have h := yarn_setRegister_framed exampleVM 4 16909060 (by decide) (by decide) (by decide)
  exact ⟨h.2.2.2.1 5 0 (by decide) (by decide), h.2.2.2.2.2.2.2.1, h.2.2.2.2.2.1 _,
    h.2.2.2.2.2.2.2.2.1 100 (by decide), h.2.2.1⟩

/-! ## Counting the passes -/

/-! ### Passes that never end -/

theorem codeByte_lt (Y : yarn_state) (ip k : Nat) : codeByte Y ip k < 256 := by
  unfold codeByte
  exact (Y.code _).isLt

/-- In bounds the operands `arithinst_setup` decodes do not depend on what the
locals held before. -/
theorem arithinst_setup_uninit (Y : yarn_state) (ip u : Nat) (hM1 : 72 ≤ Y.memsize)
    (hM2 : Y.memsize < 4294967296) : arithinst_setup Y ip u = arithinst_setup Y ip 0 := by
  obtain ⟨hn1, hn2⟩ := yarn_nibbles _ (codeByte_lt Y ip 1)
  have hlt := codeByte_lt Y ip 1
  have hA : (codeByte Y ip 1 &&& 0xF0) >>> 4 ≤ 15 := by rw [hn1]; omega
  have hB : codeByte Y ip 1 &&& 0x0F ≤ 15 := by rw [hn2]; omega
  unfold arithinst_setup
  simp only []
  rw [yarn_getRegister_eq Y _ u (by omega) hM2, yarn_getRegister_eq Y _ 0 (by omega) hM2]
  simp only []
  rw [yarn_getRegister_eq Y _ u (by omega) hM2, yarn_getRegister_eq Y _ 0 (by omega) hM2]

/-- The cases of the `switch` that never end. -/
theorem yarn_exec_none (host : yarn_host) (Y : yarn_state) (ip u : Nat) (o : yarn_operands)
    (op : Nat) (h : yarn_exec host Y ip u o op = none) :
    (op = 0x14 ∧ toInt o.valB = -2147483648 ∧ toInt o.valA = -1)
    ∨ (op = 0x44 ∧ (yarn_getSysCall Y o.d = none
        ∨ ∃ id, yarn_getSysCall Y o.d = some (some (.host id)) ∧ host.call id Y = none)) := by
  unfold yarn_exec at h
  split at h
  case h_7 | h_25 =>
    split_ifs at h
  case h_8 =>
    split_ifs at h with h1 h2
    exact Or.inl ⟨rfl, h2⟩
  case h_26 =>
    right
    refine ⟨rfl, ?_⟩
    split at h
    · rename_i hl
      exact Or.inl hl
    · cases h
    · rename_i f hf
      split at h
      · rename_i hc
        cases f with
        | host id => exact Or.inr ⟨id, hf, hc⟩
        | _ => cases hc
      · cases h
  all_goals cases h

theorem yarn_setup_divs (Y : yarn_state) (ip u : Nat) :
    yarn_setup Y ip u 0x14 = arithinst_setup Y ip u := by
  unfold yarn_setup
  rw [if_pos (by decide)]

/-- The pass on a DIVS of `INT_MIN` by `-1` never ends. -/
theorem yarn_step_overflow (host : yarn_host) (Y : yarn_state) (hM1 : 72 ≤ Y.memsize)
    (hM2 : Y.memsize < 4294967296) (h : yarn_divsOverflow Y) : yarn_step host Y = none := by
  unfold yarn_divsOverflow at h
  simp only [YARN_REG_INSTRUCTION, YARN_INST_DIVS] at h
  rw [yarn_getRegister_val Y 0 0 hM1 hM2 (by omega)] at h
  obtain ⟨hv, hop, hm⟩ := h
  have e8 : Y.memsize - (0 + 2) * 4 = Y.memsize - 8 := rfl
  rw [e8] at hv hop hm
  rw [yarn_step_eq host Y hM1 hM2, if_pos hv]
  have hdis : yarn_dispatch host Y (readWord Y.memory (Y.memsize - 8)) = none := by
    unfold yarn_dispatch
    simp only [hop]
    rw [yarn_setup_divs, arithinst_setup_uninit Y _ _ hM1 hM2]
    cases hs : arithinst_setup Y (readWord Y.memory (Y.memsize - 8)) 0 with
    | none => rw [hs] at hm; exact absurd hm (by simp)
    | some r =>
      obtain ⟨Y1, o⟩ := r
      rw [hs] at hm
      simp only [] at hm
      simp only []
      rw [yarn_exec_divs, if_neg (by rw [hm.2]; decide), if_pos hm]
  rw [hdis]

/-- The pass on a SYSCALL whose instruction lies inside the code buffer: what
the look-up finds decides how the pass ends. -/
theorem yarn_step_syscall (host : yarn_host) (Y : yarn_state) (hM1 : 72 ≤ Y.memsize)
    (hM2 : Y.memsize < 4294967296) (r : Option (Option yarn_CFunc))
    (h : yarn_syscallAt Y r) :
    yarn_step host Y
      = match r with
        | none => none
        | some none =>
          some ({ yarn_incRegister (yarn_setStatus Y YARN_STATUS_INVALIDINSTRUCTION)
                    YARN_REG_INSTRUCTION 5 (host.uninit Y.instructioncount) with
                  instructioncount := Y.instructioncount + 1 }, true)
        | some (some f) =>
          (yarn_callSysCall host Y f).map fun Y1 =>
            ({ yarn_incRegister Y1 YARN_REG_INSTRUCTION 5 (host.uninit Y.instructioncount) with
               instructioncount := Y1.instructioncount + 1 }, true) := by
  unfold yarn_syscallAt at h
  simp only [YARN_REG_INSTRUCTION, YARN_INST_SYSCALL] at h
  rw [yarn_getRegister_val Y 0 0 hM1 hM2 (by omega)] at h
  obtain ⟨hv, hop, hv4, hlook⟩ := h
  have e8 : Y.memsize - (0 + 2) * 4 = Y.memsize - 8 := rfl
  rw [e8] at hv hop hv4 hlook
  rw [yarn_step_eq host Y hM1 hM2, if_pos hv]
  have hsetup : yarn_setup Y (readWord Y.memory (Y.memsize - 8))
      (host.uninit Y.instructioncount) 0x44
      = some (Y, ⟨host.uninit Y.instructioncount, host.uninit Y.instructioncount,
          codeWord Y (readWord Y.memory (Y.memsize - 8)) 1, host.uninit Y.instructioncount,
          host.uninit Y.instructioncount⟩) := by
    unfold yarn_setup
    rw [if_neg (by decide), if_neg (by decide), if_neg (by decide), if_pos (by decide)]
    unfold branchinst_setup
    rw [if_pos hv4]
  have hdis : yarn_dispatch host Y (readWord Y.memory (Y.memsize - 8))
      = yarn_exec host Y (readWord Y.memory (Y.memsize - 8)) (host.uninit Y.instructioncount)
          ⟨host.uninit Y.instructioncount, host.uninit Y.instructioncount,
            codeWord Y (readWord Y.memory (Y.memsize - 8)) 1, host.uninit Y.instructioncount,
            host.uninit Y.instructioncount⟩ 0x44 := by
    unfold yarn_dispatch
    simp only [hop, hsetup]
  rw [hdis, yarn_exec_syscall]
  simp only [hlook]
  cases r with
  | none => rfl
  | some r1 =>
    cases r1 with
    | none =>
      simp only [YARN_REG_INSTRUCTION, YARN_STATUS_INVALIDINSTRUCTION]
      have e : (yarn_incRegister (yarn_setStatus Y 4) 0 5
          (host.uninit Y.instructioncount)).instructioncount = Y.instructioncount :=
        yarn_rest_instructioncount (by simp)
      rw [e]
    | some f =>
      simp only [YARN_REG_INSTRUCTION]
      cases hc : yarn_callSysCall host Y f with
      | none => rfl
      | some Y1 =>
        have e : (yarn_incRegister Y1 0 5
            (host.uninit Y.instructioncount)).instructioncount = Y1.instructioncount :=
          yarn_rest_instructioncount (by simp)
        simp only [Option.map_some', e]

/-! ### Passes that end -/

/-- A pass that is neither a DIVS of `INT_MIN` by `-1`, nor a SYSCALL whose
look-up never returns, nor a SYSCALL that finds a function of the host, ends:
it counts one dispatch unless it leaves the loop through
`yarn_validInstruction(0)`, and then the status is INVALIDINSTRUCTION; the
fields other than linear memory and the counter stay as they were. -/
theorem yarn_step_returns (host : yarn_host) (Y : yarn_state) (hM1 : 72 ≤ Y.memsize)
    (hM2 : Y.memsize < 4294967296) (hdiv : ¬ yarn_divsOverflow Y)
    (hlook : ¬ yarn_syscallAt Y none)
    (hhost : ∀ id, ¬ yarn_syscallAt Y (some (some (.host id)))) :
    ∃ Y1 b, yarn_step host Y = some (Y1, b)
      ∧ Y1.code = Y.code ∧ Y1.codesize = Y.codesize ∧ Y1.memsize = Y.memsize
      ∧ Y1.syscalls = Y.syscalls
      ∧ (b = true → Y1.instructioncount = Y.instructioncount + 1
          ∧ (yarn_getRegister Y YARN_REG_INSTRUCTION 0).2 < Y.codesize)
      ∧ (b = false → Y1.instructioncount = Y.instructioncount
          ∧ yarn_getStatus Y1 = YARN_STATUS_INVALIDINSTRUCTION
          ∧ Y.codesize ≤ (yarn_getRegister Y YARN_REG_INSTRUCTION 0).2) := by
  unfold yarn_divsOverflow at hdiv
  unfold yarn_syscallAt at hlook hhost
  simp only [YARN_REG_INSTRUCTION, YARN_INST_DIVS, YARN_INST_SYSCALL] at *
  rw [yarn_getRegister_val Y 0 0 hM1 hM2 (by omega)] at *
  have e8 : Y.memsize - (0 + 2) * 4 = Y.memsize - 8 := rfl
  rw [e8] at *
  generalize hipd : readWord Y.memory (Y.memsize - 8) = ip at *
  have hlt : ip < 4294967296 := by rw [← hipd]; exact readWord_lt _ _
  rw [yarn_step_eq host Y hM1 hM2, hipd]
  by_cases hv : yarn_validInstruction Y ip 0 = true
  · rw [if_pos hv]
    have hdis : ∃ Y2, yarn_dispatch host Y ip = some Y2 ∧ yarn_rest Y2 = yarn_rest Y := by
      unfold yarn_dispatch
      simp only []
      cases hs : yarn_setup Y ip (host.uninit Y.instructioncount) (Y.code ip).val with
      | none => exact ⟨_, rfl, by simp⟩
      | some r =>
        obtain ⟨Y1, o⟩ := r
        simp only []
        have hsys : (Y.code ip).val = 0x44 →
            Y1 = Y ∧ o.d = codeWord Y ip 1 ∧ yarn_validInstruction Y ip 4 = true := by
          intro hop
          rw [hop] at hs
          exact yarn_setup_syscall Y ip _ Y1 o hs
        cases he : yarn_exec host Y1 ip (host.uninit Y.instructioncount) o (Y.code ip).val with
        | none =>
          exfalso
          rcases yarn_exec_none host Y1 ip _ o _ he with ⟨hop, hB, hA⟩ | ⟨hop, hl⟩
          · apply hdiv
            refine ⟨hv, hop, ?_⟩
            rw [hop, yarn_setup_divs, arithinst_setup_uninit Y _ _ hM1 hM2] at hs
            rw [hs]
            exact ⟨hB, hA⟩
          · obtain ⟨h1, h2, h3⟩ := hsys hop
            rw [h1, h2] at hl
            rcases hl with hl | ⟨id, hl, -⟩
            · exact hlook ⟨hv, hop, h3, hl⟩
            · exact hhost id ⟨hv, hop, h3, hl⟩
        | some Y2 =>
          refine ⟨Y2, rfl, ?_⟩
          refine (yarn_exec_rest _ _ _ _ _ _ _ he ?_).trans (yarn_setup_rest _ _ _ _ _ _ hs)
          intro hop id hl
          obtain ⟨h1, h2, h3⟩ := hsys hop
          rw [h1, h2] at hl
          exact hhost id ⟨hv, hop, h3, hl⟩
    obtain ⟨Y2, h2, hr⟩ := hdis
    rw [h2]
    refine ⟨_, true, rfl, ?_, ?_, ?_, ?_, ?_, by simp⟩
    · exact (yarn_rest_code hr : Y2.code = Y.code)
    · exact (yarn_rest_codesize hr : Y2.codesize = Y.codesize)
    · exact (yarn_rest_memsize hr : Y2.memsize = Y.memsize)
    · exact (yarn_rest_syscalls hr : Y2.syscalls = Y.syscalls)
    intro _
    refine ⟨by simp [yarn_rest_instructioncount hr], ?_⟩
    simp only [yarn_validInstruction, decide_eq_true_eq] at hv
    omega
  · rw [if_neg hv]
    refine ⟨_, false, rfl, yarn_rest_code (by simp), yarn_rest_codesize (by simp),
      yarn_rest_memsize (by simp), yarn_rest_syscalls (by simp), by simp, ?_⟩
    intro _
    refine ⟨yarn_rest_instructioncount (by simp), ?_, ?_⟩
    · exact yarn_getStatus_setStatus Y _ (by omega) hM2
    · simp only [yarn_validInstruction, decide_eq_true_eq] at hv
      omega

/-! ### The look-up on a table that holds only the built-ins -/

theorem yarn_getSysCall_probe_val (Y : yarn_state) (key : Nat) :
    ∀ (fuel n : Nat) (r : Option yarn_CFunc), yarn_getSysCall_probe Y key fuel n = some r →
      ∃ idx, idx < 256 ∧ r = (Y.syscalls idx).val := by
  intro fuel
  induction fuel with
  | zero => intro n r h; cases h
  | succ f ih =>
    intro n r h
    unfold yarn_getSysCall_probe at h
    simp only [YARN_MAP_MASK, YARN_MAP_COUNT] at h
    have hidx : n &&& (256 - 1) = n % 256 := Nat.and_pow_two_sub_one_eq_mod n 8
    rw [hidx] at h
    split_ifs at h with h1 h2
    · simp only [Option.some.injEq] at h
      exact ⟨n % 256, by omega, by rw [h1, h]⟩
    · simp only [Option.some.injEq] at h
      exact ⟨n % 256, by omega, h.symm⟩
    · exact ih _ r h

/-- With only the built-in callbacks registered no look-up finds a function of
the host. -/
theorem yarn_onlyBuiltins_lookup (Y : yarn_state) (h : yarn_onlyBuiltins Y) (d id : Nat) :
    yarn_getSysCall Y d ≠ some (some (.host id)) := by
  intro hl
  obtain ⟨idx, hidx, hr⟩ := yarn_getSysCall_probe_val Y d _ _ _ hl
  rcases h idx hidx with h1 | ⟨hk, hv, -⟩
  · rw [h1] at hr; cases hr
  · rw [hv] at hr
    generalize (Y.syscalls idx).key = k at hk hr
    interval_cases k <;> cases hr

theorem yarn_onlyBuiltins_congr (Y Y1 : yarn_state) (h : yarn_onlyBuiltins Y)
    (hs : Y1.syscalls = Y.syscalls) : yarn_onlyBuiltins Y1 := by
  unfold yarn_onlyBuiltins
  rw [hs]
  exact h

/-- With only the built-in callbacks registered a pass other than a DIVS of
`INT_MIN` by `-1` is none of the passes that may not end. -/
theorem yarn_onlyBuiltins_pass (Y : yarn_state) (h : yarn_onlyBuiltins Y) :
    ¬ yarn_syscallAt Y none ∧ ∀ id, ¬ yarn_syscallAt Y (some (some (.host id))) := by
  constructor
  · rintro ⟨-, -, -, hl⟩
    obtain ⟨r, hr⟩ := yarn_getSysCall_returns Y _ (yarn_onlyBuiltins_hasEmptySlot Y h)
    rw [hr] at hl
    cases hl
  · rintro id ⟨-, -, -, hl⟩
    exact yarn_onlyBuiltins_lookup Y h _ id hl

/-! ### The run loop -/

theorem yarn_loop_trap (host : yarn_host) (Y : yarn_state) (icount : Int)
    (hrun : yarn_running Y icount) (hstep : yarn_step host Y = none) :
    ∀ fuel, yarn_loop host fuel Y icount = none := by
  intro fuel
  cases fuel with
  | zero => simp [yarn_loop, hrun]
  | succ n => simp [yarn_loop, hrun, hstep]

theorem yarn_loop_break (host : yarn_host) (fuel : Nat) (Y Y1 : yarn_state) (icount : Int)
    (hrun : yarn_running Y icount) (hstep : yarn_step host Y = some (Y1, false)) :
    yarn_loop host (fuel + 1) Y icount = some Y1 := by
  simp [yarn_loop, hrun, hstep]

/-- The loop of `yarn_execute` with a count `n ≥ 0`, with only the built-in
callbacks registered: either it is left within `n` passes, having counted at
most `n` dispatches and exactly `n` when the status is still OK, or it reaches
after `k < n` passes, with status OK, a DIVS of `INT_MIN` by `-1` and is never
left. -/
theorem yarn_loop_counts (host : yarn_host) :
    ∀ (n : Nat) (Y : yarn_state), 72 ≤ Y.memsize → Y.memsize < 4294967296 →
      yarn_onlyBuiltins Y →
      (∃ Y1, (∀ fuel, n ≤ fuel → yarn_loop host fuel Y n = some Y1)
        ∧ Y.instructioncount ≤ Y1.instructioncount
        ∧ Y1.instructioncount ≤ Y.instructioncount + n
        ∧ (yarn_getStatus Y1 = YARN_STATUS_OK →
            Y1.instructioncount = Y.instructioncount + n))
      ∨ (∃ k Yk, k < n ∧ yarn_loop host k Y k = some Yk
        ∧ yarn_getStatus Yk = YARN_STATUS_OK
        ∧ Yk.instructioncount = Y.instructioncount + k
        ∧ yarn_divsOverflow Yk
        ∧ ∀ fuel, yarn_loop host fuel Y n = none) := by
  intro n
  induction n with
  | zero =>
    intro Y _ _ _
    left
    exact ⟨Y, fun fuel _ => yarn_loop_zero host fuel Y, le_refl _, by omega, fun _ => rfl⟩
  | succ m ih =>
    intro Y hM1 hM2 hb
    by_cases hOK : yarn_getStatus Y = YARN_STATUS_OK
    · have hrun : yarn_running Y ((m + 1 : Nat) : Int) := ⟨hOK, Or.inl (by omega)⟩
      by_cases hov : yarn_divsOverflow Y
      · right
        exact ⟨0, Y, by omega, yarn_loop_zero host 0 Y, hOK, rfl, hov,
          yarn_loop_trap host Y _ hrun (yarn_step_overflow host Y hM1 hM2 hov)⟩
      · obtain ⟨hp1, hp2⟩ := yarn_onlyBuiltins_pass Y hb
        obtain ⟨Y1, b, hstep, -, -, hmem, hsys, htrue, hfalse⟩ :=
          yarn_step_returns host Y hM1 hM2 hov hp1 hp2
        cases b with
        | false =>
          obtain ⟨hc, hst, -⟩ := hfalse rfl
          left
          refine ⟨Y1, ?_, by omega, by omega, ?_⟩
          · intro fuel hf
            obtain ⟨f, rfl⟩ : ∃ f, fuel = f + 1 := ⟨fuel - 1, by omega⟩
            exact yarn_loop_break host f Y Y1 _ hrun hstep
          · intro h
            rw [hst] at h
            exact absurd h (by decide)
        | true =>
          obtain ⟨hc, -⟩ := htrue rfl
          have hcast : ((m + 1 : Nat) : Int) = (m : Int) + 1 := by push_cast; rfl
          have hnext : ∀ fuel, yarn_loop host (fuel + 1) Y ((m + 1 : Nat) : Int)
              = yarn_loop host fuel Y1 m := by
            intro fuel
            rw [hcast]
            exact yarn_loop_counted host fuel Y Y1 m hOK hstep
          rcases ih Y1 (by omega) (by omega) (yarn_onlyBuiltins_congr Y Y1 hb hsys) with
            ⟨Y2, h2, ha, hb2, hc2⟩ | ⟨k, Yk, hk, hrunk, hstk, hck, hovk, hnone⟩
          · left
            refine ⟨Y2, ?_, by omega, by omega, ?_⟩
            · intro fuel hf
              obtain ⟨f, rfl⟩ : ∃ f, fuel = f + 1 := ⟨fuel - 1, by omega⟩
              rw [hnext f]
              exact h2 f (by omega)
            · intro h
              have := hc2 h
              omega
          · right
            refine ⟨k + 1, Yk, by omega, ?_, hstk, by omega, hovk, ?_⟩
            · have hcastk : ((k + 1 : Nat) : Int) = (k : Int) + 1 := by push_cast; rfl
              rw [hcastk, yarn_loop_counted host k Y Y1 k hOK hstep]
              exact hrunk
            · intro fuel
              cases fuel with
              | zero =>
                unfold yarn_loop
                exact if_pos hrun
              | succ f => rw [hnext f]; exact hnone f
    · left
      exact ⟨Y, fun fuel _ => yarn_loop_stop host fuel Y _ hOK, le_refl _, by omega,
        fun h => absurd h hOK⟩

/-! ### The counter over a run and over one step -/

end Yarn
